import Mathlib

/-! e-org: M-Pesa payment reconciliation

A shallow embedding of the serverless handlers under `api/mpesa/` (phone
normalisation, push initiation, callback ingestion, status resolution and
status reading) and of the order handler `api/sales/create.js`, together with
the properties established about them.

Conventions of the embedding

* A loosely typed JSON field is a `JsVal`: absent, `null`, a boolean, a number
  or a string.  Numbers are integers (every result code, identifier and stock
  level the handlers branch on is one); `String(n)` is plain decimal, as in
  JavaScript for magnitudes below `10^21`.
* The callback's `ResultCode`, which the handler classifies through
  `String(…)`, is a `JsonValue`: a scalar or an array of scalars.
* An amount is a `JsNum`, the value `Number(v)` of its field: `NaN`, an
  infinity, or a finite value `m / 2 ^ k`.
* A JavaScript string is a Lean `String`; functions that inspect it work on its
  list of characters.
* The runtime's `Date` is a parameter of the environment; its behaviour on the
  strings the callback builds is given separately (`newDateToISOString`).
* Every outbound HTTP call gets its outcome from an explicit environment
  value, and every handler returns the response it sent, the store it leaves
  and the list of outbound calls it made.
-/

namespace EOrg

/-! ## JSON scalars -/

/-- A JSON scalar as read from a request body or a gateway answer;
`undefined` stands for a missing field. -/
inductive JsVal where
  | undefined
  | null
  | bool (b : Bool)
  | num (n : Int)
  | str (s : String)
  deriving DecidableEq, Repr, Inhabited

namespace JsVal

/-- JavaScript truthiness (`if (v)`, `v || w`, `v && w`). -/
def truthy : JsVal → Bool
  | undefined => false
  | null => false
  | bool b => b
  | num n => n != 0
  | str s => s != ""

/-- The conversion `String(v)`. -/
def toStr : JsVal → String
  | undefined => "undefined"
  | null => "null"
  | bool true => "true"
  | bool false => "false"
  | num n => toString n
  | str s => s

/-- The operator `a || b`. -/
def or (a b : JsVal) : JsVal := if a.truthy then a else b

/-- The test `v == null` (true for `null` and `undefined` only). -/
def isNullish : JsVal → Bool
  | undefined => true
  | null => true
  | _ => false

end JsVal

/-- A JavaScript number as `Number(v)` returns it: `NaN`, an infinity, or the
finite value `m / 2 ^ k` (every finite double has this form). -/
inductive JsNum where
  | nan
  | posInf
  | negInf
  | fin (m : Int) (k : Nat)
  deriving DecidableEq, Repr

/-- The test `Number.isFinite(x)`. -/
def JsNum.isFinite : JsNum → Bool
  | .fin _ _ => true
  | _ => false

/-- The comparison `x <= 0` (false for `NaN`). -/
def JsNum.leZero : JsNum → Bool
  | .nan => false
  | .posInf => false
  | .negInf => true
  | .fin m _ => m ≤ 0

/-- The call `Math.round(x)` on the finite value `m / 2 ^ k`: the integer
nearest to it, the upper one on a tie, that is the floor of `m / 2 ^ k + 1/2`. -/
def mathRound (m : Int) (k : Nat) : Int := Int.fdiv (2 * m + 2 ^ k) (2 ^ (k + 1))

/-- The value `Math.round(x)` as JSON carries it: `none` is the `null` that
`NaN` and the infinities serialise to. -/
def JsNum.round : JsNum → Option Int
  | .fin m k => some (mathRound m k)
  | _ => none

/-! ## Phone normaliser (`utils.js`, `normalizeMsisdn`) -/

/-- The character class `\s` of a JavaScript regular expression, which is also
the set removed by `String.prototype.trim`. -/
def isJsWhitespace (c : Char) : Bool :=
  let n := c.toNat
  n == 0x09 || n == 0x0A || n == 0x0B || n == 0x0C || n == 0x0D || n == 0x20 ||
  n == 0xA0 || n == 0x1680 || (0x2000 ≤ n && n ≤ 0x200A) || n == 0x2028 ||
  n == 0x2029 || n == 0x202F || n == 0x205F || n == 0x3000 || n == 0xFEFF

/-- The character class `\d` (ASCII digits only, no `u` flag). -/
def isAsciiDigit (c : Char) : Bool := 48 ≤ c.toNat && c.toNat ≤ 57

/-- The method `String.prototype.trim` on a list of characters. -/
def jsTrim (cs : List Char) : List Char :=
  ((cs.dropWhile isJsWhitespace).reverse.dropWhile isJsWhitespace).reverse

/-- The method `s.startsWith(p)`. -/
def startsWith (cs : List Char) (p : String) : Bool := p.data.isPrefixOf cs

/-- The final pattern check `/^254[71]\d{8}$/.test(digits)`. -/
def matchesMsisdnPattern (cs : List Char) : Bool :=
  cs.length == 12 && startsWith cs "254" &&
  ((cs.drop 3).head? == some '7' || (cs.drop 3).head? == some '1') &&
  (cs.drop 4).all isAsciiDigit

/-- Lines 187-191 of `utils.js`: the pattern check every branch that did not
return falls through to. -/
def finalPatternCheck (digits : List Char) : Option String :=
  if matchesMsisdnPattern digits then some (String.mk digits) else none

/-- Lines 165-191 of `utils.js`: the branching on the digit string. -/
def normalizeDigits (digits : List Char) : Option String :=
  if startsWith digits "254" then
    if digits.length == 12 && startsWith digits "2540" then
      some (String.mk ("254".data ++ digits.drop 4))
    else if digits.length == 12 && (startsWith digits "2547" || startsWith digits "2541") then
      some (String.mk digits)
    else finalPatternCheck digits
  else if startsWith digits "0" then
    if digits.length == 10 then
      let normalized := "254".data ++ digits.drop 1
      if startsWith normalized "2547" || startsWith normalized "2541" then
        some (String.mk normalized)
      else finalPatternCheck digits
    else finalPatternCheck digits
  else if digits.length == 9 && startsWith digits "7" then
    some (String.mk ("254".data ++ digits))
  else if digits.length == 10 && startsWith digits "11" then
    some (String.mk ("254".data ++ digits.drop 1))
  else if digits.length == 9 && startsWith digits "11" then
    some (String.mk ("2541".data ++ digits.drop 1))
  else finalPatternCheck digits

/-- The function `normalizeMsisdn(input)`; `none` is the `null` result. -/
def normalizeMsisdn (input : JsVal) : Option String :=
  let s := (jsTrim (input.or (.str "")).toStr.data).filter (fun c => !isJsWhitespace c)
  if s.isEmpty then none
  else normalizeDigits (s.filter isAsciiDigit)


/-- The digit sequence of an input: the ASCII digits of `String(input || '')`,
in their order. -/
def digitSequence (input : JsVal) : List Char :=
  (input.or (.str "")).toStr.data.filter isAsciiDigit

/-- The six shapes of a digit sequence that the specification lists as
accepted: 12 digits beginning `2547` or `2541`, 12 digits beginning `2540`,
10 digits beginning `07` or `01`, 9 digits beginning `7`, 10 digits beginning
`11`, 9 digits beginning `11`. -/
def isListedShape (d : List Char) : Bool :=
  (d.length == 12 && (startsWith d "2547" || startsWith d "2541")) ||
  (d.length == 12 && startsWith d "2540") ||
  (d.length == 10 && (startsWith d "07" || startsWith d "01")) ||
  (d.length == 9 && startsWith d "7") ||
  (d.length == 10 && startsWith d "11") ||
  (d.length == 9 && startsWith d "11")

/-! ## Transaction Store

The store is an external REST service; the embedding keeps its tables as
lists of rows.  Text columns hold `none` for SQL `NULL`.  A filter
`column=eq.value` selects the rows whose column text equals `value`. -/

/-- A cart line as kept in a transaction's metadata. -/
structure LineItem where
  id : JsVal
  quantity : JsVal
  deriving DecidableEq, Repr

/-- The `metadata` column of a transaction as the callback reads it: `NULL`,
a string that `JSON.parse` rejects, or an object with its `items` field
(`none` when the field is missing or falsy). -/
inductive Metadata where
  | absent
  | malformed
  | parsed (items : Option (List LineItem))
  deriving DecidableEq, Repr

/-- A row of `mpesa_transactions`. -/
structure MpesaTransaction where
  checkout_request_id : Option String
  merchant_request_id : Option String
  result_code : Option String
  result_desc : Option String
  amount : Option Int
  mpesa_receipt_number : Option String
  transaction_date : Option String
  phone_number : Option String
  status : Option String
  metadata : Metadata
  updated_at : Option String
  order_id : Option String := none
  deriving DecidableEq, Repr

/-- A row of `products`; `stock` is `none` for `NULL`. -/
structure Product where
  id : String
  stock : Option Int
  deriving DecidableEq, Repr

/-- A row of `store_front_sales`. -/
structure Sale where
  order_id : String
  customer_name : String
  customer_email : String
  customer_phone : String
  delivery_address : String
  location : Option String
  mpesa_phone : String
  total_amount : JsNum
  status : String
  payment_method : String
  order_type : String
  deriving DecidableEq, Repr

/-- A row of `store_front_sale_items`, with the columns that identify the
line; its descriptive and price columns (`product_name`, `unit_price`,
`price_type`, `tier_label`, `total_price`) are not represented. -/
structure SaleItem where
  order_id : String
  product_id : Option String
  quantity : Int
  deriving DecidableEq, Repr

/-- The tables the handlers touch. -/
structure Store where
  transactions : List MpesaTransaction
  products : List Product
  sales : List Sale := []
  saleItems : List SaleItem := []
  deriving DecidableEq, Repr

/-- The JSON body of a `PATCH`/`POST` on `mpesa_transactions`: for each column
`none` when the body does not mention it, `some v` when it sets it to `v`. -/
structure TxPatch where
  checkout_request_id : Option (Option String) := none
  merchant_request_id : Option (Option String) := none
  result_code : Option (Option String) := none
  result_desc : Option (Option String) := none
  amount : Option (Option Int) := none
  mpesa_receipt_number : Option (Option String) := none
  transaction_date : Option (Option String) := none
  phone_number : Option (Option String) := none
  status : Option (Option String) := none
  metadata : Option Metadata := none
  updated_at : Option (Option String) := none
  order_id : Option (Option String) := none
  deriving DecidableEq, Repr

/-- The row after the columns named in the body have been overwritten. -/
def TxPatch.applyTo (p : TxPatch) (r : MpesaTransaction) : MpesaTransaction :=
  { checkout_request_id := p.checkout_request_id.getD r.checkout_request_id
    merchant_request_id := p.merchant_request_id.getD r.merchant_request_id
    result_code := p.result_code.getD r.result_code
    result_desc := p.result_desc.getD r.result_desc
    amount := p.amount.getD r.amount
    mpesa_receipt_number := p.mpesa_receipt_number.getD r.mpesa_receipt_number
    transaction_date := p.transaction_date.getD r.transaction_date
    phone_number := p.phone_number.getD r.phone_number
    status := p.status.getD r.status
    metadata := p.metadata.getD r.metadata
    updated_at := p.updated_at.getD r.updated_at
    order_id := p.order_id.getD r.order_id }

/-- The row a body inserts: unmentioned columns are `NULL`. -/
def TxPatch.toRow (p : TxPatch) : MpesaTransaction :=
  p.applyTo
    { checkout_request_id := none, merchant_request_id := none, result_code := none,
      result_desc := none, amount := none, mpesa_receipt_number := none,
      transaction_date := none, phone_number := none, status := none,
      metadata := .absent, updated_at := none }

/-- The filter `checkout_request_id=eq.<cid>`. -/
def MpesaTransaction.hasCheckoutId (r : MpesaTransaction) (cid : String) : Bool :=
  r.checkout_request_id == some cid

/-- The first row a `GET ...?checkout_request_id=eq.<cid>&limit=1` returns. -/
def Store.lookupTx (w : Store) (cid : String) : Option MpesaTransaction :=
  w.transactions.find? (fun r => r.hasCheckoutId cid)

/-- The effect of an accepted `PATCH ...?checkout_request_id=eq.<cid>`: every
matching row takes the columns of the body. -/
def Store.patchTx (w : Store) (cid : String) (p : TxPatch) : Store :=
  { w with transactions :=
      w.transactions.map (fun r => if r.hasCheckoutId cid then p.applyTo r else r) }

/-- The effect of an accepted `POST` with `Prefer: resolution=merge-duplicates`
on a table keyed by `checkout_request_id`: a row with the key of the body takes
the body's columns, and a body whose key is new (or `NULL`) is inserted. -/
def Store.upsertTx (w : Store) (p : TxPatch) : Store :=
  match p.checkout_request_id with
  | some (some cid) =>
    if w.transactions.any (fun r => r.hasCheckoutId cid) then w.patchTx cid p
    else { w with transactions := w.transactions ++ [p.toRow] }
  | _ => { w with transactions := w.transactions ++ [p.toRow] }

/-- The effect of an accepted `PATCH products?id=eq.<pid>` with body
`{stock: n}` (`none` is the JSON `null` that a `NaN` serialises to). -/
def Store.setStock (w : Store) (pid : String) (n : Option Int) : Store :=
  { w with products :=
      w.products.map (fun p => if p.id == pid then { p with stock := n } else p) }

/-! ## Environment, responses and handler state -/

/-- How an outbound `fetch` ends: a success status, a non-success status, or
a rejection (network failure, timeout, unreadable body). -/
inductive Fetch where
  | ok
  | httpError
  | throws
  deriving DecidableEq, Repr

/-- How `getAccessToken` ends: it throws before any request when the consumer
credentials are not configured, throws after the request (network failure,
non-success status, answer without a token), or returns a token. -/
inductive TokenOutcome where
  | missingCredentials
  | failed
  | ok
  deriving DecidableEq, Repr

/-- The fields of the gateway's status answer the resolver reads. -/
structure GatewayData where
  ResultCode : JsVal
  ResultDesc : JsVal
  deriving DecidableEq, Repr

/-- How the call to `/mpesa/stkpushquery/v1/query` ends: the fetch or the
reading of its body rejects, the status is not a success, or the status is a
success and the body is the given data. -/
inductive GatewayAnswer where
  | throws
  | httpError
  | ok (data : GatewayData)
  deriving DecidableEq, Repr

/-- The properties of a thrown error that the handlers inspect. -/
structure JsError where
  name : String
  code : Option String
  message : String
  deriving DecidableEq, Repr

/-- An `Error` thrown with `throw new Error(message)`. -/
def plainError (message : String) : JsError :=
  { name := "Error", code := none, message := message }

/-- The fields of the gateway's push answer that `stkpush.js` reads. -/
structure PushData where
  ResponseCode : JsVal
  ResponseDescription : JsVal
  CheckoutRequestID : JsVal
  MerchantRequestID : JsVal
  errorCode : JsVal
  errorMessage : JsVal
  deriving DecidableEq, Repr

/-- How the call to `/mpesa/stkpush/v1/processrequest` ends: the fetch or the
reading of its text rejects, the text is not JSON, the text is the JSON `null`
(under a success status or not), the status is not a success, or the status is
a success; in the last two cases the body is the given data. -/
inductive PushAnswer where
  | throws
  | unparseable
  | jsonNull (ok : Bool)
  | httpError (data : PushData)
  | ok (data : PushData)
  deriving DecidableEq, Repr

/-- How the insertion of a sale row ends: the fetch rejects, the store refuses
it with the given status and text, or the store takes the request (and then
answers by its own key constraint). -/
inductive SaleInsert where
  | throws
  | rejected (status : Nat) (text : String)
  | accepted
  deriving DecidableEq, Repr

/-- Everything outside the handler that one invocation depends on: the
configuration, the clock, two runtime builtins, and the outcome of each
outbound call (per line item for the stock calls). -/
structure Env where
  /-- Both `SUPABASE_URL` and a key are set. -/
  storeConfigured : Bool
  /-- The value of `new Date().toISOString()`. -/
  now : String
  /-- The builtin `Number(s)` on strings; `none` is `NaN`. -/
  stringToNumber : String → Option Int
  /-- The builtin `new Date(s).toISOString()`; `none` when it throws
  `RangeError` on an invalid date. -/
  dateToISOString : String → Option String
  txGet : Fetch
  txPatch : Fetch
  txUpsert : Fetch
  metadataGet : Fetch
  stockGet : Nat → Fetch
  stockPatch : Nat → Fetch
  token : TokenOutcome
  /-- Both the shortcode and the passkey are set. -/
  gatewayConfigured : Bool
  gateway : GatewayAnswer
  /-- The error `getAccessToken` throws when `token` is not `ok`. -/
  tokenError : JsError
  /-- The message of the error `getRequiredEnv` throws when the shortcode or
  the passkey is not set. -/
  missingVarMessage : String
  /-- The value of `MPESA_CALLBACK_URL`, empty when it is not set. -/
  callbackUrl : String
  /-- The outcome of the n-th upsert of a push (0: before the gateway call,
  1: after it). -/
  pushUpsert : Nat → Fetch
  push : PushAnswer
  /-- The error the push fetch rejects with when `push` is `throws`. -/
  pushError : JsError
  /-- The message and the text of the error a rejecting store fetch of
  `create.js` raises. -/
  storeError : String × String
  saleGet : Fetch
  saleInsert : SaleInsert
  saleItemsInsert : Fetch
  txLink : Fetch

/-- An outbound call made by a handler. -/
inductive Call where
  | txGet (cid : String)
  | txPatch (cid : String)
  | txUpsert
  | metadataGet (cid : String)
  | stockGet (pid : String)
  | stockPatch (pid : String)
  | tokenRequest
  | gatewayQuery (cid : String)
  | gatewayPush (amount : Option Int) (phone : String) (accountReference : String)
  | saleGet (orderId : String)
  | saleInsert (orderId : String)
  | saleItemsInsert (orderId : String)
  | txLink (cid : String)
  deriving DecidableEq, Repr

/-- The calls that ask the store to change a row. -/
def Call.isStoreWrite : Call → Bool
  | .txPatch _ => true
  | .txUpsert => true
  | .stockPatch _ => true
  | .saleInsert _ => true
  | .saleItemsInsert _ => true
  | .txLink _ => true
  | _ => false

/-- The calls that go to the payment gateway. -/
def Call.isGatewayCall : Call → Bool
  | .tokenRequest => true
  | .gatewayQuery _ => true
  | .gatewayPush _ _ _ => true
  | _ => false

/-- The success body of the two polling endpoints; `rowExists` is the JSON
field `exists` and `raw` the echoed gateway answer. -/
structure StatusBody where
  status : String
  resultCode : JsVal
  resultDesc : JsVal
  source : String
  rowExists : Option Bool
  raw : Option GatewayData
  deriving DecidableEq, Repr

/-- A response body. -/
inductive Body where
  /-- No body (`res.end()`). -/
  | empty
  /-- The body `{"ok":true}`. -/
  | ack
  /-- The body `{"success":false,"message":…}` with the optional `error`. -/
  | failure (message : String) (error : Option String)
  /-- The body `{"success":true,…}`. -/
  | status (b : StatusBody)
  /-- The body `{"success":…,"message":…,"checkoutRequestId":…,
  "merchantRequestId":…}` of a push the gateway answered. -/
  | push (success : Bool) (message : JsVal) (checkoutRequestId : JsVal)
      (merchantRequestId : JsVal)
  /-- The body `{"success":false,"message":"STK push failed","details":…}`. -/
  | pushFailed (details : PushData)
  /-- The body `{"success":true,"orderId":…,"message":…}` with the optional
  `inventoryUpdated`. -/
  | order (orderId : String) (message : String) (inventoryUpdated : Option Bool)
  deriving DecidableEq, Repr

/-- An HTTP response. -/
structure Response where
  statusCode : Nat
  body : Body
  deriving DecidableEq, Repr

/-- The state threaded through a handler: the store, the response sent so far
and the outbound calls made so far. -/
structure HState where
  store : Store
  res : Option Response
  calls : List Call
  deriving DecidableEq, Repr

/-- Record an outbound call. -/
def HState.call (st : HState) (c : Call) : HState :=
  { st with calls := st.calls ++ [c] }

/-- Send a response; once a response has been sent a later attempt does not
reach the client. -/
def HState.send (st : HState) (r : Response) : HState :=
  match st.res with
  | some _ => st
  | none => { st with res := some r }

/-- A text column as a JSON value. -/
def columnToJs : Option String → JsVal
  | none => .null
  | some s => .str s

/-- A JSON scalar written to a text column. -/
def jsToColumn (v : JsVal) : Option String :=
  if v.isNullish then none else some v.toStr

/-! ## Store access (`utils.js`) -/

/-- The function `supabaseGetMpesaTransactionByCheckoutRequestId`: the row, or
`none` (`null`) when the store is not configured, the id is empty, the request
fails or no row matches. -/
def supabaseGetMpesaTransactionByCheckoutRequestId (env : Env) (checkoutRequestId : String)
    (st : HState) : Option MpesaTransaction × HState :=
  if !env.storeConfigured then (none, st)
  else if checkoutRequestId == "" then (none, st)
  else
    let st1 := st.call (.txGet checkoutRequestId)
    match env.txGet with
    | .ok => (st1.store.lookupTx checkoutRequestId, st1)
    | .httpError => (none, st1)
    | .throws => (none, st1)

/-- The function `supabaseUpdateMpesaTransactionByCheckoutRequestId`.  Every
failure is caught and logged inside it, so it returns normally on every path;
the result type keeps the exceptional case its callers guard against. -/
def supabaseUpdateMpesaTransactionByCheckoutRequestId (env : Env) (checkoutRequestId : JsVal)
    (patch : TxPatch) (st : HState) : Except String HState :=
  if !env.storeConfigured then .ok st
  else if !checkoutRequestId.truthy then .ok st
  else
    let cid := checkoutRequestId.toStr
    let st1 := st.call (.txPatch cid)
    match env.txPatch with
    | .ok => .ok { st1 with store := st1.store.patchTx cid { patch with updated_at := some (some env.now) } }
    | .httpError => .ok st1
    | .throws => .ok st1

/-- The function `supabaseUpsertMpesaTransaction`. -/
def supabaseUpsertMpesaTransaction (env : Env) (transaction : TxPatch) (st : HState) : HState :=
  if !env.storeConfigured then st
  else
    let st1 := st.call .txUpsert
    match env.txUpsert with
    | .ok => { st1 with store := st1.store.upsertTx transaction }
    | .httpError => st1
    | .throws => st1

/-! ## Callback Ingestor (`callback.js`) -/

/-- A JSON value as the envelope may carry it in `ResultCode`: a scalar, or an
array of scalars.  Arrays within arrays and objects are not represented. -/
inductive JsonValue where
  | scalar (v : JsVal)
  | array (items : List JsVal)
  deriving DecidableEq, Repr

/-- The method `join` with the separator `,`, on the texts of the elements. -/
def joinWithComma : List String → String
  | [] => ""
  | [a] => a
  | a :: b :: rest => a ++ "," ++ joinWithComma (b :: rest)

/-- The text `join` takes for an element: empty for `null` and `undefined`,
`String(v)` for any other. -/
def elementText (v : JsVal) : String := if v.isNullish then "" else v.toStr

namespace JsonValue

/-- The conversion `String(v)`; an array gives the texts of its elements
joined by commas. -/
def toStr : JsonValue → String
  | scalar v => v.toStr
  | array items => joinWithComma (items.map elementText)

/-- The test `v == null`. -/
def isNullish : JsonValue → Bool
  | scalar v => v.isNullish
  | array _ => false

end JsonValue

/-- An element of `CallbackMetadata.Item`; `Value` is `none` when the object
has no own property `Value`. -/
structure MetaItem where
  Name : JsVal
  Value : Option JsVal
  deriving DecidableEq, Repr

/-- The object `Body.stkCallback` of the callback envelope.  `Item` is the
metadata list (empty when `CallbackMetadata.Item` is missing or not an array);
an element that is not an object is `none`. -/
structure StkCallback where
  CheckoutRequestID : JsVal
  MerchantRequestID : JsVal
  ResultCode : JsonValue
  ResultDesc : JsVal
  Item : List (Option MetaItem)
  deriving DecidableEq, Repr

/-- What `await json(req)` gives the callback handler: it throws, or it returns
a body without `Body.stkCallback`, or one with it. -/
inductive CallbackRequest where
  | unparseable
  | noStkCallback
  | envelope (stk : StkCallback)
  deriving DecidableEq, Repr

/-- The method `toLowerCase` on the names compared here.  The four names
looked up contain no letter that a non-ASCII character lowers to, so lowering
ASCII letters decides the same matches. -/
def jsToLowerCase (s : String) : String := s.map Char.toLower

/-- The function `pickCallbackValue(items, name)`. -/
def pickCallbackValue (items : List (Option MetaItem)) (name : String) : JsVal :=
  let found := items.find? (fun i =>
    match i with
    | none => false
    | some it => jsToLowerCase (it.Name.or (.str "")).toStr == jsToLowerCase name)
  match found with
  | some (some it) =>
    match it.Value with
    | some v => v
    | none => .null
  | _ => .null

/-- Lines 102-107 of `callback.js`: `.ok none` when there is no date to parse,
`.ok (some iso)` for a parsed one, `.error` when `toISOString` throws. -/
def parseTransactionDate (env : Env) (transactionDateRaw : JsVal) :
    Except Unit (Option String) :=
  if transactionDateRaw.truthy then
    let s := transactionDateRaw.toStr.data
    if s.length == 14 && s.all isAsciiDigit then
      let iso := String.mk (s.take 4 ++ ['-'] ++ (s.drop 4).take 2 ++ ['-'] ++ (s.drop 6).take 2 ++
        ['T'] ++ (s.drop 8).take 2 ++ [':'] ++ (s.drop 10).take 2 ++ [':'] ++ (s.drop 12).take 2 ++
        ['Z'])
      match env.dateToISOString iso with
      | some t => .ok (some t)
      | none => .error ()
    else .ok none
  else .ok none

/-- Lines 109-111 of `callback.js`: the status classified from `ResultCode`. -/
def callbackStatus (resultCode : JsonValue) : String :=
  if resultCode.toStr = "0" ∨ resultCode = .scalar (.num 0) then "success"
  else if resultCode.toStr = "1032" then "cancelled"
  else "failed"

/-- The operand conversion of `-` (`ToNumber`); `none` is `NaN`. -/
def jsToNumber (env : Env) : JsVal → Option Int
  | .undefined => none
  | .null => some 0
  | .bool true => some 1
  | .bool false => some 0
  | .num n => some n
  | .str s => env.stringToNumber s

/-- The call `Number(v)` followed by JSON serialisation (`NaN` becomes
`null`). -/
def jsNumberColumn (env : Env) (v : JsVal) : Option Int :=
  if v.isNullish then none else jsToNumber env v

/-- Lines 113-123 of `callback.js`: the record written for a callback, or
`.error` when the date conversion throws. -/
def transactionRecord (env : Env) (stk : StkCallback) : Except Unit TxPatch :=
  let checkoutRequestId := stk.CheckoutRequestID.or .null
  let merchantRequestId := stk.MerchantRequestID.or .null
  let resultCode := stk.ResultCode
  let resultDesc := stk.ResultDesc.or .null
  let amount := pickCallbackValue stk.Item "Amount"
  let mpesaReceiptNumber := pickCallbackValue stk.Item "MpesaReceiptNumber"
  let transactionDateRaw := pickCallbackValue stk.Item "TransactionDate"
  let phoneNumber := pickCallbackValue stk.Item "PhoneNumber"
  match parseTransactionDate env transactionDateRaw with
  | .error e => .error e
  | .ok transactionDate =>
    .ok
      { checkout_request_id := some (jsToColumn checkoutRequestId)
        merchant_request_id := some (jsToColumn merchantRequestId)
        result_code := some (if resultCode.isNullish then none else some resultCode.toStr)
        result_desc := some (jsToColumn resultDesc)
        amount := some (jsNumberColumn env amount)
        mpesa_receipt_number :=
          some (if mpesaReceiptNumber.isNullish then none else some mpesaReceiptNumber.toStr)
        transaction_date := some transactionDate
        phone_number := some (if phoneNumber.isNullish then none else some phoneNumber.toStr)
        status := some (some (callbackStatus resultCode)) }

/-- The loop of `deductInventory` (lines 24-62 of `callback.js`), from the
line item at position `i`.  The flag is `false` when a fetch rejected, which
leaves the loop through the enclosing `catch`. -/
def deductLoop (env : Env) : Nat → List LineItem → HState → HState × Bool
  | _, [], st => (st, true)
  | i, item :: rest, st =>
    let pid := item.id.toStr
    let st1 := st.call (.stockGet pid)
    match env.stockGet i with
    | .throws => (st1, false)
    | .httpError => deductLoop env (i + 1) rest st1
    | .ok =>
      match st1.store.products.find? (fun p => p.id == pid) with
      | none => deductLoop env (i + 1) rest st1
      | some p =>
        let currentStock := p.stock.getD 0
        match jsToNumber env item.quantity with
        | none => deductLoop env (i + 1) rest st1
        | some q =>
          let newStock := currentStock - q
          if newStock ≥ 0 then
            let st2 := st1.call (.stockPatch pid)
            match env.stockPatch i with
            | .throws => (st2, false)
            | .httpError => deductLoop env (i + 1) rest st2
            | .ok =>
              deductLoop env (i + 1) rest { st2 with store := st2.store.setStock pid (some newStock) }
          else deductLoop env (i + 1) rest st1

/-- The function `deductInventory(items, checkoutRequestId)` with its boolean
result. -/
def deductInventory (env : Env) (items : List LineItem) (st : HState) : HState × Bool :=
  if !env.storeConfigured then (st, false)
  else if items.length > 0 then deductLoop env 0 items st
  else (st, false)

/-- Lines 90-165 of `callback.js`: the processing that follows the
acknowledgement.  `.error` carries the state at the point where an exception
leaves the block. -/
def processCallback (env : Env) (stk : StkCallback) (st : HState) : Except HState HState :=
  let checkoutRequestId := stk.CheckoutRequestID.or .null
  match transactionRecord env stk with
  | .error _ => .error st
  | .ok transactionRecord =>
    let status := callbackStatus stk.ResultCode
    let st1 :=
      match supabaseUpdateMpesaTransactionByCheckoutRequestId env checkoutRequestId
          transactionRecord st with
      | .ok s => s
      | .error _ => supabaseUpsertMpesaTransaction env transactionRecord st
    if status == "success" then
      if env.storeConfigured then
        let cid := checkoutRequestId.toStr
        let st2 := st1.call (.metadataGet cid)
        match env.metadataGet with
        | .throws => .error st2
        | .httpError => .ok st2
        | .ok =>
          match st2.store.lookupTx cid with
          | none => .ok st2
          | some tx =>
            match tx.metadata with
            | .absent => .ok st2
            | .malformed => .error st2
            | .parsed none => .ok st2
            | .parsed (some items) => .ok (deductInventory env items st2).1
      else .ok st1
    else .ok st1

/-- The acknowledgement `200 {"ok":true}`. -/
def ackResponse : Response := { statusCode := 200, body := .ack }

/-- The handler exported by `callback.js`. -/
def callbackHandler (env : Env) (req : CallbackRequest) (w : Store) : HState :=
  let st0 : HState := { store := w, res := none, calls := [] }
  match req with
  | .unparseable => st0.send ackResponse
  | .noStkCallback => st0.send ackResponse
  | .envelope stk =>
    let st1 := st0.send ackResponse
    match processCallback env stk st1 with
    | .ok st2 => st2
    | .error st2 => st2.send ackResponse

/-! ## Status Resolver (`query.js`) -/

/-- What `await json(req)` gives a polling handler: it throws (with the
error's `message` and its `toString()`), it returns `null`, or it returns a
value whose field `checkoutRequestId` is the given one (`undefined` when the
value has no such field). -/
inductive ReqBody where
  | unparseable (message : String) (text : String)
  | jsonNull
  | object (checkoutRequestId : JsVal)
  deriving DecidableEq, Repr

/-- A request to the resolver: `queryParam` is `req.query.checkoutRequestId`
and `urlParam` the value of `searchParams.get('checkoutRequestId')` (`none`
when the parameter is missing or the URL does not parse). -/
structure QueryRequest where
  method : String
  body : ReqBody
  queryParam : JsVal
  urlParam : Option String
  deriving DecidableEq, Repr

/-- Lines 34-44 of `query.js`: the checkout id of a request whose body was
read. -/
def resolverCheckoutId (req : QueryRequest) : String :=
  let fromBody : JsVal :=
    match req.body with
    | .object v => if v.isNullish then .null else v
    | _ => .null
  let fromReqQuery : JsVal := if req.queryParam.isNullish then .null else req.queryParam
  let fromUrl : JsVal := columnToJs req.urlParam
  String.mk (jsTrim (((fromBody.or fromReqQuery).or fromUrl).or (.str "")).toStr.data)

/-- Line 56 of `query.js`: the stored status is one of the three final ones. -/
def isTerminalStatus (status : Option String) : Bool :=
  match status with
  | none => false
  | some s => s != "" && ["success", "failed", "cancelled"].contains s

/-- Lines 125-133 of `query.js`: the status classified from the gateway's
`ResultCode`. -/
def queryStatus (resultCode : JsVal) : String :=
  if resultCode = .str "0" ∨ resultCode = .num 0 then "success"
  else if resultCode = .str "1032" ∨ resultCode = .num 1032 then "cancelled"
  else if resultCode.truthy && resultCode != .str "1037" then "failed"
  else "pending"

/-- The expression `existing.status || 'pending'`. -/
def statusOrPending (status : Option String) : String :=
  match status with
  | none => "pending"
  | some s => if s != "" then s else "pending"

/-- The fallback answer of lines 112-118 and 154-160 of `query.js`. -/
def fallbackResponse (existing : MpesaTransaction) (source : String) : Response :=
  { statusCode := 200
    body := .status
      { status := statusOrPending existing.status
        resultCode := columnToJs existing.result_code
        resultDesc := columnToJs existing.result_desc
        source := source
        rowExists := none
        raw := none } }

/-- Lines 77-161 of `query.js`: the gateway path for an existing record that
is not final. -/
def queryGateway (env : Env) (checkoutRequestId : String) (existing : MpesaTransaction)
    (st : HState) : HState :=
  let onError (s : HState) : HState := s.send (fallbackResponse existing "supabase_error_fallback")
  match env.token with
  | .missingCredentials => onError st
  | .failed => onError (st.call .tokenRequest)
  | .ok =>
    let st1 := st.call .tokenRequest
    if !env.gatewayConfigured then onError st1
    else
      let st2 := st1.call (.gatewayQuery checkoutRequestId)
      match env.gateway with
      | .throws => onError st2
      | .httpError => st2.send (fallbackResponse existing "supabase_fallback")
      | .ok data =>
        let resultCode := data.ResultCode
        let resultDesc := data.ResultDesc
        let status := queryStatus resultCode
        match supabaseUpdateMpesaTransactionByCheckoutRequestId env (.str checkoutRequestId)
            { result_code := some (if resultCode.isNullish then none else some resultCode.toStr)
              result_desc := some (jsToColumn (resultDesc.or .null))
              status := some (some status) } st2 with
        | .error _ => onError st2
        | .ok st3 =>
          st3.send
            { statusCode := 200
              body := .status
                { status := status
                  resultCode := resultCode
                  resultDesc := resultDesc
                  source := "mpesa_query"
                  rowExists := none
                  raw := some data } }

/-- Lines 46-161 of `query.js`: the handler once the checkout id has been
extracted. -/
def resolveStatus (env : Env) (checkoutRequestId : String) (st0 : HState) : HState :=
  if checkoutRequestId == "" then
    st0.send { statusCode := 400, body := .failure "checkoutRequestId is required" none }
  else
    match supabaseGetMpesaTransactionByCheckoutRequestId env checkoutRequestId st0 with
    | (some existing, st1) =>
      if isTerminalStatus existing.status then
        st1.send
          { statusCode := 200
            body := .status
              { status := existing.status.getD ""
                resultCode := columnToJs existing.result_code
                resultDesc := columnToJs existing.result_desc
                source := "supabase"
                rowExists := none
                raw := none } }
      else queryGateway env checkoutRequestId existing st1
    | (none, st1) =>
      st1.send
        { statusCode := 200
          body := .status
            { status := "pending"
              resultCode := .undefined
              resultDesc := .undefined
              source := "supabase"
              rowExists := some false
              raw := none } }

/-- The handler exported by `query.js`. -/
def queryHandler (env : Env) (req : QueryRequest) (w : Store) : HState :=
  let st0 : HState := { store := w, res := none, calls := [] }
  if req.method == "OPTIONS" then st0.send { statusCode := 204, body := .empty }
  else if req.method != "POST" then
    st0.send { statusCode := 405, body := .failure "Method not allowed. Use POST." none }
  else
    match req.body with
    | .unparseable message text =>
      st0.send
        { statusCode := 400
          body := .failure (if message != "" then message else "Bad request") (some text) }
    | _ => resolveStatus env (resolverCheckoutId req) st0

/-! ## Status Reader (`status.js`) -/

/-- The message of the `TypeError` V8 raises when a property of `null` is
read. -/
def nullReadMessage (field : String) : String :=
  "Cannot read properties of null (reading '" ++ field ++ "')"

/-- The method `s.includes(sub)`. -/
def jsIncludes (s sub : List Char) : Bool := s.tails.any (fun t => sub.isPrefixOf t)

/-- The text contains the word in some letter case: one of its substrings
becomes the word when its ASCII capitals are lowered. -/
def containsIgnoringCase (text word : String) : Prop :=
  ∃ w : List Char, w <:+: text.data ∧ w.map Char.toLower = word.data

/-- Line 25 of `status.js`: the checkout id read from a body that is not
`null`; the query parameters of the request are not consulted. -/
def readerCheckoutId (checkoutRequestId : JsVal) : String :=
  String.mk (jsTrim (checkoutRequestId.or (.str "")).toStr.data)

/-- Lines 40-46 of `status.js`: the status reported for a stored record. -/
def readerStatus (tx : MpesaTransaction) : String :=
  let status := statusOrPending tx.status
  let resultDesc := tx.result_desc.getD ""
  if tx.result_code == some "1032" ||
      (resultDesc != "" && jsIncludes (jsToLowerCase resultDesc).data "cancel".data) then
    "cancelled"
  else status

/-- The handler exported by `status.js`. -/
def statusHandler (env : Env) (req : QueryRequest) (w : Store) : HState :=
  let st0 : HState := { store := w, res := none, calls := [] }
  if req.method == "OPTIONS" then st0.send { statusCode := 204, body := .empty }
  else if req.method != "POST" then
    st0.send { statusCode := 405, body := .failure "Method not allowed. Use POST." none }
  else
    match req.body with
    | .unparseable message _ =>
      st0.send
        { statusCode := 400
          body := .failure (if message != "" then message else "Bad request") none }
    | .jsonNull =>
      st0.send { statusCode := 400, body := .failure (nullReadMessage "checkoutRequestId") none }
    | .object v =>
      let checkoutRequestId := readerCheckoutId v
      if checkoutRequestId == "" then
        st0.send { statusCode := 400, body := .failure "checkoutRequestId is required" none }
      else
        match supabaseGetMpesaTransactionByCheckoutRequestId env checkoutRequestId st0 with
        | (none, st1) =>
          st1.send
            { statusCode := 200
              body := .status
                { status := "pending"
                  resultCode := .undefined
                  resultDesc := .undefined
                  source := "supabase"
                  rowExists := some false
                  raw := none } }
        | (some tx, st1) =>
          st1.send
            { statusCode := 200
              body := .status
                { status := readerStatus tx
                  resultCode := columnToJs tx.result_code
                  resultDesc := .str (tx.result_desc.getD "")
                  source := "supabase"
                  rowExists := some true
                  raw := none } }

/-! ## Push Initiator (`stkpush.js`) -/

/-- The fields of the request body the push handler reads: `amount` is the
value of `Number(body.amount)` and `items` the value of `body.items` when it
is truthy. -/
structure PushFields where
  phone : JsVal
  amount : JsNum
  reference : JsVal
  items : Option (List LineItem)
  deriving DecidableEq, Repr

/-- What `await json(req)` gives the push handler: it throws (with the error's
message), it returns `null`, or it returns a value with the given fields. -/
inductive PushBody where
  | unparseable (message : String)
  | jsonNull
  | object (fields : PushFields)
  deriving DecidableEq, Repr

/-- A request to the push handler, with the two headers the callback address
is derived from. -/
structure PushRequest where
  method : String
  body : PushBody
  forwardedProto : JsVal
  host : JsVal
  deriving DecidableEq, Repr

/-- Lines 183-213 of `stkpush.js`: the response for an error caught by the
handler. -/
def pushErrorResponse (e : JsError) : Response :=
  if e.name == "TimeoutError" then
    { statusCode := 408
      body := .failure "Request timeout. M-Pesa servers are taking too long to respond." none }
  else if e.code == some "ECONNRESET" || e.code == some "ENOTFOUND" then
    { statusCode := 503
      body := .failure "Network error. Unable to connect to M-Pesa servers." none }
  else
    { statusCode := 400
      body := .failure (if e.message != "" then e.message else "Bad request") none }

/-- The function `supabaseUpsertMpesaTransaction` as the push handler calls
it for the n-th time. -/
def pushUpsert (env : Env) (n : Nat) (transaction : TxPatch) (st : HState) : HState :=
  supabaseUpsertMpesaTransaction { env with txUpsert := env.pushUpsert n } transaction st

/-- Lines 120-181 of `stkpush.js`: the gateway call and what follows it. -/
def pushGateway (env : Env) (phone : String) (amount : Option Int) (reference : String)
    (pendingTransaction : TxPatch) (st : HState) : Except (JsError × HState) HState :=
  let st1 := st.call (.gatewayPush amount phone (String.mk (reference.data.take 12)))
  match env.push with
  | .throws => .error (env.pushError, st1)
  | .unparseable => .error (plainError "Invalid response from M-Pesa", st1)
  | .jsonNull false =>
    .error ({ name := "TypeError", code := none, message := nullReadMessage "errorCode" }, st1)
  | .jsonNull true =>
    .error ({ name := "TypeError", code := none, message := nullReadMessage "ResponseCode" }, st1)
  | .httpError data =>
    let st2 := pushUpsert env 1
      { pendingTransaction with
        status := some (some "failed")
        result_code := some (some
          ((data.errorCode.or data.ResponseCode).or (.str "http_error")).toStr)
        result_desc := some (jsToColumn
          ((data.errorMessage.or data.ResponseDescription).or (.str "STK push HTTP failed"))) }
      st1
    .ok (st2.send { statusCode := 502, body := .pushFailed data })
  | .ok data =>
    let ok : Bool := data.ResponseCode == .str "0" || data.ResponseCode == .num 0
    let st2 := pushUpsert env 1
      { order_id := some none
        checkout_request_id := some (jsToColumn (data.CheckoutRequestID.or .null))
        merchant_request_id := some (jsToColumn (data.MerchantRequestID.or .null))
        amount := some amount
        phone_number := some (some phone)
        result_code := some
          (if ok then none
           else some (if data.ResponseCode.isNullish then "" else data.ResponseCode.toStr))
        result_desc := some
          (if ok then none else jsToColumn (data.ResponseDescription.or .null))
        status := some (some (if ok then "pending" else "failed"))
        metadata := pendingTransaction.metadata }
      st1
    .ok (st2.send
      { statusCode := 200
        body := .push ok
          (data.ResponseDescription.or
            (.str (if ok then "STK push initiated" else "STK push rejected")))
          data.CheckoutRequestID data.MerchantRequestID })

/-- Lines 41-181 of `stkpush.js`: the body of the handler's `try`.  `.error`
carries the error thrown and the state at that point. -/
def pushAttempt (env : Env) (req : PushRequest) (st : HState) :
    Except (JsError × HState) HState :=
  match req.body with
  | .unparseable message =>
    .error ({ name := "SyntaxError", code := none, message := message }, st)
  | .jsonNull =>
    .error ({ name := "TypeError", code := none, message := nullReadMessage "phone" }, st)
  | .object body =>
    let phone := normalizeMsisdn body.phone
    let amount := body.amount
    let reference := String.mk (jsTrim (body.reference.or (.str "")).toStr.data)
    let items := body.items.getD []
    match phone with
    | none =>
      .error (plainError
        "Phone is required. Please enter a valid Safaricom number (07 or 01)", st)
    | some phone =>
      if !amount.isFinite || amount.leZero then
        .error (plainError "Amount must be a positive number", st)
      else if reference == "" then .error (plainError "Reference is required", st)
      else
        match env.token with
        | .missingCredentials => .error (env.tokenError, st)
        | .failed => .error (env.tokenError, st.call .tokenRequest)
        | .ok =>
          let st1 := st.call .tokenRequest
          if !env.gatewayConfigured then .error (plainError env.missingVarMessage, st1)
          else
            let callbackUrl :=
              if env.callbackUrl != "" then env.callbackUrl
              else (req.forwardedProto.or (.str "https")).toStr ++ "://" ++ req.host.toStr ++
                "/api/mpesa/callback"
            if !startsWith callbackUrl.data "http" then
              .error (plainError "Invalid callback URL configuration", st1)
            else
              let pendingTransaction : TxPatch :=
                { order_id := some none
                  checkout_request_id := some none
                  merchant_request_id := some none
                  amount := some amount.round
                  phone_number := some (some phone)
                  result_code := some none
                  result_desc := some none
                  status := some (some "initiating")
                  metadata := some (.parsed (some items)) }
              let st2 := pushUpsert env 0 pendingTransaction st1
              pushGateway env phone amount.round reference pendingTransaction st2

/-- The handler exported by `stkpush.js`. -/
def pushHandler (env : Env) (req : PushRequest) (w : Store) : HState :=
  let st0 : HState := { store := w, res := none, calls := [] }
  if req.method == "OPTIONS" then st0.send { statusCode := 204, body := .empty }
  else if req.method != "POST" then
    st0.send { statusCode := 405, body := .failure "Method not allowed. Use POST." none }
  else
    match pushAttempt env req st0 with
    | .ok st => st
    | .error (e, st) => st.send (pushErrorResponse e)

/-! ## Order creation (`sales/create.js`) -/

/-- The fields of the request body the order handler reads: `totalAmount` is
the value of `Number(body.totalAmount)` and `items` the value of `body.items`
when it is an array (the empty list otherwise). -/
structure CreateFields where
  orderId : JsVal
  customerName : JsVal
  customerEmail : JsVal
  customerPhone : JsVal
  deliveryAddress : JsVal
  location : JsVal
  mpesaPhone : JsVal
  totalAmount : JsNum
  items : List LineItem
  checkoutRequestId : JsVal
  deriving DecidableEq, Repr

/-- What `await json(req)` gives the order handler: it throws (with the
error's `message` and its `toString()`), it returns `null`, or it returns a
value with the given fields. -/
inductive CreateBody where
  | unparseable (message : String) (text : String)
  | jsonNull
  | object (fields : CreateFields)
  deriving DecidableEq, Repr

/-- A request to the order handler. -/
structure CreateRequest where
  method : String
  body : CreateBody
  deriving DecidableEq, Repr

/-- The expression `String(v || '').trim()`. -/
def trimmedString (v : JsVal) : String :=
  String.mk (jsTrim (v.or (.str "")).toStr.data)

/-- The filter `order_id=eq.<orderId>` finds a row. -/
def Store.hasSale (w : Store) (orderId : String) : Bool :=
  w.sales.any (fun s => s.order_id == orderId)

/-- An error raised with `throw new Error(message)`, as the pair of its
`message` and its `toString()`. -/
def thrownError (message : String) : String × String := (message, "Error: " ++ message)

/-- Lines 98-149 of `create.js`: the deduction loop from the line item at
position `i`; the flag is `inventorySuccess`.  A fetch that rejects is caught
for its own line and the loop goes on. -/
def createDeductLoop (env : Env) : Nat → List LineItem → HState × Bool → HState × Bool
  | _, [], acc => acc
  | i, item :: rest, (st, flag) =>
    let pid := item.id.toStr
    let st1 := st.call (.stockGet pid)
    match env.stockGet i with
    | .throws => createDeductLoop env (i + 1) rest (st1, flag)
    | .httpError => createDeductLoop env (i + 1) rest (st1, flag)
    | .ok =>
      match st1.store.products.find? (fun p => p.id == pid) with
      | none => createDeductLoop env (i + 1) rest (st1, flag)
      | some p =>
        let currentStock := p.stock.getD 0
        match jsToNumber env item.quantity with
        | none =>
          let st2 := st1.call (.stockPatch pid)
          match env.stockPatch i with
          | .ok =>
            createDeductLoop env (i + 1) rest
              ({ st2 with store := st2.store.setStock pid none }, flag)
          | .httpError => createDeductLoop env (i + 1) rest (st2, flag)
          | .throws => createDeductLoop env (i + 1) rest (st2, flag)
        | some q =>
          let newStock := currentStock - q
          if newStock < 0 then createDeductLoop env (i + 1) rest (st1, false)
          else
            let st2 := st1.call (.stockPatch pid)
            match env.stockPatch i with
            | .ok =>
              createDeductLoop env (i + 1) rest
                ({ st2 with store := st2.store.setStock pid (some newStock) }, flag)
            | .httpError => createDeductLoop env (i + 1) rest (st2, flag)
            | .throws => createDeductLoop env (i + 1) rest (st2, flag)

/-- Lines 190-199 of `create.js`: the row inserted for a line item. -/
def saleItemRow (env : Env) (orderId : String) (item : LineItem) : SaleItem :=
  { order_id := orderId
    product_id := jsToColumn (item.id.or .null)
    quantity :=
      match jsToNumber env item.quantity with
      | some n => if n = 0 then 1 else n
      | none => 1 }

/-- The answer `200` to a request for an order that is already there. -/
def orderExistsResponse (orderId : String) : Response :=
  { statusCode := 200, body := .order orderId "Order already exists" none }

/-- Lines 189-245 of `create.js`: what follows the insertion of the sale
row. -/
def createFinish (env : Env) (orderId checkoutRequestId : String) (items : List LineItem)
    (inventorySuccess : Bool) (st : HState) : Except (String × String × HState) HState :=
  let st1 := st.call (.saleItemsInsert orderId)
  let afterItems : Except (String × String × HState) HState :=
    match env.saleItemsInsert with
    | .throws => .error (env.storeError.1, env.storeError.2, st1)
    | .httpError => .ok st1
    | .ok =>
      .ok { st1 with store :=
        { st1.store with
          saleItems := st1.store.saleItems ++ items.map (saleItemRow env orderId) } }
  match afterItems with
  | .error e => .error e
  | .ok st2 =>
    let st3 :=
      if checkoutRequestId != "" then
        let linked := st2.call (.txLink checkoutRequestId)
        let linkPatch : TxPatch :=
          { order_id := some (some orderId), updated_at := some (some env.now) }
        match env.txLink with
        | .ok => { linked with store := linked.store.patchTx checkoutRequestId linkPatch }
        | .httpError => linked
        | .throws => linked
      else st2
    .ok (st3.send
      { statusCode := 200
        body := .order orderId "Order created successfully" (some inventorySuccess) })

/-- Lines 69-245 of `create.js`: the store calls of a validated request, for
the sale row `saleRow` that lines 152-164 build from it. -/
def createOrder (env : Env) (saleRow : Sale) (checkoutRequestId : String)
    (items : List LineItem) (st : HState) : Except (String × String × HState) HState :=
  let orderId := saleRow.order_id
  let st1 := st.call (.saleGet orderId)
  match env.saleGet with
  | .throws => .error (env.storeError.1, env.storeError.2, st1)
  | checked =>
    if checked == .ok && st1.store.hasSale orderId then
      .ok (st1.send (orderExistsResponse orderId))
    else
      let (st2, inventorySuccess) := createDeductLoop env 0 items (st1, true)
      let st3 := st2.call (.saleInsert orderId)
      match env.saleInsert with
      | .throws => .error (env.storeError.1, env.storeError.2, st3)
      | .rejected status text =>
        if jsIncludes text.data "duplicate key".data ||
            jsIncludes text.data "unique constraint".data then
          .ok (st3.send (orderExistsResponse orderId))
        else
          .error
            ((thrownError ("Failed to create sale: " ++ toString status ++ " - " ++ text)).1,
              (thrownError ("Failed to create sale: " ++ toString status ++ " - " ++ text)).2,
              st3)
      | .accepted =>
        if st3.store.hasSale orderId then .ok (st3.send (orderExistsResponse orderId))
        else
          createFinish env orderId checkoutRequestId items inventorySuccess
            { st3 with store := { st3.store with sales := st3.store.sales ++ [saleRow] } }

/-- Lines 26-35 and 152-164 of `create.js`: the sale row of a request. -/
def saleRowOf (body : CreateFields) : Sale :=
  { order_id := trimmedString body.orderId
    customer_name := trimmedString body.customerName
    customer_email := trimmedString body.customerEmail
    customer_phone := trimmedString body.customerPhone
    delivery_address := trimmedString body.deliveryAddress
    location :=
      if body.location.truthy then some (String.mk (jsTrim body.location.toStr.data)) else none
    mpesa_phone := trimmedString body.mpesaPhone
    total_amount := body.totalAmount
    status := "paid"
    payment_method := "M-Pesa"
    order_type := "store_front_sale" }

/-- Lines 50-60 of `create.js`: the message of the first check a request
fails, `none` when it passes them all. -/
def createValidation (env : Env) (body : CreateFields) : Option String :=
  if trimmedString body.orderId == "" then some "orderId is required"
  else if trimmedString body.customerName == "" then some "customerName is required"
  else if trimmedString body.customerPhone == "" then some "customerPhone is required"
  else if trimmedString body.mpesaPhone == "" then some "mpesaPhone is required"
  else if !body.totalAmount.isFinite || body.totalAmount.leZero then
    some "totalAmount must be positive"
  else if body.items.length == 0 then some "items must not be empty"
  else if !env.storeConfigured then some "Supabase not configured"
  else none

/-- Lines 24-245 of `create.js`: the body of the handler's `try`.  `.error`
carries the `message` and the `toString()` of the error thrown and the state
at that point. -/
def createAttempt (env : Env) (req : CreateRequest) (st : HState) :
    Except (String × String × HState) HState :=
  match req.body with
  | .unparseable message text => .error (message, text, st)
  | .jsonNull =>
    .error (nullReadMessage "orderId", "TypeError: " ++ nullReadMessage "orderId", st)
  | .object body =>
    match createValidation env body with
    | some message => .error ((thrownError message).1, (thrownError message).2, st)
    | none =>
      createOrder env (saleRowOf body) (trimmedString body.checkoutRequestId) body.items st

/-- The handler exported by `create.js`. -/
def createHandler (env : Env) (req : CreateRequest) (w : Store) : HState :=
  let st0 : HState := { store := w, res := none, calls := [] }
  if req.method == "OPTIONS" then st0.send { statusCode := 204, body := .empty }
  else if req.method != "POST" then
    st0.send { statusCode := 405, body := .failure "Method not allowed. Use POST." none }
  else
    match createAttempt env req st0 with
    | .ok st => st
    | .error (message, text, st) =>
      st.send
        { statusCode := 400
          body := .failure (if message != "" then message else "Bad request") (some text) }

/-! ## The builtin `Date` on the strings the callback builds

The callback hands `new Date(…)` a string of the form `YYYY-MM-DDTHH:mm:ssZ`
made of fourteen digits.  The definitions below follow the date-time string
format of ECMAScript as the runtime (Node, V8) reads it: a month outside
`01`-`12`, a day outside `01`-`31`, or a time of day outside `00:00:00`-
`23:59:59` other than `24:00:00` makes the date invalid, and `toISOString`
throws `RangeError` on an invalid date.  A day past the end of its month is
carried into the next month. -/

/-- The calendar fields of a date-time. -/
structure DateFields where
  year : Nat
  month : Nat
  day : Nat
  hour : Nat
  minute : Nat
  second : Nat
  deriving DecidableEq, Repr

/-- The number a run of ASCII digits denotes. -/
def digitsToNat (cs : List Char) : Nat :=
  cs.foldl (fun n c => 10 * n + (c.toNat - 48)) 0

/-- The fields of a string of the form `YYYY-MM-DDTHH:mm:ssZ`; `none` for a
string of another form (the callback builds no other). -/
def isoDateFields (cs : List Char) : Option DateFields :=
  let separators :=
    (cs.drop 4).take 1 ++ (cs.drop 7).take 1 ++ (cs.drop 10).take 1 ++ (cs.drop 13).take 1 ++
      (cs.drop 16).take 1 ++ (cs.drop 19).take 1
  let digits :=
    cs.take 4 ++ (cs.drop 5).take 2 ++ (cs.drop 8).take 2 ++ (cs.drop 11).take 2 ++
      (cs.drop 14).take 2 ++ (cs.drop 17).take 2
  if cs.length == 20 && separators == ['-', '-', 'T', ':', ':', 'Z'] &&
      digits.all isAsciiDigit then
    some
      { year := digitsToNat (cs.take 4)
        month := digitsToNat ((cs.drop 5).take 2)
        day := digitsToNat ((cs.drop 8).take 2)
        hour := digitsToNat ((cs.drop 11).take 2)
        minute := digitsToNat ((cs.drop 14).take 2)
        second := digitsToNat ((cs.drop 17).take 2) }
  else none

/-- The fields are within the ranges of the date-time string format. -/
def DateFields.inRange (f : DateFields) : Bool :=
  1 ≤ f.month && f.month ≤ 12 && 1 ≤ f.day && f.day ≤ 31 &&
    ((f.hour ≤ 23 && f.minute ≤ 59 && f.second ≤ 59) ||
      (f.hour == 24 && f.minute == 0 && f.second == 0))

/-- The year is a leap year of the Gregorian calendar. -/
def isLeapYear (y : Nat) : Bool := y % 4 == 0 && (y % 100 != 0 || y % 400 == 0)

/-- The number of days of a month. -/
def daysInMonth (y m : Nat) : Nat :=
  if m == 2 then (if isLeapYear y then 29 else 28)
  else if m == 4 || m == 6 || m == 9 || m == 11 then 30
  else 31

/-- The fields name a day of the calendar and a time of day before
midnight. -/
def DateFields.isRealDate (f : DateFields) : Bool :=
  1 ≤ f.month && f.month ≤ 12 && 1 ≤ f.day && f.day ≤ daysInMonth f.year f.month &&
    f.hour ≤ 23 && f.minute ≤ 59 && f.second ≤ 59

/-- The calendar fields of the instant that in-range fields denote: `24:00:00`
is the start of the next day, and a day past the end of the month is counted
on into the next month. -/
def DateFields.normalize (f : DateFields) : DateFields :=
  let f1 := if f.hour == 24 then { f with hour := 0, day := f.day + 1 } else f
  let last := daysInMonth f1.year f1.month
  if f1.day ≤ last then f1
  else if f1.month == 12 then { f1 with year := f1.year + 1, month := 1, day := f1.day - last }
  else { f1 with month := f1.month + 1, day := f1.day - last }

/-- Two decimal digits. -/
def pad2 (n : Nat) : List Char := [Nat.digitChar (n / 10), Nat.digitChar (n % 10)]

/-- Four decimal digits. -/
def pad4 (n : Nat) : List Char := pad2 (n / 100) ++ pad2 (n % 100)

/-- The method `toISOString` on a valid date with the given fields of its
instant (whole seconds): `YYYY-MM-DDTHH:mm:ss.000Z`, the year written with a
sign and six digits once it is past 9999. -/
def toISOString (f : DateFields) : String :=
  String.mk
    ((if f.year ≤ 9999 then pad4 f.year else ['+'] ++ pad2 (f.year / 10000) ++ pad4 (f.year % 10000)) ++
      ['-'] ++ pad2 f.month ++ ['-'] ++ pad2 f.day ++ ['T'] ++ pad2 f.hour ++ [':'] ++
      pad2 f.minute ++ [':'] ++ pad2 f.second ++ ".000Z".data)

/-- The expression `new Date(s).toISOString()` on a string of the form
`YYYY-MM-DDTHH:mm:ssZ`; `none` when it throws `RangeError`. -/
def newDateToISOString (s : String) : Option String :=
  match isoDateFields s.data with
  | none => none
  | some f => if f.inRange then some (toISOString f.normalize) else none

/-- The fourteen-digit form `YYYYMMDDHHMMSS` of `TransactionDate`, cut into
its fields. -/
def stampFields (s : List Char) : DateFields :=
  { year := digitsToNat (s.take 4)
    month := digitsToNat ((s.drop 4).take 2)
    day := digitsToNat ((s.drop 6).take 2)
    hour := digitsToNat ((s.drop 8).take 2)
    minute := digitsToNat ((s.drop 10).take 2)
    second := digitsToNat ((s.drop 12).take 2) }

/-- The timestamp `YYYY-MM-DDTHH:MM:SS.000Z` written with the digits of a
fourteen-digit `TransactionDate`. -/
def stampAsUtc (s : List Char) : String :=
  String.mk (s.take 4 ++ ['-'] ++ (s.drop 4).take 2 ++ ['-'] ++ (s.drop 6).take 2 ++
    ['T'] ++ (s.drop 8).take 2 ++ [':'] ++ (s.drop 10).take 2 ++ [':'] ++ (s.drop 12).take 2 ++
    ".000Z".data)

/-! ## Properties of the product table and the environment -/

/-- Every product's stock is a non-negative integer. -/
def Store.stocksNonneg (w : Store) : Prop :=
  ∀ p ∈ w.products, ∃ s : Int, p.stock = some s ∧ 0 ≤ s

/-- Every line's quantity is an integer. -/
def integerQuantities (items : List LineItem) : Prop :=
  ∀ item ∈ items, ∃ q : Int, item.quantity = .num q

/-- The stock a `GET products?id=eq.<pid>&select=stock` reads: that of the
first row of that id, `none` when there is no such row. -/
def Store.stockOf (w : Store) (pid : String) : Option (Option Int) :=
  (w.products.find? (fun p => p.id == pid)).map (fun p => p.stock)

/-- Inventory deduction in the words of section 4.5 of the specification, on
lines of integer quantities: for each line in turn, read the current stock of
its product; if the quantity does not exceed it, write back the stock less the
quantity; otherwise skip the line; go on with the rest.  A line whose product
is not in the table, or has no stock value, is skipped. -/
def deductAsSpecified (w : Store) : List LineItem → Store
  | [] => w
  | item :: rest =>
    match item.quantity, w.stockOf item.id.toStr with
    | .num q, some (some s) =>
      if q ≤ s then deductAsSpecified (w.setStock item.id.toStr (some (s - q))) rest
      else deductAsSpecified w rest
    | _, _ => deductAsSpecified w rest

/-- Every store call of an order creation succeeds. -/
def Env.storeCallsSucceed (env : Env) : Prop :=
  env.storeConfigured = true ∧ env.saleGet = .ok ∧ env.saleInsert = .accepted ∧
    env.saleItemsInsert = .ok ∧ env.txLink = .ok ∧
    (∀ i, env.stockGet i = .ok) ∧ (∀ i, env.stockPatch i = .ok)

/-! ## Sample data -/

/-- An environment in which the store and the gateway are configured and
every outbound call succeeds; the gateway answers with the given data. -/
def sampleEnv (data : GatewayData) : Env :=
  { storeConfigured := true
    now := "2024-05-01T10:00:00.000Z"
    stringToNumber := fun _ => none
    dateToISOString := fun _ => none
    txGet := .ok
    txPatch := .ok
    txUpsert := .ok
    metadataGet := .ok
    stockGet := fun _ => .ok
    stockPatch := fun _ => .ok
    token := .ok
    gatewayConfigured := true
    gateway := .ok data
    tokenError := plainError "OAuth failed"
    missingVarMessage := "Missing env var MPESA_SHORTCODE"
    callbackUrl := ""
    pushUpsert := fun _ => .ok
    push := .ok
      { ResponseCode := .str "0"
        ResponseDescription := .str "Success. Request accepted for processing"
        CheckoutRequestID := .str "ws_CO_2"
        MerchantRequestID := .str "m-2"
        errorCode := .undefined
        errorMessage := .undefined }
    pushError := plainError "fetch failed"
    storeError := ("fetch failed", "TypeError: fetch failed")
    saleGet := .ok
    saleInsert := .accepted
    saleItemsInsert := .ok
    txLink := .ok }

/-- A transaction row for checkout id `ws_CO_1` with the given status. -/
def sampleTx (status : String) : MpesaTransaction :=
  { checkout_request_id := some "ws_CO_1"
    merchant_request_id := some "m-1"
    result_code := none
    result_desc := none
    amount := some 50
    mpesa_receipt_number := none
    transaction_date := none
    phone_number := some "254712345678"
    status := some status
    metadata := .absent
    updated_at := none }

/-- A store holding the single transaction `sampleTx status`. -/
def sampleStore (status : String) : Store :=
  { transactions := [sampleTx status], products := [] }

/-- A callback for checkout id `ws_CO_1` with the given `ResultCode` and no
metadata. -/
def sampleCallback (resultCode : JsVal) : StkCallback :=
  { CheckoutRequestID := .str "ws_CO_1"
    MerchantRequestID := .str "m-1"
    ResultCode := .scalar resultCode
    ResultDesc := .str "done"
    Item := [] }

/-- The record `transactionRecord` builds for a callback like `sampleCallback`
whose `ResultCode` has the text "1032". -/
def sampleCancelledRecord : TxPatch :=
  { checkout_request_id := some (some "ws_CO_1")
    merchant_request_id := some (some "m-1")
    result_code := some (some "1032")
    result_desc := some (some "done")
    amount := some none
    mpesa_receipt_number := some none
    transaction_date := some none
    phone_number := some none
    status := some (some "cancelled") }

/-- A poll for checkout id `ws_CO_1` carried in the request body. -/
def samplePoll : QueryRequest :=
  { method := "POST", body := .object (.str "ws_CO_1"), queryParam := .undefined, urlParam := none }

/-- A poll that carries the checkout id `ws_CO_1` only as a query parameter,
with the empty body `{}`. -/
def sampleQueryOnlyPoll : QueryRequest :=
  { method := "POST", body := .object .undefined, queryParam := .str "ws_CO_1",
    urlParam := some "ws_CO_1" }

/-- The row left for `ws_CO_1` by a callback with `ResultCode` 1032 and an
empty description, in the environment `sampleEnv`, on `sampleStore "pending"`. -/
def sampleCancelledTx : MpesaTransaction :=
  { checkout_request_id := some "ws_CO_1"
    merchant_request_id := some "m-1"
    result_code := some "1032"
    result_desc := none
    amount := none
    mpesa_receipt_number := none
    transaction_date := none
    phone_number := none
    status := some "cancelled"
    metadata := .absent
    updated_at := some "2024-05-01T10:00:00.000Z" }

/-- A push of the given amount from the given phone with reference `ORD1` and
no cart. -/
def samplePush (phone : JsVal) (amount : JsNum) : PushRequest :=
  { method := "POST"
    body := .object { phone := phone, amount := amount, reference := .str "ORD1", items := none }
    forwardedProto := .str "https"
    host := .str "shop.example" }

/-- A cart line: two units of product `p1`. -/
def sampleItem : LineItem := { id := .str "p1", quantity := .num 2 }

/-- A store with the product `p1` at the given stock and the pending
transaction `ws_CO_1`, whose metadata holds the cart `[sampleItem]`. -/
def sampleShop (stock : Int) : Store :=
  { transactions := [{ sampleTx "pending" with metadata := .parsed (some [sampleItem]) }]
    products := [{ id := "p1", stock := some stock }] }

/-- An order `O1` for the cart `[sampleItem]`, paid by transaction `ws_CO_1`. -/
def sampleOrder : CreateRequest :=
  { method := "POST"
    body := .object
      { orderId := .str "O1"
        customerName := .str "Ann"
        customerEmail := .str ""
        customerPhone := .str "0712345678"
        deliveryAddress := .str "Nairobi"
        location := .null
        mpesaPhone := .str "254712345678"
        totalAmount := .fin 100 0
        items := [sampleItem]
        checkoutRequestId := .str "ws_CO_1" } }

/-- The environment `sampleEnv` with the runtime's date conversion. -/
def sampleDateEnv : Env :=
  { sampleEnv ⟨.undefined, .undefined⟩ with dateToISOString := newDateToISOString }

/-- A callback for checkout id `ws_CO_1` with `ResultCode` 0 whose metadata
holds the given `TransactionDate`. -/
def sampleDatedCallback (date : JsVal) : StkCallback :=
  { sampleCallback (.num 0) with
    Item := [some { Name := .str "TransactionDate", Value := some date }] }

/-- A callback with `ResultCode` 0 for the checkout id `ws_CO_9`, of which the
sample stores hold no row. -/
def sampleUnknownCallback : StkCallback :=
  { sampleCallback (.num 0) with CheckoutRequestID := .str "ws_CO_9" }

/-- A cart line for product `p1` without a quantity. -/
def sampleItemNoQuantity : LineItem := { id := .str "p1", quantity := .undefined }

/-- The store `sampleShop 5` with the quantity missing from the cart line of
the transaction's metadata. -/
def sampleShopNoQuantity : Store :=
  { transactions := [{ sampleTx "pending" with metadata := .parsed (some [sampleItemNoQuantity]) }]
    products := [{ id := "p1", stock := some 5 }] }

/-- The order `sampleOrder` with the quantity missing from its cart line. -/
def sampleOrderNoQuantity : CreateRequest :=
  { method := "POST"
    body := .object
      { orderId := .str "O1"
        customerName := .str "Ann"
        customerEmail := .str ""
        customerPhone := .str "0712345678"
        deliveryAddress := .str "Nairobi"
        location := .null
        mpesaPhone := .str "254712345678"
        totalAmount := .fin 100 0
        items := [sampleItemNoQuantity]
        checkoutRequestId := .str "ws_CO_1" } }

/-- A cart of three lines for product `p1`: two units, nine units, one
unit. -/
def sampleCart : List LineItem :=
  [{ id := .str "p1", quantity := .num 2 }, { id := .str "p1", quantity := .num 9 },
    { id := .str "p1", quantity := .num 1 }]

/-! ### Lemmas on digit strings -/

theorem isJsWhitespace_of_digit {c : Char} (h : isAsciiDigit c = true) :
    isJsWhitespace c = false := by
  simp only [isAsciiDigit, Bool.and_eq_true, decide_eq_true_eq] at h
  simp only [isJsWhitespace, Bool.or_eq_false_iff, Bool.and_eq_false_iff, beq_eq_false_iff_ne,
    decide_eq_false_iff_not]
  omega

theorem filter_digits_of_all {cs : List Char} (h : cs.all isAsciiDigit = true) :
    cs.filter isAsciiDigit = cs := by
  rw [List.filter_eq_self]
  simpa using h

theorem filter_nonspace_of_all {cs : List Char} (h : cs.all isAsciiDigit = true) :
    cs.filter (fun c => !isJsWhitespace c) = cs := by
  rw [List.filter_eq_self]
  intro c hc
  have hd : isAsciiDigit c = true := by
    rw [List.all_eq_true] at h
    exact h c hc
  simp [isJsWhitespace_of_digit hd]

theorem dropWhile_space_of_all {cs : List Char} (h : cs.all isAsciiDigit = true) :
    cs.dropWhile isJsWhitespace = cs := by
  cases cs with
  | nil => rfl
  | cons c t =>
    have hd : isAsciiDigit c = true := by
      rw [List.all_eq_true] at h
      exact h c (List.mem_cons_self c t)
    simp [List.dropWhile, isJsWhitespace_of_digit hd]

theorem jsTrim_of_all {cs : List Char} (h : cs.all isAsciiDigit = true) : jsTrim cs = cs := by
  have hr : cs.reverse.all isAsciiDigit = true := by
    rw [List.all_eq_true] at h ⊢
    intro c hc
    exact h c (List.mem_reverse.mp hc)
  unfold jsTrim
  rw [dropWhile_space_of_all h, dropWhile_space_of_all hr, List.reverse_reverse]

/-- On a non-empty string of ASCII digits the normaliser is the branching on
that very string. -/
theorem normalizeMsisdn_of_digits (s : String) (hne : s.data ≠ [])
    (h : s.data.all isAsciiDigit = true) :
    normalizeMsisdn (.str s) = normalizeDigits s.data := by
  have hs : s ≠ "" := by
    intro he
    apply hne
    rw [he]
  have hor : (JsVal.str s).or (.str "") = .str s := by
    simp [JsVal.or, JsVal.truthy, hs]
  unfold normalizeMsisdn
  simp only [hor, JsVal.toStr, jsTrim_of_all h, filter_nonspace_of_all h, filter_digits_of_all h]
  cases hd : s.data with
  | nil => exact absurd hd hne
  | cons c t => simp

/-- C8: every 12-character string of the form `254[71]\d{8}` is returned
unchanged by `normalizeMsisdn`. -/
theorem normalizeMsisdn_canonical_unchanged (s : String)
    (h : matchesMsisdnPattern s.data = true) : normalizeMsisdn (.str s) = some s := by
  obtain ⟨cs⟩ := s
  simp only at h
  rcases cs with _ | ⟨a0, _ | ⟨a1, _ | ⟨a2, _ | ⟨a3, _ | ⟨a4, _ | ⟨a5, _ | ⟨a6, _ | ⟨a7,
    _ | ⟨a8, _ | ⟨a9, _ | ⟨a10, _ | ⟨a11, _ | ⟨a12, t⟩⟩⟩⟩⟩⟩⟩⟩⟩⟩⟩⟩⟩ <;>
    simp [matchesMsisdnPattern, startsWith] at h
  obtain ⟨⟨⟨rfl, rfl, rfl⟩, h3⟩, h4, h5, h6, h7, h8, h9, h10, h11⟩ := h
  have hd : ∀ c : Char, c = '7' ∨ c = '1' → isAsciiDigit c = true := by
    rintro c (rfl | rfl) <;> decide
  have h2 : isAsciiDigit '2' = true := by decide
  have h5' : isAsciiDigit '5' = true := by decide
  have h4' : isAsciiDigit '4' = true := by decide
  rw [normalizeMsisdn_of_digits _ (by simp)
    (by simp [h2, h5', h4', hd a3 h3, h4, h5, h6, h7, h8, h9, h10, h11])]
  rcases h3 with rfl | rfl <;> simp [normalizeDigits, startsWith]

theorem normalizeMsisdn_canonical_unchanged_witness :
    matchesMsisdnPattern "254712345678".data = true ∧
      normalizeMsisdn (.str "254712345678") = some "254712345678" :=
  ⟨by decide, normalizeMsisdn_canonical_unchanged "254712345678" (by decide)⟩

/-- C9: a 10-digit string beginning with `0` is rewritten to `254` followed by
its last nine digits when its second digit is `7` or `1`, and rejected
otherwise. -/
theorem normalizeMsisdn_national_form (d : String) (hlen : d.data.length = 10)
    (hdig : d.data.all isAsciiDigit = true) (h0 : d.data.head? = some '0') :
    normalizeMsisdn (.str d) =
      if (d.data.drop 1).head? = some '7' ∨ (d.data.drop 1).head? = some '1' then
        some (String.mk ("254".data ++ d.data.drop 1))
      else none := by
  rw [normalizeMsisdn_of_digits d (by intro h; simp [h] at hlen) hdig]
  obtain ⟨cs⟩ := d
  simp only at hlen hdig h0 ⊢
  rcases cs with _ | ⟨a0, _ | ⟨a1, _ | ⟨a2, _ | ⟨a3, _ | ⟨a4, _ | ⟨a5, _ | ⟨a6, _ | ⟨a7,
    _ | ⟨a8, _ | ⟨a9, _ | ⟨a10, t⟩⟩⟩⟩⟩⟩⟩⟩⟩⟩⟩ <;> simp at hlen
  simp at h0
  subst h0
  by_cases h7 : a1 = '7'
  · subst h7
    simp [normalizeDigits, startsWith]
  · by_cases h1 : a1 = '1'
    · subst h1
      simp [normalizeDigits, startsWith]
    · have h7' : ¬ '7' = a1 := fun h => h7 h.symm
      have h1' : ¬ '1' = a1 := fun h => h1 h.symm
      simp [normalizeDigits, startsWith, finalPatternCheck, matchesMsisdnPattern, h7, h1, h7', h1']

theorem normalizeMsisdn_national_form_witness :
    normalizeMsisdn (.str "0712345678") = some "254712345678" ∧
      normalizeMsisdn (.str "0112345678") = some "254112345678" ∧
      normalizeMsisdn (.str "0212345678") = none :=
  ⟨(normalizeMsisdn_national_form "0712345678" (by decide) (by decide) (by decide)).trans
      (by decide),
    (normalizeMsisdn_national_form "0112345678" (by decide) (by decide) (by decide)).trans
      (by decide),
    (normalizeMsisdn_national_form "0212345678" (by decide) (by decide) (by decide)).trans
      (by decide)⟩

/-- C10: a 9-digit string beginning with `7` is returned with `254` put in
front of it. -/
theorem normalizeMsisdn_subscriber_form (d : String) (hlen : d.data.length = 9)
    (hdig : d.data.all isAsciiDigit = true) (h7 : d.data.head? = some '7') :
    normalizeMsisdn (.str d) = some ("254" ++ d) := by
  rw [normalizeMsisdn_of_digits d (by intro h; simp [h] at hlen) hdig]
  obtain ⟨cs⟩ := d
  simp only at hlen hdig h7 ⊢
  rcases cs with _ | ⟨a0, _ | ⟨a1, _ | ⟨a2, _ | ⟨a3, _ | ⟨a4, _ | ⟨a5, _ | ⟨a6, _ | ⟨a7,
    _ | ⟨a8, _ | ⟨a9, t⟩⟩⟩⟩⟩⟩⟩⟩⟩⟩ <;> simp at hlen
  simp at h7
  subst h7
  have happ : ∀ l : List Char, "254" ++ String.mk l = String.mk ('2' :: '5' :: '4' :: l) :=
    fun _ => rfl
  simp [normalizeDigits, startsWith, happ]

theorem normalizeMsisdn_subscriber_form_witness :
    normalizeMsisdn (.str "712345678") = some "254712345678" :=
  (normalizeMsisdn_subscriber_form "712345678" (by decide) (by decide) (by decide)).trans
    (by decide)

/-- Every branch of the normaliser other than the `2540` one returns a string
of the form `254[71]\d{8}`. -/
theorem normalizeDigits_pattern_or_typo (digits : List Char) (r : String)
    (hdig : digits.all isAsciiDigit = true) (h : normalizeDigits digits = some r) :
    matchesMsisdnPattern r.data = true ∨
      (digits.length = 12 ∧ startsWith digits "2540" = true) := by
  by_cases h12 : digits.length = 12
  · rcases digits with _ | ⟨a0, _ | ⟨a1, _ | ⟨a2, _ | ⟨a3, _ | ⟨a4, _ | ⟨a5, _ | ⟨a6,
      _ | ⟨a7, _ | ⟨a8, _ | ⟨a9, _ | ⟨a10, _ | ⟨a11, _ | ⟨a12, t⟩⟩⟩⟩⟩⟩⟩⟩⟩⟩⟩⟩⟩ <;> simp at h12
    simp at hdig
    simp only [normalizeDigits, startsWith, finalPatternCheck, matchesMsisdnPattern] at h ⊢
    simp at h ⊢
    split_ifs at h <;> cases h <;> simp_all <;> aesop
  · by_cases h10 : digits.length = 10
    · rcases digits with _ | ⟨a0, _ | ⟨a1, _ | ⟨a2, _ | ⟨a3, _ | ⟨a4, _ | ⟨a5, _ | ⟨a6,
        _ | ⟨a7, _ | ⟨a8, _ | ⟨a9, _ | ⟨a10, t⟩⟩⟩⟩⟩⟩⟩⟩⟩⟩⟩ <;> simp at h10
      simp at hdig
      simp only [normalizeDigits, startsWith, finalPatternCheck, matchesMsisdnPattern] at h ⊢
      simp at h ⊢
      split_ifs at h <;> cases h <;> simp_all <;> aesop
    · by_cases h9 : digits.length = 9
      · rcases digits with _ | ⟨a0, _ | ⟨a1, _ | ⟨a2, _ | ⟨a3, _ | ⟨a4, _ | ⟨a5, _ | ⟨a6,
          _ | ⟨a7, _ | ⟨a8, _ | ⟨a9, t⟩⟩⟩⟩⟩⟩⟩⟩⟩⟩ <;> simp at h9
        simp at hdig
        simp only [normalizeDigits, startsWith, finalPatternCheck, matchesMsisdnPattern] at h ⊢
        simp at h ⊢
        split_ifs at h <;> cases h <;> simp_all <;> aesop
      · simp [normalizeDigits, finalPatternCheck, matchesMsisdnPattern, h9, h10, h12] at h

/-- On every 12-digit string beginning `2540` the normaliser returns `254`
followed by the last eight digits: eleven characters. -/
theorem normalizeDigits_typo_form (digits : List Char) (hlen : digits.length = 12)
    (h : startsWith digits "2540" = true) :
    normalizeDigits digits = some (String.mk ("254".data ++ digits.drop 4)) ∧
      ("254".data ++ digits.drop 4).length = 11 := by
  rcases digits with _ | ⟨a0, _ | ⟨a1, _ | ⟨a2, _ | ⟨a3, _ | ⟨a4, _ | ⟨a5, _ | ⟨a6,
    _ | ⟨a7, _ | ⟨a8, _ | ⟨a9, _ | ⟨a10, _ | ⟨a11, _ | ⟨a12, t⟩⟩⟩⟩⟩⟩⟩⟩⟩⟩⟩⟩⟩ <;> simp at hlen
  simp [startsWith] at h
  obtain ⟨rfl, rfl, rfl, rfl⟩ := h
  simp [normalizeDigits, startsWith]

/-- C7: on the 12-digit `2540…` form the normaliser returns `254` followed by
the last eight digits, an 11-character string that fails the final pattern
check `254[71]\d{8}`; evaluated at `254012345678`. -/
theorem normalizeMsisdn_typo_form_eleven_digits :
    normalizeMsisdn (.str "254012345678") = some "25412345678" ∧
      "25412345678".data.length = 11 ∧
      matchesMsisdnPattern "25412345678".data = false := by
  decide

/-! ### Decimal printing of integers -/

theorem toDigitsCore_eq_digits : ∀ (fuel n : Nat) (acc : List Char), n < fuel → 0 < n →
    Nat.toDigitsCore 10 fuel n acc = ((Nat.digits 10 n).map Nat.digitChar).reverse ++ acc := by
  intro fuel
  induction fuel with
  | zero => intro n acc h; omega
  | succ f ih =>
    intro n acc hlt hpos
    rw [Nat.digits_def' (by norm_num) hpos]
    simp only [Nat.toDigitsCore]
    by_cases hq : n / 10 = 0
    · simp [hq]
    · have h1 : n / 10 < f := by omega
      have h2 : 0 < n / 10 := Nat.pos_of_ne_zero hq
      simp [hq, ih (n / 10) (Nat.digitChar (n % 10) :: acc) h1 h2]

theorem digitChar_inj : ∀ a < 10, ∀ b < 10, Nat.digitChar a = Nat.digitChar b → a = b := by
  decide

theorem map_digitChar_inj : ∀ (l l' : List Nat), (∀ d ∈ l, d < 10) → (∀ d ∈ l', d < 10) →
    l.map Nat.digitChar = l'.map Nat.digitChar → l = l' := by
  intro l
  induction l with
  | nil => intro l' _ _ h; cases l' with
    | nil => rfl
    | cons b t => simp at h
  | cons a t ih =>
    intro l' h1 h2 h
    cases l' with
    | nil => simp at h
    | cons b t' =>
      simp only [List.map_cons, List.cons.injEq] at h
      have hab := digitChar_inj a (h1 a (List.mem_cons_self a t)) b (h2 b (List.mem_cons_self b t')) h.1
      have := ih t' (fun d hd => h1 d (List.mem_cons_of_mem a hd))
        (fun d hd => h2 d (List.mem_cons_of_mem b hd)) h.2
      rw [hab, this]

theorem nat_repr_pos (n : Nat) (h : 0 < n) :
    (Nat.repr n).data = ((Nat.digits 10 n).map Nat.digitChar).reverse := by
  simp [Nat.repr, Nat.toDigits, toDigitsCore_eq_digits (n + 1) n [] (by omega) h, List.asString]

theorem nat_repr_injective (n m : Nat) (h : Nat.repr n = Nat.repr m) : n = m := by
  have hd : (Nat.repr n).data = (Nat.repr m).data := by rw [h]
  rcases Nat.eq_zero_or_pos n with hn | hn <;> rcases Nat.eq_zero_or_pos m with hm | hm
  · omega
  · subst hn
    rw [nat_repr_pos m hm] at hd
    have h0 : (Nat.repr 0).data = ['0'] := by decide
    rw [h0] at hd
    have : (Nat.digits 10 m).map Nat.digitChar = ['0'] := by
      have := congrArg List.reverse hd
      simpa using this.symm
    have hdm : Nat.digits 10 m = [0] := by
      apply map_digitChar_inj _ _ (fun d hd => Nat.digits_lt_base (by norm_num) hd) (by simp)
      simpa using this
    have hne := Nat.getLast_digit_ne_zero 10 (Nat.pos_iff_ne_zero.mp hm)
    simp [hdm] at hne
  · subst hm
    rw [nat_repr_pos n hn] at hd
    have h0 : (Nat.repr 0).data = ['0'] := by decide
    rw [h0] at hd
    have : (Nat.digits 10 n).map Nat.digitChar = ['0'] := by
      have := congrArg List.reverse hd
      simpa using this
    have hdm : Nat.digits 10 n = [0] := by
      apply map_digitChar_inj _ _ (fun d hd => Nat.digits_lt_base (by norm_num) hd) (by simp)
      simpa using this
    have hne := Nat.getLast_digit_ne_zero 10 (Nat.pos_iff_ne_zero.mp hn)
    simp [hdm] at hne
  · rw [nat_repr_pos n hn, nat_repr_pos m hm] at hd
    have h1 : (Nat.digits 10 n).map Nat.digitChar = (Nat.digits 10 m).map Nat.digitChar := by
      have := congrArg List.reverse hd
      simpa using this
    have h2 := map_digitChar_inj _ _ (fun d hd => Nat.digits_lt_base (by norm_num) hd)
      (fun d hd => Nat.digits_lt_base (by norm_num) hd) h1
    exact Nat.digits_inj_iff.mp h2

theorem nat_repr_no_minus (k : Nat) : '-' ∉ (Nat.repr k).data := by
  rcases Nat.eq_zero_or_pos k with hk | hk
  · subst hk
    decide
  · rw [nat_repr_pos k hk]
    intro hmem
    rw [List.mem_reverse, List.mem_map] at hmem
    obtain ⟨d, hd, hc⟩ := hmem
    have hlt : d < 10 := Nat.digits_lt_base (by norm_num) hd
    have : ∀ d < 10, Nat.digitChar d ≠ '-' := by decide
    exact this d hlt hc

theorem int_toString_eq_nat (n : Int) (k : Nat) (h : toString n = toString k) : n = k := by
  cases n with
  | ofNat m =>
    have : Nat.repr m = Nat.repr k := h
    rw [nat_repr_injective m k this]
    rfl
  | negSucc m =>
    exfalso
    have h1 : (toString (Int.negSucc m)).data = '-' :: (Nat.repr (m + 1)).data := rfl
    have h2 : (toString k).data = (Nat.repr k).data := rfl
    have h3 : '-' ∈ (Nat.repr k).data := by
      rw [← h2, ← h, h1]
      exact List.mem_cons_self _ _
    exact nat_repr_no_minus k h3

/-! ### Callback Ingestor -/

theorem toStr_num_eq_zero (n : Int) : toString n = "0" ↔ n = 0 := by
  constructor
  · intro h
    exact int_toString_eq_nat n 0 h
  · rintro rfl
    rfl

theorem toStr_num_eq_1032 (n : Int) : toString n = "1032" ↔ n = 1032 := by
  constructor
  · intro h
    exact int_toString_eq_nat n 1032 h
  · rintro rfl
    rfl

theorem scalar_text_eq_zero (v : JsVal) : v.toStr = "0" ↔ v = .num 0 ∨ v = .str "0" := by
  cases v with
  | undefined => decide
  | null => decide
  | bool b => cases b <;> decide
  | num n => simp [JsVal.toStr, toStr_num_eq_zero]
  | str s => simp [JsVal.toStr]

theorem scalar_text_eq_1032 (v : JsVal) :
    v.toStr = "1032" ↔ v = .num 1032 ∨ v = .str "1032" := by
  cases v with
  | undefined => decide
  | null => decide
  | bool b => cases b <;> decide
  | num n => simp [JsVal.toStr, toStr_num_eq_1032]
  | str s => simp [JsVal.toStr]

theorem elementText_eq_zero (v : JsVal) : elementText v = "0" ↔ v = .num 0 ∨ v = .str "0" := by
  cases v with
  | undefined => decide
  | null => decide
  | bool b => exact scalar_text_eq_zero (.bool b)
  | num n => exact scalar_text_eq_zero (.num n)
  | str s => exact scalar_text_eq_zero (.str s)

theorem elementText_eq_1032 (v : JsVal) :
    elementText v = "1032" ↔ v = .num 1032 ∨ v = .str "1032" := by
  cases v with
  | undefined => decide
  | null => decide
  | bool b => exact scalar_text_eq_1032 (.bool b)
  | num n => exact scalar_text_eq_1032 (.num n)
  | str s => exact scalar_text_eq_1032 (.str s)

/-- Joined texts make a text without a comma only when there is one of
them. -/
theorem joinWithComma_eq_iff (l : List String) (t : String) (hne : t ≠ "")
    (hc : ',' ∉ t.data) : joinWithComma l = t ↔ l = [t] := by
  match l with
  | [] =>
    constructor
    · intro h
      exact absurd h.symm hne
    · intro h
      cases h
  | [a] => simp [joinWithComma]
  | a :: b :: rest =>
    constructor
    · intro h
      exfalso
      apply hc
      rw [← h]
      simp [joinWithComma, String.data_append]
    · intro h
      simp at h

/-- An array has the text of a code only when it holds that code alone. -/
theorem array_text_eq_iff (items : List JsVal) :
    ((JsonValue.array items).toStr = "0" ↔ items = [.num 0] ∨ items = [.str "0"]) ∧
      ((JsonValue.array items).toStr = "1032" ↔
        items = [.num 1032] ∨ items = [.str "1032"]) := by
  have hsingle : ∀ t : String, items.map elementText = [t] ↔
      ∃ v, items = [v] ∧ elementText v = t := by
    intro t
    match items with
    | [] => simp
    | [v] => simp
    | a :: b :: rest => simp
  constructor
  · rw [JsonValue.toStr, joinWithComma_eq_iff _ "0" (by decide) (by decide), hsingle]
    constructor
    · rintro ⟨v, rfl, hv⟩
      rcases (elementText_eq_zero v).mp hv with h | h <;> simp [h]
    · rintro (h | h) <;> subst h <;> exact ⟨_, rfl, by decide⟩
  · rw [JsonValue.toStr, joinWithComma_eq_iff _ "1032" (by decide) (by decide), hsingle]
    constructor
    · rintro ⟨v, rfl, hv⟩
      rcases (elementText_eq_1032 v).mp hv with h | h <;> simp [h]
    · rintro (h | h) <;> subst h <;> exact ⟨_, rfl, by decide⟩

/-- The classification of lines 109-111 of `callback.js` goes by the text of
`ResultCode` alone. -/
theorem callbackStatus_table (rc : JsonValue) :
    callbackStatus rc =
      if rc.toStr = "0" then "success"
      else if rc.toStr = "1032" then "cancelled"
      else "failed" := by
  unfold callbackStatus
  by_cases h0 : rc.toStr = "0"
  · simp [h0]
  · have hne : rc ≠ .scalar (.num 0) := by
      rintro rfl
      exact h0 (by decide)
    simp [h0, hne]

theorem call_res (st : HState) (c : Call) : (st.call c).res = st.res := rfl

theorem call_store (st : HState) (c : Call) : (st.call c).store = st.store := rfl

theorem send_store (st : HState) (r : Response) : (st.send r).store = st.store := by
  unfold HState.send
  cases st.res <;> rfl

theorem send_calls (st : HState) (r : Response) : (st.send r).calls = st.calls := by
  unfold HState.send
  cases st.res <;> rfl

theorem send_res_of_none (st : HState) (r : Response) (h : st.res = none) :
    (st.send r).res = some r := by
  unfold HState.send
  rw [h]

theorem send_res_of_some (st : HState) (r r0 : Response) (h : st.res = some r0) :
    (st.send r).res = some r0 := by
  unfold HState.send
  rw [h]
  exact h

/-- The keyed update returns normally on every path: it keeps the response,
leaves the products alone, and either leaves the transactions alone or patches
the rows of its checkout id. -/
theorem update_returns (env : Env) (id : JsVal) (p : TxPatch) (st : HState) :
    ∃ st', supabaseUpdateMpesaTransactionByCheckoutRequestId env id p st = .ok st' ∧
      st'.res = st.res ∧
      (st'.store = st.store ∨
        (id.truthy = true ∧
          st'.store = st.store.patchTx id.toStr { p with updated_at := some (some env.now) })) := by
  unfold supabaseUpdateMpesaTransactionByCheckoutRequestId
  by_cases hc : env.storeConfigured = true
  · by_cases hi : id.truthy = true
    · cases hp : env.txPatch <;> simp [hc, hi, hp, call_res, call_store]
    · simp [hc, hi]
  · simp [hc]

theorem deductLoop_res (env : Env) (items : List LineItem) :
    ∀ (i : Nat) (st : HState), (deductLoop env i items st).1.res = st.res := by
  induction items with
  | nil => intro i st; rfl
  | cons item rest ih =>
    intro i st
    simp only [deductLoop]
    split
    · rfl
    · rw [ih]; rfl
    · split
      · rw [ih]; rfl
      · split
        · rw [ih]; rfl
        · split
          · split
            · rfl
            · rw [ih]; rfl
            · rw [ih]; rfl
          · rw [ih]; rfl

theorem deductLoop_transactions (env : Env) (items : List LineItem) :
    ∀ (i : Nat) (st : HState),
      (deductLoop env i items st).1.store.transactions = st.store.transactions := by
  induction items with
  | nil => intro i st; rfl
  | cons item rest ih =>
    intro i st
    simp only [deductLoop]
    split
    · rfl
    · rw [ih]; rfl
    · split
      · rw [ih]; rfl
      · split
        · rw [ih]; rfl
        · split
          · split
            · rfl
            · rw [ih]; rfl
            · rw [ih]; rfl
          · rw [ih]; rfl

theorem deductInventory_res (env : Env) (items : List LineItem) (st : HState) :
    (deductInventory env items st).1.res = st.res := by
  unfold deductInventory
  split
  · rfl
  · split
    · exact deductLoop_res env items 0 st
    · rfl

theorem deductInventory_transactions (env : Env) (items : List LineItem) (st : HState) :
    (deductInventory env items st).1.store.transactions = st.store.transactions := by
  unfold deductInventory
  split
  · rfl
  · split
    · exact deductLoop_transactions env items 0 st
    · rfl

/-- After the keyed update has returned the state `s1`, the rest of the
processing (metadata lookup and inventory deduction) keeps the response and
the transactions of `s1`, however it ends. -/
theorem processCallback_after_update (env : Env) (stk : StkCallback) (st s1 st' : HState)
    (rec : TxPatch) (hrec : transactionRecord env stk = .ok rec)
    (hs1 : supabaseUpdateMpesaTransactionByCheckoutRequestId env
      (stk.CheckoutRequestID.or .null) rec st = .ok s1)
    (h : processCallback env stk st = .ok st' ∨ processCallback env stk st = .error st') :
    st'.res = s1.res ∧ st'.store.transactions = s1.store.transactions := by
  unfold processCallback at h
  simp only [hrec, hs1] at h
  split_ifs at h
  · cases hm : env.metadataGet <;> simp only [hm] at h
    · cases hl : (s1.call (.metadataGet (stk.CheckoutRequestID.or .null).toStr)).store.lookupTx
          (stk.CheckoutRequestID.or .null).toStr with
      | none =>
        simp only [hl] at h
        rcases h with h | h <;> cases h
        exact ⟨rfl, rfl⟩
      | some tx =>
        simp only [hl] at h
        cases hmd : tx.metadata with
        | absent =>
          simp only [hmd] at h
          rcases h with h | h <;> cases h
          exact ⟨rfl, rfl⟩
        | malformed =>
          simp only [hmd] at h
          rcases h with h | h <;> cases h
          exact ⟨rfl, rfl⟩
        | parsed items =>
          cases items with
          | none =>
            simp only [hmd] at h
            rcases h with h | h <;> cases h
            exact ⟨rfl, rfl⟩
          | some items =>
            simp only [hmd] at h
            rcases h with h | h <;> cases h
            exact ⟨deductInventory_res env items _, deductInventory_transactions env items _⟩
    · rcases h with h | h <;> cases h
      exact ⟨rfl, rfl⟩
    · rcases h with h | h <;> cases h
      exact ⟨rfl, rfl⟩
  · rcases h with h | h <;> cases h
    exact ⟨rfl, rfl⟩
  · rcases h with h | h <;> cases h
    exact ⟨rfl, rfl⟩

/-- Whatever way the processing of a callback ends, it keeps the response
already sent, and the transactions are either untouched or patched, for the
callback's checkout id, with the record built from the callback. -/
theorem processCallback_frame (env : Env) (stk : StkCallback) (st st' : HState)
    (h : processCallback env stk st = .ok st' ∨ processCallback env stk st = .error st') :
    st'.res = st.res ∧
      (st'.store.transactions = st.store.transactions ∨
        ((stk.CheckoutRequestID.or .null).truthy = true ∧
          ∃ rec, transactionRecord env stk = .ok rec ∧
            st'.store.transactions =
              (st.store.patchTx (stk.CheckoutRequestID.or .null).toStr
                { rec with updated_at := some (some env.now) }).transactions)) := by
  cases hrec : transactionRecord env stk with
  | error e =>
    unfold processCallback at h
    simp only [hrec] at h
    rcases h with h | h
    · cases h
    · cases h
      exact ⟨rfl, Or.inl rfl⟩
  | ok rec =>
    obtain ⟨s1, hs1, hres, hstore⟩ :=
      update_returns env (stk.CheckoutRequestID.or .null) rec st
    have key := processCallback_after_update env stk st s1 st' rec hrec hs1 h
    refine ⟨key.1.trans hres, ?_⟩
    rcases hstore with hst | ⟨hid, hst⟩
    · left
      rw [key.2, hst]
    · right
      exact ⟨hid, rec, rfl, by rw [key.2, hst]⟩

/-- The handler's final state is the state in which the processing ended, up
to the response. -/
theorem callbackHandler_envelope (env : Env) (stk : StkCallback) (w : Store) :
    ∃ st', (processCallback env stk
        (({ store := w, res := none, calls := [] } : HState).send ackResponse) = .ok st' ∨
      processCallback env stk
        (({ store := w, res := none, calls := [] } : HState).send ackResponse) = .error st') ∧
      (callbackHandler env (.envelope stk) w).store = st'.store ∧
      ((callbackHandler env (.envelope stk) w).res = st'.res ∨
        (st'.res = none ∧ (callbackHandler env (.envelope stk) w).res = some ackResponse)) := by
  unfold callbackHandler
  simp only
  cases hp : processCallback env stk
      (({ store := w, res := none, calls := [] } : HState).send ackResponse) with
  | ok st2 => exact ⟨st2, Or.inl rfl, rfl, Or.inl rfl⟩
  | error st2 =>
    refine ⟨st2, Or.inr rfl, send_store _ _, ?_⟩
    cases hr : st2.res with
    | none => exact Or.inr ⟨rfl, send_res_of_none _ _ hr⟩
    | some r0 => exact Or.inl (send_res_of_some _ _ r0 hr)

/-- C5: whatever the request and whatever fails while it is processed, the
callback handler's response is `200` with body `{"ok":true}`. -/
theorem callbackHandler_always_acknowledges (env : Env) (req : CallbackRequest) (w : Store) :
    (callbackHandler env req w).res = some { statusCode := 200, body := .ack } := by
  cases req with
  | unparseable => rfl
  | noStkCallback => rfl
  | envelope stk =>
    obtain ⟨st', hp, _, hres⟩ := callbackHandler_envelope env stk w
    have hf := (processCallback_frame env stk _ st' hp).1
    rcases hres with hres | ⟨hnone, hres⟩
    · rw [hres, hf]
      rfl
    · exact hres

theorem transactionRecord_fields (env : Env) (stk : StkCallback) (rec : TxPatch)
    (h : transactionRecord env stk = .ok rec) :
    rec.status = some (some (callbackStatus stk.ResultCode)) ∧
      rec.checkout_request_id = some (jsToColumn (stk.CheckoutRequestID.or .null)) := by
  unfold transactionRecord at h
  simp only at h
  split at h
  · cases h
  · cases h
    exact ⟨rfl, rfl⟩

theorem jsToColumn_of_truthy (v : JsVal) (h : v.truthy = true) : jsToColumn v = some v.toStr := by
  cases v <;> simp_all [jsToColumn, JsVal.isNullish, JsVal.truthy]

/-- C4 (array `ResultCode`): a callback whose `ResultCode` is the array `[0]`
is written with status `success`, and one whose `ResultCode` is `[1032]` or
`["1032"]` with status `cancelled`; neither value is the code 0 or the code
1032, for which alone the claim has a status other than `failed`. -/
theorem callback_array_result_code_not_failed :
    ((callbackHandler (sampleEnv ⟨.undefined, .undefined⟩)
        (.envelope { sampleCallback .null with ResultCode := .array [.num 0] })
        (sampleStore "pending")).store.lookupTx "ws_CO_1").map
          (fun r => (r.result_code, r.status)) = some (some "0", some "success") ∧
    ((callbackHandler (sampleEnv ⟨.undefined, .undefined⟩)
        (.envelope { sampleCallback .null with ResultCode := .array [.num 1032] })
        (sampleStore "pending")).store.lookupTx "ws_CO_1").map
          (fun r => (r.result_code, r.status)) = some (some "1032", some "cancelled") ∧
    ((callbackHandler (sampleEnv ⟨.undefined, .undefined⟩)
        (.envelope { sampleCallback .null with ResultCode := .array [.str "1032"] })
        (sampleStore "pending")).store.lookupTx "ws_CO_1").map
          (fun r => (r.result_code, r.status)) = some (some "1032", some "cancelled") := by
  decide

/-- C4 as amended: the record a callback writes carries the status that the
text `String(ResultCode)` selects: `success` for the text "0", `cancelled` for
the text "1032" and `failed` for every other text.  A scalar `ResultCode` has
the text "0" exactly when it is the number 0 or the string "0", and the text
"1032" exactly when it is the number or the string 1032, so every other
scalar, an absent one included, is `failed`; an array has the text "0" exactly
when it is `[0]` or `["0"]` and the text "1032" exactly when it is `[1032]` or
`["1032"]`.  Once the keyed update has been applied, every row of the
callback's checkout id holds that status. -/
theorem callback_status_written (env : Env) (stk : StkCallback) (w : Store) (rec : TxPatch)
    (hrec : transactionRecord env stk = .ok rec) :
    rec.status = some (some
        (if stk.ResultCode.toStr = "0" then "success"
         else if stk.ResultCode.toStr = "1032" then "cancelled"
         else "failed")) ∧
      (∀ v : JsVal, stk.ResultCode = .scalar v →
        (stk.ResultCode.toStr = "0" ↔ v = .num 0 ∨ v = .str "0") ∧
          (stk.ResultCode.toStr = "1032" ↔ v = .num 1032 ∨ v = .str "1032")) ∧
      (∀ items : List JsVal, stk.ResultCode = .array items →
        (stk.ResultCode.toStr = "0" ↔ items = [.num 0] ∨ items = [.str "0"]) ∧
          (stk.ResultCode.toStr = "1032" ↔ items = [.num 1032] ∨ items = [.str "1032"])) ∧
      (env.storeConfigured = true → env.txPatch = .ok →
        (stk.CheckoutRequestID.or .null).truthy = true →
        ∀ r ∈ (callbackHandler env (.envelope stk) w).store.transactions,
          r.hasCheckoutId (stk.CheckoutRequestID.or .null).toStr = true →
          r.status = some
            (if stk.ResultCode.toStr = "0" then "success"
             else if stk.ResultCode.toStr = "1032" then "cancelled"
             else "failed")) := by
  obtain ⟨hst, hid⟩ := transactionRecord_fields env stk rec hrec
  rw [callbackStatus_table] at hst
  refine ⟨hst, ?_, ?_, ?_⟩
  · intro v hv
    rw [hv]
    exact ⟨scalar_text_eq_zero v, scalar_text_eq_1032 v⟩
  · intro items hitems
    rw [hitems]
    exact array_text_eq_iff items
  intro hcfg hpatch htruthy r hr hmatch
  obtain ⟨st', hp, hstore, _⟩ := callbackHandler_envelope env stk w
  have hup : supabaseUpdateMpesaTransactionByCheckoutRequestId env
      (stk.CheckoutRequestID.or .null) rec
      (({ store := w, res := none, calls := [] } : HState).send ackResponse) =
      .ok { (({ store := w, res := none, calls := [] } : HState).send ackResponse).call
              (.txPatch (stk.CheckoutRequestID.or .null).toStr) with
            store := w.patchTx (stk.CheckoutRequestID.or .null).toStr
              { rec with updated_at := some (some env.now) } } := by
    unfold supabaseUpdateMpesaTransactionByCheckoutRequestId
    simp [hcfg, hpatch, htruthy, call_store, send_store]
  have hafter := processCallback_after_update env stk _ _ st' rec hrec hup hp
  rw [hstore, hafter.2] at hr
  simp only [Store.patchTx, List.mem_map] at hr
  obtain ⟨a, _, ha⟩ := hr
  by_cases hm : a.hasCheckoutId (stk.CheckoutRequestID.or .null).toStr = true
  · rw [if_pos hm] at ha
    subst ha
    simp [TxPatch.applyTo, hst]
  · rw [if_neg hm] at ha
    subst ha
    exact absurd hmatch hm

theorem callback_status_written_witness :
    transactionRecord (sampleEnv ⟨.undefined, .undefined⟩)
        { sampleCallback .null with ResultCode := .array [.str "1032"] } =
        .ok sampleCancelledRecord ∧
      sampleCancelledRecord.status = some (some "cancelled") :=
  ⟨rfl, (callback_status_written (sampleEnv ⟨.undefined, .undefined⟩)
    { sampleCallback .null with ResultCode := .array [.str "1032"] } (sampleStore "pending")
    sampleCancelledRecord rfl).1.trans (by decide)⟩

/-! ### Status Resolver -/

theorem supabaseGet_frame (env : Env) (cid : String) (st : HState) :
    (supabaseGetMpesaTransactionByCheckoutRequestId env cid st).2.store = st.store ∧
      (supabaseGetMpesaTransactionByCheckoutRequestId env cid st).2.res = st.res ∧
      ((supabaseGetMpesaTransactionByCheckoutRequestId env cid st).1 = none ∨
        (supabaseGetMpesaTransactionByCheckoutRequestId env cid st).1 = st.store.lookupTx cid) := by
  unfold supabaseGetMpesaTransactionByCheckoutRequestId
  split_ifs
  · exact ⟨rfl, rfl, Or.inl rfl⟩
  · exact ⟨rfl, rfl, Or.inl rfl⟩
  · cases env.txGet
    · exact ⟨rfl, rfl, Or.inr rfl⟩
    · exact ⟨rfl, rfl, Or.inl rfl⟩
    · exact ⟨rfl, rfl, Or.inl rfl⟩

theorem supabaseGet_of_ok (env : Env) (cid : String) (st : HState)
    (hcfg : env.storeConfigured = true) (hget : env.txGet = .ok) (hid : cid ≠ "") :
    supabaseGetMpesaTransactionByCheckoutRequestId env cid st =
      (st.store.lookupTx cid, st.call (.txGet cid)) := by
  unfold supabaseGetMpesaTransactionByCheckoutRequestId
  simp [hcfg, hget, hid, call_store]

theorem resolveStatus_terminal_store (env : Env) (cid : String) (st0 : HState)
    (r : MpesaTransaction) (hr : st0.store.lookupTx cid = some r)
    (ht : isTerminalStatus r.status = true) : (resolveStatus env cid st0).store = st0.store := by
  unfold resolveStatus
  split_ifs with h3
  · exact send_store _ _
  · obtain ⟨hs, _, hv⟩ := supabaseGet_frame env cid st0
    split
    · rename_i existing st1 heq
      rw [heq] at hs hv
      simp only at hs hv
      rcases hv with hv | hv
      · cases hv
      · rw [hr] at hv
        cases hv
        rw [if_pos ht, send_store]
        exact hs
    · rename_i st1 heq
      rw [heq] at hs
      rw [send_store]
      exact hs

/-- A poll whose checkout id has a final record in the store leaves the store
as it is. -/
theorem queryHandler_terminal_store (env : Env) (req : QueryRequest) (w : Store)
    (r : MpesaTransaction) (hr : w.lookupTx (resolverCheckoutId req) = some r)
    (ht : isTerminalStatus r.status = true) : (queryHandler env req w).store = w := by
  unfold queryHandler
  simp only
  split_ifs with h1 h2
  · exact send_store _ _
  · exact send_store _ _
  · split
    · exact send_store _ _
    · exact resolveStatus_terminal_store env _ _ r hr ht

/-! ### Final statuses -/

theorem lookupTx_congr (w1 w2 : Store) (cid : String)
    (h : w1.transactions = w2.transactions) : w1.lookupTx cid = w2.lookupTx cid := by
  unfold Store.lookupTx
  rw [h]

/-- A keyed update whose body repeats the key, or does not mention it, leaves
every row's key alone, so a lookup finds the same row, patched when it is a
row of that key. -/
theorem lookupTx_patchTx (w : Store) (cid key : String) (p : TxPatch)
    (hp : p.checkout_request_id.getD (some key) = some key) :
    (w.patchTx key p).lookupTx cid =
      (w.lookupTx cid).map (fun r => if r.hasCheckoutId key then p.applyTo r else r) := by
  have hkeep : ((fun r : MpesaTransaction => r.hasCheckoutId cid) ∘
      fun r => if r.hasCheckoutId key then p.applyTo r else r) =
      fun r : MpesaTransaction => r.hasCheckoutId cid := by
    funext r
    by_cases hm : r.hasCheckoutId key = true
    · have hk : r.checkout_request_id = some key := by
        simpa [MpesaTransaction.hasCheckoutId] using hm
      simp [hm, MpesaTransaction.hasCheckoutId, TxPatch.applyTo, hp, hk]
    · simp [hm]
  simp only [Store.lookupTx, Store.patchTx, List.find?_map, hkeep]

/-- C1 (Callback Ingestor): a record whose stored status is `success` is
overwritten by a later callback for the same checkout id with `ResultCode`
1032; the stored status becomes `cancelled`. -/
theorem terminal_status_overwritten_by_callback :
    ((sampleStore "success").lookupTx "ws_CO_1").map (fun r => r.status) =
        some (some "success") ∧
      isTerminalStatus (some "success") = true ∧
      ((callbackHandler (sampleEnv ⟨.undefined, .undefined⟩)
          (.envelope (sampleCallback (.num 1032))) (sampleStore "success")).store.lookupTx
        "ws_CO_1").map (fun r => r.status) = some (some "cancelled") := by
  decide

/-- C1 as amended: for a record whose stored status is final, every Status
Resolver invocation on its checkout id leaves the store unchanged, whatever
the gateway would answer; a Callback Ingestor invocation leaves the stored
status either as it was or equal to the status it classifies from its own
`ResultCode`. -/
theorem terminal_status_kept_by_resolver (w : Store) (cid : String) (r : MpesaTransaction)
    (hr : w.lookupTx cid = some r) (ht : isTerminalStatus r.status = true) :
    (∀ (env : Env) (req : QueryRequest), resolverCheckoutId req = cid →
        (queryHandler env req w).store = w) ∧
      (∀ (env : Env) (stk : StkCallback),
        ∃ r', (callbackHandler env (.envelope stk) w).store.lookupTx cid = some r' ∧
          (r'.status = r.status ∨ r'.status = some (callbackStatus stk.ResultCode))) := by
  constructor
  · intro env req hcid
    subst hcid
    exact queryHandler_terminal_store env req w r hr ht
  · intro env stk
    obtain ⟨st', hp, hstore, _⟩ := callbackHandler_envelope env stk w
    obtain ⟨_, hframe⟩ := processCallback_frame env stk _ st' hp
    rw [send_store] at hframe
    rcases hframe with hsame | ⟨htruthy, rec, hrec, hpatched⟩
    · refine ⟨r, ?_, Or.inl rfl⟩
      rw [hstore, lookupTx_congr st'.store w cid hsame]
      exact hr
    · obtain ⟨hst, hid⟩ := transactionRecord_fields env stk rec hrec
      rw [jsToColumn_of_truthy _ htruthy] at hid
      have hl := lookupTx_patchTx w cid (stk.CheckoutRequestID.or .null).toStr
        { rec with updated_at := some (some env.now) } (by simp [hid])
      rw [hstore, lookupTx_congr st'.store _ cid hpatched, hl, hr]
      refine ⟨_, rfl, ?_⟩
      by_cases hm : r.hasCheckoutId (stk.CheckoutRequestID.or .null).toStr = true
      · right
        simp [hm, TxPatch.applyTo, hst]
      · left
        simp [hm]

theorem terminal_status_kept_by_resolver_witness :
    (queryHandler (sampleEnv ⟨.num 1032, .str "cancelled"⟩) samplePoll
      (sampleStore "success")).store = sampleStore "success" :=
  (terminal_status_kept_by_resolver (sampleStore "success") "ws_CO_1" (sampleTx "success")
    (by decide) (by decide)).1 (sampleEnv ⟨.num 1032, .str "cancelled"⟩) samplePoll (by decide)

theorem queryHandler_of_post (env : Env) (req : QueryRequest) (w : Store)
    (hm : req.method = "POST") (hb : ∀ m t, req.body ≠ .unparseable m t) :
    queryHandler env req w =
      resolveStatus env (resolverCheckoutId req) { store := w, res := none, calls := [] } := by
  unfold queryHandler
  cases hbody : req.body with
  | unparseable m t => exact absurd hbody (hb m t)
  | jsonNull => simp [hm]
  | object v => simp [hm]

theorem isTerminalStatus_iff (s : String) :
    isTerminalStatus (some s) = true ↔ s = "success" ∨ s = "failed" ∨ s = "cancelled" := by
  constructor
  · intro h
    simp only [isTerminalStatus, Bool.and_eq_true, List.contains_eq_any_beq, List.any_cons,
      List.any_nil, Bool.or_false, Bool.or_eq_true, beq_iff_eq] at h
    exact h.2
  · rintro (rfl | rfl | rfl) <;> decide

/-- C2: when the store returns, for the polled checkout id, a record whose
status is `success`, `failed` or `cancelled`, the resolver answers `200` with
that status and the stored result code and description under the source tag
`supabase`; the lookup is the only outbound call (no token request, no gateway
query, no store write) and the store is unchanged. -/
theorem resolver_terminal_from_store (env : Env) (req : QueryRequest) (w : Store)
    (existing : MpesaTransaction) (s : String)
    (hm : req.method = "POST") (hb : ∀ m t, req.body ≠ .unparseable m t)
    (hid : resolverCheckoutId req ≠ "")
    (hcfg : env.storeConfigured = true) (hget : env.txGet = .ok)
    (hrow : w.lookupTx (resolverCheckoutId req) = some existing)
    (hs : existing.status = some s)
    (ht : s = "success" ∨ s = "failed" ∨ s = "cancelled") :
    (queryHandler env req w).res = some
        { statusCode := 200
          body := .status
            { status := s
              resultCode := columnToJs existing.result_code
              resultDesc := columnToJs existing.result_desc
              source := "supabase"
              rowExists := none
              raw := none } } ∧
      (queryHandler env req w).calls = [.txGet (resolverCheckoutId req)] ∧
      (∀ c ∈ (queryHandler env req w).calls, c.isGatewayCall = false ∧ c.isStoreWrite = false) ∧
      (queryHandler env req w).store = w := by
  have hterm : isTerminalStatus existing.status = true := by
    rw [hs]
    exact (isTerminalStatus_iff s).mpr ht
  have hrun : queryHandler env req w =
      (({ store := w, res := none, calls := [] } : HState).call
        (.txGet (resolverCheckoutId req))).send
        { statusCode := 200
          body := .status
            { status := s
              resultCode := columnToJs existing.result_code
              resultDesc := columnToJs existing.result_desc
              source := "supabase"
              rowExists := none
              raw := none } } := by
    rw [queryHandler_of_post env req w hm hb]
    unfold resolveStatus
    have hne : (resolverCheckoutId req == "") = false := by simpa using hid
    rw [supabaseGet_of_ok env _ _ hcfg hget hid]
    have hterm' : isTerminalStatus (some s) = true := hs ▸ hterm
    simp [hne, hrow, hterm', hs, call_store]
  rw [hrun]
  refine ⟨rfl, rfl, ?_, rfl⟩
  intro c hc
  have hc' : c = .txGet (resolverCheckoutId req) := by
    simpa [HState.send, HState.call] using hc
  subst hc'
  exact ⟨rfl, rfl⟩

theorem resolver_terminal_from_store_witness :
    (queryHandler (sampleEnv ⟨.num 1032, .str "cancelled"⟩) samplePoll
        (sampleStore "success")).res = some
        { statusCode := 200
          body := .status
            { status := "success"
              resultCode := .null
              resultDesc := .null
              source := "supabase"
              rowExists := none
              raw := none } } :=
  (resolver_terminal_from_store (sampleEnv ⟨.num 1032, .str "cancelled"⟩) samplePoll
    (sampleStore "success") (sampleTx "success") "success" rfl
    (by intro m t h; cases h) (by decide) rfl rfl (by decide) rfl (Or.inl rfl)).1

/-- C6: when the store returns a record that is not final and the token cannot
be obtained, or the gateway call throws, or the gateway answers with a
non-success status, the resolver still answers `200` with the stored status
(`pending` when it is empty) and the stored result code and description, under
a source tag that is neither `supabase` nor `mpesa_query`; it asks the store
for no write and leaves it unchanged. -/
theorem resolver_gateway_failure_fallback (env : Env) (req : QueryRequest) (w : Store)
    (existing : MpesaTransaction)
    (hm : req.method = "POST") (hb : ∀ m t, req.body ≠ .unparseable m t)
    (hid : resolverCheckoutId req ≠ "")
    (hcfg : env.storeConfigured = true) (hget : env.txGet = .ok)
    (hrow : w.lookupTx (resolverCheckoutId req) = some existing)
    (hnt : isTerminalStatus existing.status = false)
    (hfail : env.token ≠ .ok ∨ env.gatewayConfigured = false ∨ env.gateway = .throws ∨
      env.gateway = .httpError) :
    ∃ source, source ≠ "supabase" ∧ source ≠ "mpesa_query" ∧
      (queryHandler env req w).res = some
        { statusCode := 200
          body := .status
            { status := statusOrPending existing.status
              resultCode := columnToJs existing.result_code
              resultDesc := columnToJs existing.result_desc
              source := source
              rowExists := none
              raw := none } } ∧
      (∀ c ∈ (queryHandler env req w).calls, c.isStoreWrite = false) ∧
      (queryHandler env req w).store = w := by
  have hne : (resolverCheckoutId req == "") = false := by simpa using hid
  have hrun : queryHandler env req w =
      queryGateway env (resolverCheckoutId req) existing
        (({ store := w, res := none, calls := [] } : HState).call
          (.txGet (resolverCheckoutId req))) := by
    rw [queryHandler_of_post env req w hm hb]
    unfold resolveStatus
    rw [supabaseGet_of_ok env _ _ hcfg hget hid]
    simp [hne, hrow, hnt, call_store]
  rw [hrun]
  unfold queryGateway
  cases htok : env.token with
  | missingCredentials =>
    refine ⟨"supabase_error_fallback", by decide, by decide, rfl, ?_, rfl⟩
    intro c hc
    have hc' : c = .txGet (resolverCheckoutId req) := by
      simpa [HState.send, HState.call] using hc
    subst hc'
    rfl
  | failed =>
    refine ⟨"supabase_error_fallback", by decide, by decide, rfl, ?_, rfl⟩
    intro c hc
    have hc' : c = .txGet (resolverCheckoutId req) ∨ c = .tokenRequest := by
      simpa [HState.send, HState.call] using hc
    rcases hc' with rfl | rfl <;> rfl
  | ok =>
    by_cases hgc : env.gatewayConfigured = true
    · have hgw : env.gateway = .throws ∨ env.gateway = .httpError := by
        rcases hfail with h | h | h | h
        · exact absurd htok h
        · rw [hgc] at h
          cases h
        · exact Or.inl h
        · exact Or.inr h
      rcases hgw with hgw | hgw
      · refine ⟨"supabase_error_fallback", by decide, by decide, ?_, ?_, ?_⟩
        · simp [hgc, hgw, fallbackResponse, HState.send, HState.call]
        · intro c hc
          have hc' : c = .txGet (resolverCheckoutId req) ∨ c = .tokenRequest ∨
              c = .gatewayQuery (resolverCheckoutId req) := by
            simpa [hgc, hgw, HState.send, HState.call] using hc
          rcases hc' with rfl | rfl | rfl <;> rfl
        · simp [hgc, hgw, HState.send, HState.call]
      · refine ⟨"supabase_fallback", by decide, by decide, ?_, ?_, ?_⟩
        · simp [hgc, hgw, fallbackResponse, HState.send, HState.call]
        · intro c hc
          have hc' : c = .txGet (resolverCheckoutId req) ∨ c = .tokenRequest ∨
              c = .gatewayQuery (resolverCheckoutId req) := by
            simpa [hgc, hgw, HState.send, HState.call] using hc
          rcases hc' with rfl | rfl | rfl <;> rfl
        · simp [hgc, hgw, HState.send, HState.call]
    · refine ⟨"supabase_error_fallback", by decide, by decide, ?_, ?_, ?_⟩
      · simp [hgc, fallbackResponse, HState.send, HState.call]
      · intro c hc
        have hc' : c = .txGet (resolverCheckoutId req) ∨ c = .tokenRequest := by
          simpa [hgc, HState.send, HState.call] using hc
        rcases hc' with rfl | rfl <;> rfl
      · simp [hgc, HState.send, HState.call]

theorem resolver_gateway_failure_fallback_witness :
    (queryHandler { sampleEnv ⟨.undefined, .undefined⟩ with gateway := .httpError } samplePoll
      (sampleStore "pending")).store = sampleStore "pending" :=
  match resolver_gateway_failure_fallback
      { sampleEnv ⟨.undefined, .undefined⟩ with gateway := .httpError } samplePoll
      (sampleStore "pending") (sampleTx "pending") rfl (by intro m t h; cases h) (by decide)
      rfl rfl (by decide) (by decide) (Or.inr (Or.inr (Or.inr rfl))) with
  | ⟨_, _, _, _, _, h⟩ => h

/-- The classification of lines 125-133 of `query.js` on string codes: "0" is
`success`, "1032" `cancelled`, "1037" and the empty string `pending`, every
other string `failed`. -/
theorem queryStatus_str (s : String) :
    queryStatus (.str s) =
      if s = "0" then "success"
      else if s = "1032" then "cancelled"
      else if s = "1037" ∨ s = "" then "pending"
      else "failed" := by
  by_cases h0 : s = "0"
  · subst h0; decide
  · by_cases h1 : s = "1032"
    · subst h1; decide
    · by_cases h2 : s = "1037"
      · subst h2; decide
      · by_cases h3 : s = ""
        · subst h3; decide
        · simp [queryStatus, JsVal.truthy, h0, h1, h2, h3]

/-- The classification of lines 125-133 of `query.js` on numeric codes: 0 is
`success`, 1032 `cancelled`, and every other number `failed`, the number 1037
included. -/
theorem queryStatus_num (n : Int) :
    queryStatus (.num n) =
      if n = 0 then "success" else if n = 1032 then "cancelled" else "failed" := by
  by_cases h0 : n = 0
  · subst h0; decide
  · by_cases h1 : n = 1032
    · subst h1; decide
    · simp [queryStatus, JsVal.truthy, h0, h1]

/-- C3: on the gateway path, with a pending record and the gateway answering
`ResultCode` 1037 as a number, the resolver classifies the answer as `failed`
(the string "1037" is classified `pending`); `failed` is what it returns and
what it writes to the record. -/
theorem resolver_numeric_1037_classified_failed :
    queryStatus (.num 1037) = "failed" ∧
      queryStatus (.str "1037") = "pending" ∧
      (queryHandler (sampleEnv ⟨.num 1037, .str "timeout"⟩) samplePoll
        (sampleStore "pending")).res = some
          { statusCode := 200
            body := .status
              { status := "failed"
                resultCode := .num 1037
                resultDesc := .str "timeout"
                source := "mpesa_query"
                rowExists := none
                raw := some ⟨.num 1037, .str "timeout"⟩ } } ∧
      ((queryHandler (sampleEnv ⟨.num 1037, .str "timeout"⟩) samplePoll
        (sampleStore "pending")).store.lookupTx "ws_CO_1").map (fun r => r.status) =
          some (some "failed") := by
  decide

/-- On the gateway path (record not final, token and gateway call succeed, the
keyed update is accepted) the status classified from the gateway's
`ResultCode` is the one returned, under the source tag `mpesa_query`, and the
one stored. -/
theorem resolver_gateway_persists_classification (env : Env) (req : QueryRequest) (w : Store)
    (existing : MpesaTransaction) (data : GatewayData)
    (hm : req.method = "POST") (hb : ∀ m t, req.body ≠ .unparseable m t)
    (hid : resolverCheckoutId req ≠ "")
    (hcfg : env.storeConfigured = true) (hget : env.txGet = .ok)
    (hrow : w.lookupTx (resolverCheckoutId req) = some existing)
    (hnt : isTerminalStatus existing.status = false)
    (htok : env.token = .ok) (hgc : env.gatewayConfigured = true)
    (hgw : env.gateway = .ok data) (hpatch : env.txPatch = .ok) :
    (queryHandler env req w).res = some
        { statusCode := 200
          body := .status
            { status := queryStatus data.ResultCode
              resultCode := data.ResultCode
              resultDesc := data.ResultDesc
              source := "mpesa_query"
              rowExists := none
              raw := some data } } ∧
      ∃ r', (queryHandler env req w).store.lookupTx (resolverCheckoutId req) = some r' ∧
        r'.status = some (queryStatus data.ResultCode) := by
  have hne : (resolverCheckoutId req == "") = false := by simpa using hid
  have hrun : queryHandler env req w =
      queryGateway env (resolverCheckoutId req) existing
        (({ store := w, res := none, calls := [] } : HState).call
          (.txGet (resolverCheckoutId req))) := by
    rw [queryHandler_of_post env req w hm hb]
    unfold resolveStatus
    rw [supabaseGet_of_ok env _ _ hcfg hget hid]
    simp [hne, hrow, hnt, call_store]
  rw [hrun]
  have hne' : (resolverCheckoutId req != "") = true := by simpa using hid
  have hstr : (JsVal.str (resolverCheckoutId req)).toStr = resolverCheckoutId req := rfl
  have hl := lookupTx_patchTx w (resolverCheckoutId req) (resolverCheckoutId req)
    { result_code := some (if data.ResultCode.isNullish then none else some data.ResultCode.toStr)
      result_desc := some (jsToColumn (data.ResultDesc.or .null))
      status := some (some (queryStatus data.ResultCode))
      updated_at := some (some env.now) } rfl
  have hmatch : existing.hasCheckoutId (resolverCheckoutId req) = true := by
    unfold Store.lookupTx at hrow
    have hfound := List.find?_some hrow
    exact hfound
  unfold queryGateway supabaseUpdateMpesaTransactionByCheckoutRequestId
  simp only [htok, hgc, hgw, hcfg, hpatch, JsVal.truthy, hne', hstr, Bool.not_true,
    Bool.false_eq_true, if_false]
  refine ⟨rfl, ?_⟩
  simp only [send_store, call_store]
  rw [hl, hrow]
  refine ⟨_, rfl, ?_⟩
  simp [hmatch, TxPatch.applyTo]

/-! ### Phone normaliser: accepted shapes and dependence on the digits -/

theorem filter_digit_dropWhile_space (cs : List Char) :
    (cs.dropWhile isJsWhitespace).filter isAsciiDigit = cs.filter isAsciiDigit := by
  induction cs with
  | nil => rfl
  | cons c t ih =>
    by_cases hw : isJsWhitespace c = true
    · have hd : isAsciiDigit c = false := by
        cases h : isAsciiDigit c
        · rfl
        · rw [isJsWhitespace_of_digit h] at hw
          cases hw
      simp [List.dropWhile, hw, hd, ih]
    · simp [List.dropWhile, hw]

theorem filter_digit_jsTrim (cs : List Char) :
    (jsTrim cs).filter isAsciiDigit = cs.filter isAsciiDigit := by
  unfold jsTrim
  rw [List.filter_reverse, filter_digit_dropWhile_space, List.filter_reverse,
    List.reverse_reverse, filter_digit_dropWhile_space]

theorem filter_digit_nonspace (cs : List Char) :
    (cs.filter (fun c => !isJsWhitespace c)).filter isAsciiDigit = cs.filter isAsciiDigit := by
  rw [List.filter_filter]
  congr 1
  funext c
  cases h : isAsciiDigit c
  · rfl
  · simp [isJsWhitespace_of_digit h]

/-- The digits the normaliser branches on are the digit sequence of its
input. -/
theorem normalizeMsisdn_eq (input : JsVal) :
    normalizeMsisdn input =
      if ((jsTrim (input.or (.str "")).toStr.data).filter (fun c => !isJsWhitespace c)).isEmpty
      then none
      else normalizeDigits (digitSequence input) := by
  unfold normalizeMsisdn digitSequence
  simp only [filter_digit_nonspace, filter_digit_jsTrim]

theorem normalizeDigits_isSome (d : List Char) :
    (normalizeDigits d).isSome = isListedShape d := by
  by_cases h12 : d.length = 12
  · rcases d with _ | ⟨a0, _ | ⟨a1, _ | ⟨a2, _ | ⟨a3, _ | ⟨a4, _ | ⟨a5, _ | ⟨a6,
      _ | ⟨a7, _ | ⟨a8, _ | ⟨a9, _ | ⟨a10, _ | ⟨a11, _ | ⟨a12, t⟩⟩⟩⟩⟩⟩⟩⟩⟩⟩⟩⟩⟩ <;> simp at h12
    simp only [normalizeDigits, startsWith, finalPatternCheck, matchesMsisdnPattern,
      isListedShape]
    simp
    split_ifs <;> simp_all [List.isPrefixOf] <;> aesop
  · by_cases h10 : d.length = 10
    · rcases d with _ | ⟨a0, _ | ⟨a1, _ | ⟨a2, _ | ⟨a3, _ | ⟨a4, _ | ⟨a5, _ | ⟨a6,
        _ | ⟨a7, _ | ⟨a8, _ | ⟨a9, _ | ⟨a10, t⟩⟩⟩⟩⟩⟩⟩⟩⟩⟩⟩ <;> simp at h10
      simp only [normalizeDigits, startsWith, finalPatternCheck, matchesMsisdnPattern,
        isListedShape]
      simp
      split_ifs <;> simp_all [List.isPrefixOf] <;> aesop
    · by_cases h9 : d.length = 9
      · rcases d with _ | ⟨a0, _ | ⟨a1, _ | ⟨a2, _ | ⟨a3, _ | ⟨a4, _ | ⟨a5, _ | ⟨a6,
          _ | ⟨a7, _ | ⟨a8, _ | ⟨a9, t⟩⟩⟩⟩⟩⟩⟩⟩⟩⟩ <;> simp at h9
        simp only [normalizeDigits, startsWith, finalPatternCheck, matchesMsisdnPattern,
          isListedShape]
        simp
        split_ifs <;> simp_all [List.isPrefixOf] <;> aesop
      · simp [normalizeDigits, finalPatternCheck, matchesMsisdnPattern, isListedShape, h9, h10,
          h12]

theorem digitSequence_of_stripped_empty (input : JsVal)
    (h : ((jsTrim (input.or (.str "")).toStr.data).filter
      (fun c => !isJsWhitespace c)).isEmpty = true) : digitSequence input = [] := by
  have he : (jsTrim (input.or (.str "")).toStr.data).filter (fun c => !isJsWhitespace c) = [] :=
    List.isEmpty_iff.mp h
  have hd := filter_digit_nonspace (jsTrim (input.or (.str "")).toStr.data)
  rw [he, filter_digit_jsTrim] at hd
  exact hd.symm

/-- C11: `normalizeMsisdn` returns a number exactly when the digit sequence of
its input has one of the six listed shapes; for every other input the result
is `null`. -/
theorem normalizeMsisdn_accepts_listed_shapes (input : JsVal) :
    (normalizeMsisdn input).isSome = isListedShape (digitSequence input) := by
  rw [normalizeMsisdn_eq]
  split_ifs with h
  · rw [digitSequence_of_stripped_empty input h]
    rfl
  · exact normalizeDigits_isSome _

theorem normalizeMsisdn_accepts_listed_shapes_witness :
    normalizeMsisdn (.str "12345") = none ∧ normalizeMsisdn (.str "0212345678") = none ∧
      normalizeMsisdn (.str "") = none :=
  ⟨Option.not_isSome_iff_eq_none.mp (by
      rw [normalizeMsisdn_accepts_listed_shapes]; decide),
    Option.not_isSome_iff_eq_none.mp (by
      rw [normalizeMsisdn_accepts_listed_shapes]; decide),
    Option.not_isSome_iff_eq_none.mp (by
      rw [normalizeMsisdn_accepts_listed_shapes]; decide)⟩

theorem str_or_empty (s : String) : ((JsVal.str s).or (.str "")).toStr = s := by
  by_cases h : s = ""
  · subst h
    rfl
  · simp [JsVal.or, JsVal.truthy, JsVal.toStr, h]

/-- C12: `normalizeMsisdn` depends only on the digits of its input: a string
and the string of its ASCII digits (all whitespace and every other non-digit
character removed) give the same result. -/
theorem normalizeMsisdn_depends_on_digits (s : String) :
    normalizeMsisdn (.str s) = normalizeMsisdn (.str (String.mk (s.data.filter isAsciiDigit))) := by
  have hall : (String.mk (s.data.filter isAsciiDigit)).data.all isAsciiDigit = true := by
    simp [List.all_eq_true]
  have hds : digitSequence (.str s) = s.data.filter isAsciiDigit := by
    unfold digitSequence
    rw [str_or_empty]
  by_cases hd : s.data.filter isAsciiDigit = []
  · have hr : normalizeMsisdn (.str (String.mk (s.data.filter isAsciiDigit))) = none := by
      rw [hd]
      decide
    rw [hr, normalizeMsisdn_eq, hds, hd]
    split_ifs
    · rfl
    · decide
  · rw [normalizeMsisdn_of_digits _ hd hall, normalizeMsisdn_eq, hds]
    split_ifs with h
    · have := digitSequence_of_stripped_empty (.str s) h
      rw [hds] at this
      exact absurd this hd
    · rfl

theorem normalizeMsisdn_depends_on_digits_witness :
    normalizeMsisdn (.str "+254 712-345-678") = normalizeMsisdn (.str "254712345678") :=
  (normalizeMsisdn_depends_on_digits "+254 712-345-678").trans (by decide)

/-! ### Status Reader -/

theorem jsIncludes_iff (s sub : List Char) : jsIncludes s sub = true ↔ sub <:+: s := by
  unfold jsIncludes
  rw [List.any_eq_true, List.infix_iff_prefix_suffix]
  constructor
  · rintro ⟨t, ht, hp⟩
    exact ⟨t, List.isPrefixOf_iff_prefix.mp hp, (List.mem_tails t s).mp ht⟩
  · rintro ⟨t, hp, ht⟩
    exact ⟨t, (List.mem_tails t s).mpr ht, List.isPrefixOf_iff_prefix.mpr hp⟩

theorem jsIncludes_lower_iff (text word : String) :
    jsIncludes (jsToLowerCase text).data word.data = true ↔ containsIgnoringCase text word := by
  rw [jsIncludes_iff, jsToLowerCase, String.map_eq, List.isInfix_map_iff]
  unfold containsIgnoringCase
  constructor
  · rintro ⟨l, hl, he⟩
    exact ⟨l, hl, he.symm⟩
  · rintro ⟨l, hl, he⟩
    exact ⟨l, hl, he.symm⟩

/-- The status the reader reports, as a table on the stored record. -/
theorem readerStatus_table (tx : MpesaTransaction) :
    ((tx.result_code = some "1032" ∨ containsIgnoringCase (tx.result_desc.getD "") "cancel") →
        readerStatus tx = "cancelled") ∧
      (¬(tx.result_code = some "1032" ∨ containsIgnoringCase (tx.result_desc.getD "") "cancel") →
        readerStatus tx = statusOrPending tx.status) := by
  have hempty : ¬containsIgnoringCase "" "cancel" := by
    rintro ⟨w, hw, he⟩
    have : w = [] := List.eq_nil_of_infix_nil hw
    subst this
    cases he
  unfold readerStatus
  constructor
  · rintro (h | h)
    · simp [h]
    · have hne : tx.result_desc.getD "" ≠ "" := by
        intro he
        rw [he] at h
        exact hempty h
      have hinc := (jsIncludes_lower_iff _ _).mpr h
      simp [hne, hinc]
  · intro h
    have h1 : tx.result_code ≠ some "1032" := fun he => h (Or.inl he)
    have h2 : jsIncludes (jsToLowerCase (tx.result_desc.getD "")).data "cancel".data = false := by
      cases hj : jsIncludes (jsToLowerCase (tx.result_desc.getD "")).data "cancel".data
      · rfl
      · exact absurd (Or.inr ((jsIncludes_lower_iff _ _).mp hj)) h
    simp [h1, h2]

theorem statusHandler_of_found (env : Env) (req : QueryRequest) (w : Store) (v : JsVal)
    (tx : MpesaTransaction) (hm : req.method = "POST") (hb : req.body = .object v)
    (hid : readerCheckoutId v ≠ "") (hcfg : env.storeConfigured = true) (hget : env.txGet = .ok)
    (hrow : w.lookupTx (readerCheckoutId v) = some tx) :
    statusHandler env req w =
      (({ store := w, res := none, calls := [] } : HState).call
        (.txGet (readerCheckoutId v))).send
        { statusCode := 200
          body := .status
            { status := readerStatus tx
              resultCode := columnToJs tx.result_code
              resultDesc := .str (tx.result_desc.getD "")
              source := "supabase"
              rowExists := some true
              raw := none } } := by
  have hne : (readerCheckoutId v == "") = false := by simpa using hid
  unfold statusHandler
  simp only [hm, hb]
  rw [supabaseGet_of_ok env _ _ hcfg hget hid]
  simp [hne, hrow, call_store]

/-- C19: for a record the store returns, the reader answers `200` with status
`cancelled` when the stored result code is "1032" or the stored description
contains "cancel" in some letter case, and with the stored status (`pending`
when it is empty) otherwise, together with the stored result code; the store
lookup is its only outbound call.  A record written by a callback with
`ResultCode` 1032 holds the result code "1032", so it is reported
`cancelled` whatever its description. -/
theorem reader_reports_stored_record (env : Env) (req : QueryRequest) (w : Store) (v : JsVal)
    (tx : MpesaTransaction) (hm : req.method = "POST") (hb : req.body = .object v)
    (hid : readerCheckoutId v ≠ "") (hcfg : env.storeConfigured = true) (hget : env.txGet = .ok)
    (hrow : w.lookupTx (readerCheckoutId v) = some tx) :
    ∃ status,
      (statusHandler env req w).res = some
        { statusCode := 200
          body := .status
            { status := status
              resultCode := columnToJs tx.result_code
              resultDesc := .str (tx.result_desc.getD "")
              source := "supabase"
              rowExists := some true
              raw := none } } ∧
      ((tx.result_code = some "1032" ∨ containsIgnoringCase (tx.result_desc.getD "") "cancel") →
        status = "cancelled") ∧
      (¬(tx.result_code = some "1032" ∨
          containsIgnoringCase (tx.result_desc.getD "") "cancel") →
        status = statusOrPending tx.status) ∧
      (statusHandler env req w).calls = [.txGet (readerCheckoutId v)] ∧
      (∀ c ∈ (statusHandler env req w).calls, c.isGatewayCall = false) ∧
      (statusHandler env req w).store = w ∧
      (∀ (env' : Env) (stk : StkCallback) (rec : TxPatch),
        transactionRecord env' stk = .ok rec →
        stk.ResultCode = .scalar (.num 1032) ∨ stk.ResultCode = .scalar (.str "1032") →
        rec.result_code = some (some "1032") ∧ rec.status = some (some "cancelled")) := by
  rw [statusHandler_of_found env req w v tx hm hb hid hcfg hget hrow]
  refine ⟨readerStatus tx, rfl, (readerStatus_table tx).1, (readerStatus_table tx).2, rfl, ?_,
    rfl, ?_⟩
  · intro c hc
    have hc' : c = .txGet (readerCheckoutId v) := by
      simpa [HState.send, HState.call] using hc
    subst hc'
    rfl
  · intro env' stk rec hrec hcode
    have hst := (transactionRecord_fields env' stk rec hrec).1
    have hrc : rec.result_code =
        some (if stk.ResultCode.isNullish then none else some stk.ResultCode.toStr) := by
      unfold transactionRecord at hrec
      simp only at hrec
      split at hrec
      · cases hrec
      · cases hrec
        rfl
    rcases hcode with h | h
    · rw [h] at hst hrc
      exact ⟨hrc, hst⟩
    · rw [h] at hst hrc
      exact ⟨hrc, hst⟩

theorem reader_reports_stored_record_witness :
    (statusHandler (sampleEnv ⟨.undefined, .undefined⟩) samplePoll
      (callbackHandler (sampleEnv ⟨.undefined, .undefined⟩)
        (.envelope { sampleCallback (.num 1032) with ResultDesc := .str "" })
        (sampleStore "pending")).store).res = some
        { statusCode := 200
          body := .status
            { status := "cancelled"
              resultCode := .str "1032"
              resultDesc := .str ""
              source := "supabase"
              rowExists := some true
              raw := none } } := by
  obtain ⟨status, hres, hcancel, _⟩ := reader_reports_stored_record
    (sampleEnv ⟨.undefined, .undefined⟩) samplePoll
    (callbackHandler (sampleEnv ⟨.undefined, .undefined⟩)
      (.envelope { sampleCallback (.num 1032) with ResultDesc := .str "" })
      (sampleStore "pending")).store (.str "ws_CO_1") sampleCancelledTx rfl rfl (by decide) rfl
    rfl (by decide)
  rw [hres, hcancel (Or.inl rfl)]
  rfl

/-! ### Checkout id extraction -/

theorem call_calls (st : HState) (c : Call) : (st.call c).calls = st.calls ++ [c] := rfl

theorem update_calls (env : Env) (id : JsVal) (p : TxPatch) (st : HState) :
    ∃ st', supabaseUpdateMpesaTransactionByCheckoutRequestId env id p st = .ok st' ∧
      st'.res = st.res ∧ ∃ extra, st'.calls = st.calls ++ extra := by
  unfold supabaseUpdateMpesaTransactionByCheckoutRequestId
  by_cases hc : env.storeConfigured = true
  · by_cases hi : id.truthy = true
    · cases hp : env.txPatch <;>
        simp only [hc, hi, Bool.not_true, Bool.false_eq_true, if_false] <;>
        exact ⟨_, rfl, rfl, [.txPatch id.toStr], rfl⟩
    · exact ⟨st, by simp [hc, hi], rfl, [], by simp⟩
  · exact ⟨st, by simp [hc], rfl, [], by simp⟩

/-- The gateway path answers `200` with a status body and only adds calls to
those already made. -/
theorem queryGateway_answers (env : Env) (cid : String) (existing : MpesaTransaction)
    (st : HState) (hres : st.res = none) :
    (∃ b, (queryGateway env cid existing st).res =
        some { statusCode := 200, body := .status b }) ∧
      ∃ extra, (queryGateway env cid existing st).calls = st.calls ++ extra := by
  unfold queryGateway
  cases htok : env.token with
  | missingCredentials =>
    exact ⟨⟨_, send_res_of_none _ _ hres⟩, ⟨[], by simp [send_calls]⟩⟩
  | failed =>
    exact ⟨⟨_, send_res_of_none _ _ hres⟩, ⟨[.tokenRequest], by simp [send_calls, call_calls]⟩⟩
  | ok =>
    by_cases hgc : env.gatewayConfigured = true
    · simp only [hgc, Bool.not_true, Bool.false_eq_true, if_false]
      cases hgw : env.gateway with
      | throws =>
        exact ⟨⟨_, send_res_of_none _ _ hres⟩,
          ⟨[.tokenRequest, .gatewayQuery cid], by simp [send_calls, call_calls]⟩⟩
      | httpError =>
        exact ⟨⟨_, send_res_of_none _ _ hres⟩,
          ⟨[.tokenRequest, .gatewayQuery cid], by simp [send_calls, call_calls]⟩⟩
      | ok data =>
        obtain ⟨st', hup, hres', extra, hcalls⟩ := update_calls env (.str cid)
          { result_code :=
              some (if data.ResultCode.isNullish then none else some data.ResultCode.toStr)
            result_desc := some (jsToColumn (data.ResultDesc.or .null))
            status := some (some (queryStatus data.ResultCode)) }
          ((st.call .tokenRequest).call (.gatewayQuery cid))
        simp only [hup]
        refine ⟨⟨_, send_res_of_none _ _ (hres'.trans hres)⟩,
          ⟨[.tokenRequest, .gatewayQuery cid] ++ extra, ?_⟩⟩
        rw [send_calls, hcalls]
        simp [call_calls]
    · have hgc' : env.gatewayConfigured = false := by simpa using hgc
      simp only [hgc', Bool.not_false, if_true]
      exact ⟨⟨_, send_res_of_none _ _ hres⟩,
        ⟨[.tokenRequest], by simp [send_calls, call_calls]⟩⟩

theorem supabaseGet_state (env : Env) (cid : String) (st : HState) (hid : cid ≠ "") :
    ∃ x st1, supabaseGetMpesaTransactionByCheckoutRequestId env cid st = (x, st1) ∧
      st1.res = st.res ∧ (env.storeConfigured = true → st1.calls = st.calls ++ [.txGet cid]) := by
  unfold supabaseGetMpesaTransactionByCheckoutRequestId
  by_cases hc : env.storeConfigured = true
  · cases hg : env.txGet <;> simp only [hc, hid, Bool.not_true, Bool.false_eq_true, if_false,
      beq_iff_eq] <;> exact ⟨_, _, rfl, rfl, fun _ => rfl⟩
  · refine ⟨none, st, by simp [hc], rfl, fun h => absurd h hc⟩

/-- A poll of the resolver with a non-empty checkout id is answered `200` with
a status body, and when the store is configured its first outbound call is the
lookup of that id. -/
theorem resolveStatus_accepts (env : Env) (cid : String) (w : Store) (hid : cid ≠ "") :
    (∃ b, (resolveStatus env cid { store := w, res := none, calls := [] }).res =
        some { statusCode := 200, body := .status b }) ∧
      (env.storeConfigured = true →
        (resolveStatus env cid { store := w, res := none, calls := [] }).calls.head? =
          some (.txGet cid)) := by
  have hne : (cid == "") = false := by simpa using hid
  obtain ⟨x, st1, hx, hres1, hcalls1⟩ :=
    supabaseGet_state env cid { store := w, res := none, calls := [] } hid
  have hres1' : st1.res = none := hres1
  have hcalls1' : env.storeConfigured = true → st1.calls = [.txGet cid] := hcalls1
  unfold resolveStatus
  simp only [hne, Bool.false_eq_true, if_false, hx]
  cases x with
  | none =>
    refine ⟨⟨_, send_res_of_none _ _ hres1'⟩, ?_⟩
    intro hc
    rw [send_calls, hcalls1' hc]
    rfl
  | some existing =>
    simp only
    by_cases ht : isTerminalStatus existing.status = true
    · rw [if_pos ht]
      refine ⟨⟨_, send_res_of_none _ _ hres1'⟩, ?_⟩
      intro hc
      rw [send_calls, hcalls1' hc]
      rfl
    · rw [if_neg ht]
      obtain ⟨hb, extra, hcalls⟩ := queryGateway_answers env cid existing st1 hres1'
      refine ⟨hb, ?_⟩
      intro hc
      rw [hcalls, hcalls1' hc]
      rfl

/-- C20 (Status Reader): a poll that carries the checkout id only as a query
parameter is rejected by the reader with `400`, while the resolver accepts
it. -/
theorem reader_rejects_query_parameter_only :
    (statusHandler (sampleEnv ⟨.undefined, .undefined⟩) sampleQueryOnlyPoll
        (sampleStore "pending")).res =
        some { statusCode := 400, body := .failure "checkoutRequestId is required" none } ∧
      resolverCheckoutId sampleQueryOnlyPoll = "ws_CO_1" ∧
      ((queryHandler (sampleEnv ⟨.undefined, .undefined⟩) sampleQueryOnlyPoll
        (sampleStore "success")).res.map fun r => r.statusCode) = some 200 := by
  decide

/-- C20 as amended: the resolver takes the checkout id from the request body
when it is truthy there and otherwise from the query parameter; the reader
takes it from the request body only.  In both, the value is trimmed, an id
that is empty after trimming is rejected with `400` before any outbound call,
and a non-empty id is answered `200` and is the id looked up in the store. -/
theorem checkout_id_extraction (env : Env) (req : QueryRequest) (w : Store) (v : JsVal)
    (hm : req.method = "POST") (hb : req.body = .object v) :
    (v.truthy = true → resolverCheckoutId req = String.mk (jsTrim v.toStr.data) ∧
        readerCheckoutId v = String.mk (jsTrim v.toStr.data)) ∧
      (v.truthy = false → req.queryParam.truthy = true →
        resolverCheckoutId req = String.mk (jsTrim req.queryParam.toStr.data)) ∧
      (v.truthy = false → readerCheckoutId v = "") ∧
      (resolverCheckoutId req = "" →
        (queryHandler env req w).res =
            some { statusCode := 400, body := .failure "checkoutRequestId is required" none } ∧
          (queryHandler env req w).calls = []) ∧
      (readerCheckoutId v = "" →
        (statusHandler env req w).res =
            some { statusCode := 400, body := .failure "checkoutRequestId is required" none } ∧
          (statusHandler env req w).calls = []) ∧
      (resolverCheckoutId req ≠ "" →
        (∃ b, (queryHandler env req w).res = some { statusCode := 200, body := .status b }) ∧
          (env.storeConfigured = true →
            (queryHandler env req w).calls.head? = some (.txGet (resolverCheckoutId req)))) ∧
      (readerCheckoutId v ≠ "" →
        (∃ b, (statusHandler env req w).res = some { statusCode := 200, body := .status b }) ∧
          (env.storeConfigured = true →
            (statusHandler env req w).calls = [.txGet (readerCheckoutId v)])) := by
  have hq : queryHandler env req w =
      resolveStatus env (resolverCheckoutId req) { store := w, res := none, calls := [] } :=
    queryHandler_of_post env req w hm (by intro m t h; rw [hb] at h; cases h)
  refine ⟨?_, ?_, ?_, ?_, ?_, ?_, ?_⟩
  · intro hv
    have hn : v.isNullish = false := by cases v <;> simp_all [JsVal.truthy, JsVal.isNullish]
    constructor
    · simp [resolverCheckoutId, hb, hn, JsVal.or, hv]
    · simp [readerCheckoutId, JsVal.or, hv]
  · intro hv hqp
    have hn : req.queryParam.isNullish = false := by
      cases hqv : req.queryParam <;> simp_all [JsVal.truthy, JsVal.isNullish]
    have hfb : (if v.isNullish then JsVal.null else v).truthy = false := by
      split
      · rfl
      · exact hv
    simp [resolverCheckoutId, hb, hn, JsVal.or, hfb, hqp]
  · intro hv
    simp [readerCheckoutId, JsVal.or, hv, JsVal.toStr, jsTrim]
  · intro hid
    rw [hq]
    unfold resolveStatus
    simp [hid, HState.send]
  · intro hid
    unfold statusHandler
    simp [hm, hb, hid, HState.send]
  · intro hid
    rw [hq]
    exact resolveStatus_accepts env _ w hid
  · intro hid
    have hne : (readerCheckoutId v == "") = false := by simpa using hid
    obtain ⟨x, st1, hx, hres1, hcalls1⟩ := supabaseGet_state env (readerCheckoutId v)
      { store := w, res := none, calls := [] } hid
    have hres1' : st1.res = none := hres1
    have hcalls1' : env.storeConfigured = true → st1.calls = [.txGet (readerCheckoutId v)] :=
      hcalls1
    unfold statusHandler
    simp only [hm, hb, hne, hx]
    cases x with
    | none =>
      refine ⟨⟨_, by simpa using send_res_of_none _ _ hres1'⟩, ?_⟩
      intro hc
      simp [send_calls, hcalls1' hc]
    | some tx =>
      refine ⟨⟨_, by simpa using send_res_of_none _ _ hres1'⟩, ?_⟩
      intro hc
      simp [send_calls, hcalls1' hc]

theorem checkout_id_extraction_witness :
    resolverCheckoutId sampleQueryOnlyPoll = "ws_CO_1" ∧ readerCheckoutId .undefined = "" :=
  ⟨((checkout_id_extraction (sampleEnv ⟨.undefined, .undefined⟩) sampleQueryOnlyPoll
      (sampleStore "pending") .undefined rfl rfl).2.1 rfl rfl).trans (by decide),
    (checkout_id_extraction (sampleEnv ⟨.undefined, .undefined⟩) sampleQueryOnlyPoll
      (sampleStore "pending") .undefined rfl rfl).2.2.1 rfl⟩

/-! ### Push Initiator -/

theorem pushHandler_of_error (env : Env) (req : PushRequest) (w : Store) (e : JsError)
    (hm : req.method = "POST")
    (h : pushAttempt env req { store := w, res := none, calls := [] } =
      .error (e, { store := w, res := none, calls := [] })) :
    pushHandler env req w =
      { store := w, res := some (pushErrorResponse e), calls := [] } := by
  unfold pushHandler
  simp [hm, h, HState.send]

theorem amount_invalid_iff (a : JsNum) :
    (!a.isFinite || a.leZero) = true ↔ ¬∃ m k, a = .fin m k ∧ 0 < m := by
  cases a with
  | nan => simp [JsNum.isFinite]
  | posInf => simp [JsNum.isFinite]
  | negInf => simp [JsNum.isFinite]
  | fin m k => simp [JsNum.isFinite, JsNum.leZero]

/-- C17: a push whose phone fails normalisation, or whose amount is not a
finite number greater than 0, or whose reference is empty after trimming, is
answered `400` with `success:false`; the handler makes no outbound call (no
token request, no gateway push, no store write) and leaves the store
unchanged. -/
theorem push_validation_failure (env : Env) (req : PushRequest) (w : Store)
    (body : PushFields) (hm : req.method = "POST") (hb : req.body = .object body)
    (hinvalid : normalizeMsisdn body.phone = none ∨
      (¬∃ m k, body.amount = .fin m k ∧ 0 < m) ∨
      String.mk (jsTrim (body.reference.or (.str "")).toStr.data) = "") :
    (∃ message, (pushHandler env req w).res =
        some { statusCode := 400, body := .failure message none }) ∧
      (pushHandler env req w).calls = [] ∧ (pushHandler env req w).store = w := by
  have key : ∃ message, message ≠ "" ∧
      pushAttempt env req { store := w, res := none, calls := [] } =
        .error (plainError message, { store := w, res := none, calls := [] }) := by
    unfold pushAttempt
    simp only [hb]
    cases hp : normalizeMsisdn body.phone with
    | none => exact ⟨_, by decide, rfl⟩
    | some phone =>
      simp only
      by_cases ha : (!body.amount.isFinite || body.amount.leZero) = true
      · rw [if_pos ha]
        exact ⟨_, by decide, rfl⟩
      · rw [if_neg ha]
        rcases hinvalid with h | h | h
        · rw [hp] at h
          cases h
        · exact absurd ((amount_invalid_iff body.amount).mpr h) ha
        · simp only [h]
          exact ⟨_, by decide, rfl⟩
  obtain ⟨message, hne, hrun⟩ := key
  rw [pushHandler_of_error env req w _ hm hrun]
  refine ⟨⟨message, ?_⟩, rfl, rfl⟩
  simp [pushErrorResponse, plainError, hne]

theorem push_validation_failure_witness :
    (pushHandler (sampleEnv ⟨.undefined, .undefined⟩) (samplePush (.str "12345") (.fin 50 0))
      (sampleStore "pending")).calls = [] :=
  (push_validation_failure (sampleEnv ⟨.undefined, .undefined⟩)
    (samplePush (.str "12345") (.fin 50 0)) (sampleStore "pending") _ rfl rfl
    (Or.inl (by decide))).2.1

/-- The rounded amount is positive exactly when the amount is at least one
half. -/
theorem mathRound_pos_iff (m : Int) (k : Nat) : 0 < mathRound m k ↔ (2 : Int) ^ k ≤ 2 * m := by
  have hpos : (0 : Int) < 2 ^ (k + 1) := by positivity
  unfold mathRound
  rw [Int.fdiv_eq_ediv _ (le_of_lt hpos)]
  have h1 : (0 : Int) < (2 * m + 2 ^ k) / 2 ^ (k + 1) ↔ (1 : Int) ≤ (2 * m + 2 ^ k) / 2 ^ (k + 1) :=
    Iff.rfl
  rw [h1, Int.le_ediv_iff_mul_le hpos, pow_succ]
  constructor <;> intro h <;> linarith

/-- C18: a push of amount 0.25 (for phone `0712345678`, reference `ORD1`)
passes validation, and the amount written to the two transaction records and
sent to the gateway is `Math.round(0.25)`, which is 0. -/
theorem push_rounds_small_amount_to_zero :
    (JsNum.fin 1 2).isFinite = true ∧ (JsNum.fin 1 2).leZero = false ∧
      (pushHandler (sampleEnv ⟨.undefined, .undefined⟩)
        (samplePush (.str "0712345678") (.fin 1 2))
        { transactions := [], products := [] }).store.transactions.map (fun r => r.amount) =
          [some 0, some 0] ∧
      (pushHandler (sampleEnv ⟨.undefined, .undefined⟩)
        (samplePush (.str "0712345678") (.fin 1 2))
        { transactions := [], products := [] }).calls =
          [.tokenRequest, .txUpsert, .gatewayPush (some 0) "254712345678" "ORD1", .txUpsert] ∧
      ((pushHandler (sampleEnv ⟨.undefined, .undefined⟩)
        (samplePush (.str "0712345678") (.fin 1 2))
        { transactions := [], products := [] }).res.map fun r => r.statusCode) = some 200 := by
  decide

/-- C14: order `O1` is created (stock of `p1` goes from 5 to 3); the request
is sent again while the lookup of existing orders answers with a non-success
status.  The handler deducts the cart again (stock 1), the insertion meets the
key of the existing row, and the answer is `Order already exists`.  Likewise,
when the lookup finds nothing and the insertion is refused for a duplicate key
(the order was inserted in between), the answer is `Order already exists`
after the stock has gone from 5 to 3. -/
theorem replay_by_duplicate_key_deducts_stock :
    (createHandler (sampleEnv ⟨.undefined, .undefined⟩) sampleOrder (sampleShop 5)).store.products =
        [{ id := "p1", stock := some 3 }] ∧
      (createHandler { sampleEnv ⟨.undefined, .undefined⟩ with saleGet := .httpError } sampleOrder
        (createHandler (sampleEnv ⟨.undefined, .undefined⟩) sampleOrder (sampleShop 5)).store).res =
        some { statusCode := 200, body := .order "O1" "Order already exists" none } ∧
      (createHandler { sampleEnv ⟨.undefined, .undefined⟩ with saleGet := .httpError } sampleOrder
        (createHandler (sampleEnv ⟨.undefined, .undefined⟩) sampleOrder
          (sampleShop 5)).store).store.products = [{ id := "p1", stock := some 1 }] ∧
      (createHandler { sampleEnv ⟨.undefined, .undefined⟩ with saleGet := .httpError } sampleOrder
        (createHandler (sampleEnv ⟨.undefined, .undefined⟩) sampleOrder
          (sampleShop 5)).store).calls =
        [.saleGet "O1", .stockGet "p1", .stockPatch "p1", .saleInsert "O1"] ∧
      (createHandler
        { sampleEnv ⟨.undefined, .undefined⟩ with
          saleInsert := .rejected 409 "duplicate key value violates unique constraint" }
        sampleOrder (sampleShop 5)).res =
        some { statusCode := 200, body := .order "O1" "Order already exists" none } ∧
      (createHandler
        { sampleEnv ⟨.undefined, .undefined⟩ with
          saleInsert := .rejected 409 "duplicate key value violates unique constraint" }
        sampleOrder (sampleShop 5)).store.products = [{ id := "p1", stock := some 3 }] := by
  decide

/-! ### Inventory deduction -/

theorem setStock_stocksNonneg (w : Store) (pid : String) (n : Int) (hw : w.stocksNonneg)
    (hn : 0 ≤ n) : (w.setStock pid (some n)).stocksNonneg := by
  intro p hp
  simp only [Store.setStock, List.mem_map] at hp
  obtain ⟨a, ha, rfl⟩ := hp
  split
  · exact ⟨n, rfl, hn⟩
  · exact hw a ha

theorem jsToNumber_num (env : Env) (q : Int) : jsToNumber env (.num q) = some q := rfl

theorem deductLoop_stocksNonneg (env : Env) (items : List LineItem) :
    ∀ (i : Nat) (st : HState), st.store.stocksNonneg → integerQuantities items →
      (deductLoop env i items st).1.store.stocksNonneg := by
  induction items with
  | nil => intro i st hs _; exact hs
  | cons item rest ih =>
    intro i st hs hq
    have hrest : integerQuantities rest := fun it hit => hq it (List.mem_cons_of_mem _ hit)
    obtain ⟨q, hitem⟩ := hq item (List.mem_cons_self _ _)
    simp only [deductLoop, hitem, jsToNumber_num]
    split
    · exact hs
    · exact ih _ _ hs hrest
    · split
      · exact ih _ _ hs hrest
      · split
        · rename_i hge
          split
          · exact hs
          · exact ih _ _ hs hrest
          · exact ih _ _ (setStock_stocksNonneg _ _ _ hs hge) hrest
        · exact ih _ _ hs hrest

theorem createDeductLoop_stocksNonneg (env : Env) (items : List LineItem) :
    ∀ (i : Nat) (st : HState) (flag : Bool), st.store.stocksNonneg → integerQuantities items →
      (createDeductLoop env i items (st, flag)).1.store.stocksNonneg := by
  induction items with
  | nil => intro i st flag hs _; exact hs
  | cons item rest ih =>
    intro i st flag hs hq
    have hrest : integerQuantities rest := fun it hit => hq it (List.mem_cons_of_mem _ hit)
    obtain ⟨q, hitem⟩ := hq item (List.mem_cons_self _ _)
    simp only [createDeductLoop, hitem, jsToNumber_num]
    split
    · exact ih _ _ _ hs hrest
    · exact ih _ _ _ hs hrest
    · split
      · exact ih _ _ _ hs hrest
      · split
        · exact ih _ _ _ hs hrest
        · rename_i hge
          split
          · exact ih _ _ _ (setStock_stocksNonneg _ _ _ hs (not_lt.mp hge)) hrest
          · exact ih _ _ _ hs hrest
          · exact ih _ _ _ hs hrest

theorem find_setStock (w : Store) (pid key : String) (n : Option Int) :
    (w.setStock key n).products.find? (fun p => p.id == pid) =
      (w.products.find? (fun p => p.id == pid)).map
        (fun p => if p.id == key then { p with stock := n } else p) := by
  have hkeep : ((fun p : Product => p.id == pid) ∘
      fun p => if p.id == key then { p with stock := n } else p) =
      fun p : Product => p.id == pid := by
    funext p
    simp only [Function.comp]
    split <;> rfl
  simp only [Store.setStock, List.find?_map, hkeep]

theorem stockOf_setStock (w : Store) (pid : String) (n : Option Int) (x : Option Int)
    (h : w.stockOf pid = some x) : (w.setStock pid n).stockOf pid = some n := by
  unfold Store.stockOf at h ⊢
  rw [find_setStock]
  cases hf : w.products.find? (fun p => p.id == pid) with
  | none => rw [hf] at h; cases h
  | some p =>
    have hid : (p.id == pid) = true := by
      have hfound := List.find?_some hf
      exact hfound
    have hid' : p.id = pid := by simpa using hid
    simp [hid']

theorem stockOf_some (w : Store) (pid : String) (s : Int) (h : w.stockOf pid = some (some s)) :
    ∃ p, w.products.find? (fun p => p.id == pid) = some p ∧ p.stock = some s := by
  unfold Store.stockOf at h
  cases hf : w.products.find? (fun p => p.id == pid) with
  | none => rw [hf] at h; cases h
  | some p =>
    rw [hf] at h
    simp only [Option.map_some', Option.some.injEq] at h
    exact ⟨p, rfl, h⟩

/-- A line whose quantity the stock covers: both loops write the stock less
the quantity and go on with the remaining lines. -/
theorem deduct_step_enough (env : Env) (i : Nat) (item : LineItem) (rest : List LineItem)
    (st : HState) (q s : Int) (flag : Bool) (hitem : item.quantity = .num q)
    (hstock : st.store.stockOf item.id.toStr = some (some s))
    (hget : env.stockGet i = .ok) (hpatch : env.stockPatch i = .ok) (hle : q ≤ s) :
    deductLoop env i (item :: rest) st =
        deductLoop env (i + 1) rest
          { (st.call (.stockGet item.id.toStr)).call (.stockPatch item.id.toStr) with
            store := st.store.setStock item.id.toStr (some (s - q)) } ∧
      createDeductLoop env i (item :: rest) (st, flag) =
        createDeductLoop env (i + 1) rest
          ({ (st.call (.stockGet item.id.toStr)).call (.stockPatch item.id.toStr) with
            store := st.store.setStock item.id.toStr (some (s - q)) }, flag) := by
  obtain ⟨p, hfind, hp⟩ := stockOf_some _ _ _ hstock
  have hge : s - q ≥ 0 := by omega
  have hnlt : ¬ s - q < 0 := by omega
  constructor
  · simp only [deductLoop, hget, hpatch, hitem, jsToNumber_num, call_store, hfind, hp,
      Option.getD_some, if_pos hge]
  · simp only [createDeductLoop, hget, hpatch, hitem, jsToNumber_num, call_store, hfind, hp,
      Option.getD_some, if_neg hnlt]

/-- A line whose quantity exceeds the stock: both loops write nothing for it
and go on with the remaining lines. -/
theorem deduct_step_short (env : Env) (i : Nat) (item : LineItem) (rest : List LineItem)
    (st : HState) (q s : Int) (flag : Bool) (hitem : item.quantity = .num q)
    (hstock : st.store.stockOf item.id.toStr = some (some s))
    (hget : env.stockGet i = .ok) (hlt : s < q) :
    deductLoop env i (item :: rest) st =
        deductLoop env (i + 1) rest (st.call (.stockGet item.id.toStr)) ∧
      createDeductLoop env i (item :: rest) (st, flag) =
        createDeductLoop env (i + 1) rest (st.call (.stockGet item.id.toStr), false) := by
  obtain ⟨p, hfind, hp⟩ := stockOf_some _ _ _ hstock
  have hge : ¬ s - q ≥ 0 := by omega
  have hnlt : s - q < 0 := by omega
  constructor
  · simp only [deductLoop, hget, hitem, jsToNumber_num, call_store, hfind, hp,
      Option.getD_some, if_neg hge]
  · simp only [createDeductLoop, hget, hitem, jsToNumber_num, call_store, hfind, hp,
      Option.getD_some, if_pos hnlt]

theorem stockOf_of_find_none (w : Store) (pid : String)
    (h : w.products.find? (fun p => p.id == pid) = none) : w.stockOf pid = none := by
  simp [Store.stockOf, h]

theorem stockOf_of_stocksNonneg (w : Store) (pid : String) (p : Product) (hw : w.stocksNonneg)
    (h : w.products.find? (fun p => p.id == pid) = some p) :
    ∃ s : Int, w.stockOf pid = some (some s) ∧ 0 ≤ s := by
  obtain ⟨s, hps, hs0⟩ := hw p (List.mem_of_find?_eq_some h)
  exact ⟨s, by simp [Store.stockOf, h, hps], hs0⟩

theorem stockOf_setStock_of_ne (w : Store) (pid other : String) (n : Option Int)
    (hne : other ≠ pid) : (w.setStock pid n).stockOf other = w.stockOf other := by
  unfold Store.stockOf
  rw [find_setStock]
  cases hf : w.products.find? (fun p => p.id == other) with
  | none => rfl
  | some p =>
    have hid : (p.id == other) = true := by
      have hfound := List.find?_some hf
      exact hfound
    have hid' : p.id = other := by simpa using hid
    have hnot : ¬ p.id = pid := by
      rw [hid']
      exact hne
    simp [hnot]

/-- With the stock calls succeeding, the loop of `callback.js` leaves the
store that the deduction of section 4.5 leaves. -/
theorem deductLoop_as_specified (env : Env) (hget : ∀ i, env.stockGet i = .ok)
    (hpatch : ∀ i, env.stockPatch i = .ok) (items : List LineItem) :
    ∀ (i : Nat) (st : HState), st.store.stocksNonneg → integerQuantities items →
      (deductLoop env i items st).1.store = deductAsSpecified st.store items := by
  induction items with
  | nil => intro i st _ _; rfl
  | cons item rest ih =>
    intro i st hs hq
    have hrest : integerQuantities rest := fun it hit => hq it (List.mem_cons_of_mem _ hit)
    obtain ⟨q, hitem⟩ := hq item (List.mem_cons_self _ _)
    cases hf : st.store.products.find? (fun p => p.id == item.id.toStr) with
    | none =>
      have hstock := stockOf_of_find_none _ _ hf
      rw [deductAsSpecified]
      simp only [hitem, hstock]
      simp only [deductLoop, hget, call_store, hf]
      exact ih _ _ hs hrest
    | some p =>
      obtain ⟨s, hstock, hs0⟩ := stockOf_of_stocksNonneg _ _ p hs hf
      rw [deductAsSpecified]
      simp only [hitem, hstock]
      by_cases hle : q ≤ s
      · rw [(deduct_step_enough env i item rest st q s true hitem hstock (hget i) (hpatch i)
          hle).1, if_pos hle]
        exact ih _ _ (setStock_stocksNonneg _ _ _ hs (by omega)) hrest
      · rw [(deduct_step_short env i item rest st q s true hitem hstock (hget i)
          (not_le.mp hle)).1, if_neg hle]
        exact ih _ _ hs hrest

/-- With the stock calls succeeding, the loop of `create.js` leaves the store
that the deduction of section 4.5 leaves. -/
theorem createDeductLoop_as_specified (env : Env) (hget : ∀ i, env.stockGet i = .ok)
    (hpatch : ∀ i, env.stockPatch i = .ok) (items : List LineItem) :
    ∀ (i : Nat) (st : HState) (flag : Bool), st.store.stocksNonneg → integerQuantities items →
      (createDeductLoop env i items (st, flag)).1.store = deductAsSpecified st.store items := by
  induction items with
  | nil => intro i st flag _ _; rfl
  | cons item rest ih =>
    intro i st flag hs hq
    have hrest : integerQuantities rest := fun it hit => hq it (List.mem_cons_of_mem _ hit)
    obtain ⟨q, hitem⟩ := hq item (List.mem_cons_self _ _)
    cases hf : st.store.products.find? (fun p => p.id == item.id.toStr) with
    | none =>
      have hstock := stockOf_of_find_none _ _ hf
      rw [deductAsSpecified]
      simp only [hitem, hstock]
      simp only [createDeductLoop, hget, call_store, hf]
      exact ih _ _ _ hs hrest
    | some p =>
      obtain ⟨s, hstock, hs0⟩ := stockOf_of_stocksNonneg _ _ p hs hf
      rw [deductAsSpecified]
      simp only [hitem, hstock]
      by_cases hle : q ≤ s
      · rw [(deduct_step_enough env i item rest st q s flag hitem hstock (hget i) (hpatch i)
          hle).2, if_pos hle]
        exact ih _ _ _ (setStock_stocksNonneg _ _ _ hs (by omega)) hrest
      · rw [(deduct_step_short env i item rest st q s flag hitem hstock (hget i)
          (not_le.mp hle)).2, if_neg hle]
        exact ih _ _ _ hs hrest

/-- C15: on a product table whose stocks are non-negative integers, with lines
of integer quantities, the deduction at either call site leaves every stock
non-negative, whatever the store calls do.  When the store calls succeed, the
store it leaves is the one that the deduction of section 4.5 leaves
(`deductAsSpecified`): no line is dropped and none is applied twice.  In that
deduction a line whose quantity does not exceed the current stock of its
product sets that stock to the stock less the quantity and leaves every other
product's stock alone, a line whose quantity exceeds it changes nothing, and
in both cases the remaining lines are processed; an empty cart changes
nothing. -/
theorem deduction_keeps_stock_nonnegative (env : Env) (items : List LineItem) (st : HState)
    (hs : st.store.stocksNonneg) (hq : integerQuantities items) :
    (deductInventory env items st).1.store.stocksNonneg ∧
      (∀ i flag, (createDeductLoop env i items (st, flag)).1.store.stocksNonneg) ∧
      (env.storeConfigured = true → (∀ i, env.stockGet i = .ok) →
        (∀ i, env.stockPatch i = .ok) →
        (deductInventory env items st).1.store = deductAsSpecified st.store items ∧
          ∀ i flag, (createDeductLoop env i items (st, flag)).1.store =
            deductAsSpecified st.store items) ∧
      (∀ w : Store, deductAsSpecified w [] = w) ∧
      (∀ (w : Store) (item : LineItem) (rest : List LineItem) (q s : Int),
        item.quantity = .num q → w.stockOf item.id.toStr = some (some s) →
        (q ≤ s →
          deductAsSpecified w (item :: rest) =
              deductAsSpecified (w.setStock item.id.toStr (some (s - q))) rest ∧
            (w.setStock item.id.toStr (some (s - q))).stockOf item.id.toStr =
              some (some (s - q)) ∧
            ∀ other, other ≠ item.id.toStr →
              (w.setStock item.id.toStr (some (s - q))).stockOf other = w.stockOf other) ∧
        (s < q → deductAsSpecified w (item :: rest) = deductAsSpecified w rest)) := by
  refine ⟨?_, ?_, ?_, fun _ => rfl, ?_⟩
  · unfold deductInventory
    split
    · exact hs
    · split
      · exact deductLoop_stocksNonneg env items 0 st hs hq
      · exact hs
  · intro i flag
    exact createDeductLoop_stocksNonneg env items i st flag hs hq
  · intro hcfg hget hpatch
    refine ⟨?_, fun i flag => createDeductLoop_as_specified env hget hpatch items i st flag hs hq⟩
    cases items with
    | nil => simp [deductInventory, hcfg, deductAsSpecified]
    | cons item rest =>
      have hloop : deductInventory env (item :: rest) st = deductLoop env 0 (item :: rest) st := by
        simp [deductInventory, hcfg]
      rw [hloop]
      exact deductLoop_as_specified env hget hpatch (item :: rest) 0 st hs hq
  · intro w item rest q s hitem hstock
    constructor
    · intro hle
      refine ⟨?_, stockOf_setStock _ _ _ _ hstock, fun other hne =>
        stockOf_setStock_of_ne _ _ _ _ hne⟩
      rw [deductAsSpecified]
      simp only [hitem, hstock, if_pos hle]
    · intro hlt
      rw [deductAsSpecified]
      simp only [hitem, hstock, if_neg (not_le.mpr hlt)]

theorem deduction_keeps_stock_nonnegative_witness :
    (deductInventory (sampleEnv ⟨.undefined, .undefined⟩) sampleCart
        { store := sampleShop 5, res := none, calls := [] }).1.store.stockOf "p1" =
        some (some 2) ∧
      (createDeductLoop (sampleEnv ⟨.undefined, .undefined⟩) 0 sampleCart
        ({ store := sampleShop 5, res := none, calls := [] }, true)).1.store.stockOf "p1" =
        some (some 2) ∧
      ((deductInventory (sampleEnv ⟨.undefined, .undefined⟩) sampleCart
        { store := sampleShop 5, res := none, calls := [] }).1.store).stocksNonneg := by
  have h := deduction_keeps_stock_nonnegative (sampleEnv ⟨.undefined, .undefined⟩) sampleCart
    { store := sampleShop 5, res := none, calls := [] }
    (by
      intro p hp
      have hp' : p = { id := "p1", stock := some 5 } := by simpa [sampleShop] using hp
      exact ⟨5, by rw [hp'], by decide⟩)
    (by
      intro item hitem
      simp only [sampleCart, List.mem_cons, List.mem_singleton, List.mem_nil_iff,
        or_false] at hitem
      rcases hitem with rfl | rfl | rfl
      · exact ⟨2, rfl⟩
      · exact ⟨9, rfl⟩
      · exact ⟨1, rfl⟩)
  have hspec := h.2.2.1 rfl (fun _ => rfl) (fun _ => rfl)
  refine ⟨?_, ?_, h.1⟩
  · rw [hspec.1]
    decide
  · rw [hspec.2 0 true]
    decide

theorem deductInventory_single (env : Env) (item : LineItem) (st : HState)
    (hcfg : env.storeConfigured = true) :
    deductInventory env [item] st = deductLoop env 0 [item] st := by
  unfold deductInventory
  simp [hcfg]

/-- C16 (both pairs of call sites): a success callback for `ws_CO_1`, whose
cart holds two units of `p1`, takes the stock of `p1` from 5 to 3; a second
success callback for the same checkout id takes it to 1, and so does the
creation of the order paid by that transaction. -/
theorem second_deduction_decrements_again :
    (callbackHandler (sampleEnv ⟨.undefined, .undefined⟩) (.envelope (sampleCallback (.num 0)))
        (sampleShop 5)).store.stockOf "p1" = some (some 3) ∧
      (callbackHandler (sampleEnv ⟨.undefined, .undefined⟩)
        (.envelope (sampleCallback (.num 0)))
        (callbackHandler (sampleEnv ⟨.undefined, .undefined⟩)
          (.envelope (sampleCallback (.num 0))) (sampleShop 5)).store).store.stockOf "p1" =
        some (some 1) ∧
      (createHandler (sampleEnv ⟨.undefined, .undefined⟩) sampleOrder
        (callbackHandler (sampleEnv ⟨.undefined, .undefined⟩)
          (.envelope (sampleCallback (.num 0))) (sampleShop 5)).store).store.stockOf "p1" =
        some (some 1) := by
  decide

/-- C16 as amended: inventory deduction keeps no record of the transaction it
ran for, so a second application deducts again from the stock the first one
left.  For a line of quantity `q` on a product of stock `s ≥ q`, with the store
calls succeeding, one application of the callback path's deduction leaves
`s - q`; a second one, and likewise the deduction loop of order creation run
after it, leaves `s - 2q` when `q ≤ s - q` and `s - q` otherwise. -/
theorem deduction_applies_again (env : Env) (item : LineItem) (st : HState) (q s : Int)
    (hcfg : env.storeConfigured = true) (hget : env.stockGet 0 = .ok)
    (hpatch : env.stockPatch 0 = .ok) (hitem : item.quantity = .num q)
    (hstock : st.store.stockOf item.id.toStr = some (some s)) (hle : q ≤ s) :
    (deductInventory env [item] st).1.store.stockOf item.id.toStr = some (some (s - q)) ∧
      (deductInventory env [item] (deductInventory env [item] st).1).1.store.stockOf
          item.id.toStr = some (some (if q ≤ s - q then s - 2 * q else s - q)) ∧
      (createDeductLoop env 0 [item] ((deductInventory env [item] st).1, true)).1.store.stockOf
          item.id.toStr = some (some (if q ≤ s - q then s - 2 * q else s - q)) := by
  have hfirst : deductInventory env [item] st =
      ({ (st.call (.stockGet item.id.toStr)).call (.stockPatch item.id.toStr) with
          store := st.store.setStock item.id.toStr (some (s - q)) }, true) := by
    rw [deductInventory_single env item st hcfg,
      (deduct_step_enough env 0 item [] st q s true hitem hstock hget hpatch hle).1]
    rfl
  have hstock1 : (st.store.setStock item.id.toStr (some (s - q))).stockOf item.id.toStr =
      some (some (s - q)) := stockOf_setStock _ _ _ _ hstock
  rw [hfirst]
  refine ⟨hstock1, ?_, ?_⟩
  · rw [deductInventory_single env item _ hcfg]
    by_cases h2 : q ≤ s - q
    · rw [(deduct_step_enough env 0 item [] _ q (s - q) true hitem hstock1 hget hpatch h2).1,
        if_pos h2]
      have := stockOf_setStock (st.store.setStock item.id.toStr (some (s - q))) item.id.toStr
        (some (s - q - q)) _ hstock1
      have he : s - 2 * q = s - q - q := by ring
      rw [he]
      exact this
    · rw [(deduct_step_short env 0 item [] _ q (s - q) true hitem hstock1 hget
        (not_le.mp h2)).1, if_neg h2]
      exact hstock1
  · by_cases h2 : q ≤ s - q
    · rw [(deduct_step_enough env 0 item [] _ q (s - q) true hitem hstock1 hget hpatch h2).2,
        if_pos h2]
      have := stockOf_setStock (st.store.setStock item.id.toStr (some (s - q))) item.id.toStr
        (some (s - q - q)) _ hstock1
      have he : s - 2 * q = s - q - q := by ring
      rw [he]
      exact this
    · rw [(deduct_step_short env 0 item [] _ q (s - q) true hitem hstock1 hget
        (not_le.mp h2)).2, if_neg h2]
      exact hstock1

theorem deduction_applies_again_witness :
    (deductInventory (sampleEnv ⟨.undefined, .undefined⟩) [sampleItem]
      (deductInventory (sampleEnv ⟨.undefined, .undefined⟩) [sampleItem]
        { store := sampleShop 5, res := none, calls := [] }).1).1.store.stockOf "p1" =
      some (some 1) :=
  (deduction_applies_again (sampleEnv ⟨.undefined, .undefined⟩) sampleItem
    { store := sampleShop 5, res := none, calls := [] } 2 5 rfl rfl rfl rfl (by decide)
    (by decide)).2.1.trans (by decide)

/-! ### Order creation -/

theorem setStock_sales (w : Store) (pid : String) (n : Option Int) :
    (w.setStock pid n).sales = w.sales := rfl

/-- The deduction loop of order creation keeps the response and the sale
rows. -/
theorem createDeductLoop_frame (env : Env) (items : List LineItem) :
    ∀ (i : Nat) (st : HState) (flag : Bool),
      (createDeductLoop env i items (st, flag)).1.res = st.res ∧
        (createDeductLoop env i items (st, flag)).1.store.sales = st.store.sales := by
  induction items with
  | nil => intro i st flag; exact ⟨rfl, rfl⟩
  | cons item rest ih =>
    intro i st flag
    simp only [createDeductLoop]
    split
    · exact ih _ _ _
    · exact ih _ _ _
    · split
      · exact ih _ _ _
      · split
        · split
          · exact ih _ _ _
          · exact ih _ _ _
          · exact ih _ _ _
        · split
          · exact ih _ _ _
          · split
            · exact ih _ _ _
            · exact ih _ _ _
            · exact ih _ _ _

/-- A request for an order the lookup finds is answered at once: the lookup is
the only call and the store is as it was. -/
theorem createOrder_replay (env : Env) (row : Sale) (cid : String) (items : List LineItem)
    (st : HState) (hget : env.saleGet = .ok) (hs : st.store.hasSale row.order_id = true) :
    createOrder env row cid items st =
      .ok ((st.call (.saleGet row.order_id)).send (orderExistsResponse row.order_id)) := by
  unfold createOrder
  simp [hget, hs, call_store]

theorem hasSale_congr (w1 w2 : Store) (orderId : String) (h : w1.sales = w2.sales) :
    w1.hasSale orderId = w2.hasSale orderId := by
  unfold Store.hasSale
  rw [h]

/-- With every store call succeeding, what follows the insertion of the sale
row answers `200` and changes neither the sale rows nor the products. -/
theorem createFinish_ok (env : Env) (orderId cid : String) (items : List LineItem)
    (flag : Bool) (st : HState) (hitems : env.saleItemsInsert = .ok) (hlink : env.txLink = .ok)
    (hres : st.res = none) :
    ∃ st', createFinish env orderId cid items flag st = .ok st' ∧
      st'.res = some
        { statusCode := 200, body := .order orderId "Order created successfully" (some flag) } ∧
      st'.store.sales = st.store.sales ∧ st'.store.products = st.store.products := by
  unfold createFinish
  simp only [hitems, hlink]
  by_cases hc : (cid != "") = true
  · simp only [hc, if_true]
    exact ⟨_, rfl, send_res_of_none _ _ hres, by rw [send_store]; rfl, by rw [send_store]; rfl⟩
  · simp only [hc, Bool.false_eq_true, if_false]
    exact ⟨_, rfl, send_res_of_none _ _ hres, by rw [send_store]; rfl, by rw [send_store]; rfl⟩

/-- With every store call succeeding, a request for an order that is not in
the store runs the deduction loop once, inserts the sale row and answers
`200`. -/
theorem createOrder_fresh (env : Env) (row : Sale) (cid : String) (items : List LineItem)
    (st : HState) (h : env.storeCallsSucceed) (hs : st.store.hasSale row.order_id = false)
    (hres : st.res = none) :
    ∃ st', createOrder env row cid items st = .ok st' ∧
      st'.res = some
        { statusCode := 200
          body := .order row.order_id "Order created successfully"
            (some (createDeductLoop env 0 items (st.call (.saleGet row.order_id), true)).2) } ∧
      st'.store.sales = st.store.sales ++ [row] ∧
      st'.store.products =
        (createDeductLoop env 0 items (st.call (.saleGet row.order_id), true)).1.store.products := by
  obtain ⟨_, hget, hins, hitems, hlink, _, _⟩ := h
  obtain ⟨hlres, hlsales⟩ :=
    createDeductLoop_frame env items 0 (st.call (.saleGet row.order_id)) true
  unfold createOrder
  simp only [hget, call_store, hs, Bool.and_false, Bool.false_eq_true, if_false, hins]
  rcases hloop : createDeductLoop env 0 items (st.call (.saleGet row.order_id), true) with
    ⟨st2, flag⟩
  rw [hloop] at hlres hlsales
  simp only at hlres hlsales ⊢
  have hs3 : st2.store.hasSale row.order_id = false := by
    rw [hasSale_congr st2.store st.store _ hlsales]
    exact hs
  simp only [hs3, Bool.false_eq_true, if_false]
  obtain ⟨st', hfin, hr, hsales, hprod⟩ := createFinish_ok env row.order_id cid items flag
    { st2.call (.saleInsert row.order_id) with
      store := { (st2.call (.saleInsert row.order_id)).store with
        sales := (st2.call (.saleInsert row.order_id)).store.sales ++ [row] } }
    hitems hlink (hlres.trans hres)
  refine ⟨st', hfin, hr, ?_, ?_⟩
  · rw [hsales]
    show st2.store.sales ++ [row] = st.store.sales ++ [row]
    rw [hlsales]
    rfl
  · rw [hprod]
    rfl

theorem createHandler_of_valid (env : Env) (req : CreateRequest) (w : Store)
    (body : CreateFields) (hm : req.method = "POST") (hb : req.body = .object body)
    (hv : createValidation env body = none) :
    createHandler env req w =
      match createOrder env (saleRowOf body) (trimmedString body.checkoutRequestId) body.items
          { store := w, res := none, calls := [] } with
      | .ok st => st
      | .error (message, text, st) =>
        st.send
          { statusCode := 400
            body := .failure (if message != "" then message else "Bad request") (some text) } := by
  unfold createHandler createAttempt
  simp [hm, hb, hv]

theorem createHandler_replay (env : Env) (req : CreateRequest) (w : Store)
    (body : CreateFields) (hm : req.method = "POST") (hb : req.body = .object body)
    (hv : createValidation env body = none) (hget : env.saleGet = .ok)
    (hs : w.hasSale (trimmedString body.orderId) = true) :
    createHandler env req w =
      { store := w
        res := some (orderExistsResponse (trimmedString body.orderId))
        calls := [.saleGet (trimmedString body.orderId)] } := by
  rw [createHandler_of_valid env req w body hm hb hv,
    createOrder_replay env (saleRowOf body) _ _ _ hget hs]
  rfl

theorem createValidation_congr (env1 env2 : Env) (body : CreateFields)
    (h : env1.storeConfigured = env2.storeConfigured) :
    createValidation env1 body = createValidation env2 body := by
  unfold createValidation
  rw [h]

theorem hasSale_append_self (sales : List Sale) (row : Sale) (w : Store)
    (h : w.sales = sales ++ [row]) : w.hasSale row.order_id = true := by
  unfold Store.hasSale
  rw [h]
  simp

theorem filter_of_not_hasSale (w : Store) (orderId : String) (h : w.hasSale orderId = false) :
    w.sales.filter (fun s => s.order_id == orderId) = [] := by
  unfold Store.hasSale at h
  rw [List.filter_eq_nil_iff]
  intro s hs hm
  have : w.sales.any (fun s => s.order_id == orderId) = true := List.any_eq_true.mpr ⟨s, hs, hm⟩
  rw [h] at this
  cases this

/-- C13: with every store call succeeding, a valid order request sent twice
is answered `200` with success both times; the second invocation answers
`Order already exists`, makes no store write and leaves the store as the first
one left it.  When the order was not in the store before, exactly one sale row
holds the order id afterwards, and the products are those the deduction loop
leaves after a single run. -/
theorem order_creation_idempotent_replay (env1 env2 : Env) (req : CreateRequest) (w : Store)
    (body : CreateFields) (hm : req.method = "POST") (hb : req.body = .object body)
    (hv : createValidation env1 body = none)
    (h1 : env1.storeCallsSucceed) (h2 : env2.storeCallsSucceed) :
    (∃ message flag, (createHandler env1 req w).res = some
        { statusCode := 200, body := .order (trimmedString body.orderId) message flag }) ∧
      (createHandler env2 req (createHandler env1 req w).store).res = some
        { statusCode := 200
          body := .order (trimmedString body.orderId) "Order already exists" none } ∧
      (createHandler env2 req (createHandler env1 req w).store).store =
        (createHandler env1 req w).store ∧
      (∀ c ∈ (createHandler env2 req (createHandler env1 req w).store).calls,
        c.isStoreWrite = false) ∧
      (w.hasSale (trimmedString body.orderId) = false →
        ((createHandler env2 req (createHandler env1 req w).store).store.sales.filter
          (fun s => s.order_id == trimmedString body.orderId)).length = 1 ∧
        (createHandler env1 req w).store.products =
          (createDeductLoop env1 0 body.items
            (({ store := w, res := none, calls := [] } : HState).call
              (.saleGet (trimmedString body.orderId)), true)).1.store.products) := by
  have hv2 : createValidation env2 body = none := by
    rw [← createValidation_congr env1 env2 body (h1.1.trans h2.1.symm)]
    exact hv
  have hwrite : ∀ c ∈ [Call.saleGet (trimmedString body.orderId)], c.isStoreWrite = false := by
    intro c hc
    have hc' : c = .saleGet (trimmedString body.orderId) := by simpa using hc
    subst hc'
    rfl
  by_cases hw : w.hasSale (trimmedString body.orderId) = true
  · have hfirst := createHandler_replay env1 req w body hm hb hv h1.2.1 hw
    have hsecond := createHandler_replay env2 req w body hm hb hv2 h2.2.1 hw
    rw [hfirst]
    simp only
    rw [hsecond]
    refine ⟨⟨_, _, rfl⟩, rfl, rfl, hwrite, ?_⟩
    intro hno
    rw [hw] at hno
    cases hno
  · have hw' : w.hasSale (trimmedString body.orderId) = false := by simpa using hw
    obtain ⟨st', hrun, hres, hsales, hprod⟩ := createOrder_fresh env1 (saleRowOf body)
      (trimmedString body.checkoutRequestId) body.items
      { store := w, res := none, calls := [] } h1 hw' rfl
    have hfirst : createHandler env1 req w = st' := by
      rw [createHandler_of_valid env1 req w body hm hb hv, hrun]
    have hhas : st'.store.hasSale (trimmedString body.orderId) = true :=
      hasSale_append_self w.sales (saleRowOf body) st'.store hsales
    have hsecond := createHandler_replay env2 req st'.store body hm hb hv2 h2.2.1 hhas
    rw [hfirst, hsecond]
    refine ⟨⟨_, _, hres⟩, rfl, rfl, hwrite, ?_⟩
    intro _
    refine ⟨?_, hprod⟩
    simp only
    rw [hsales, List.filter_append, filter_of_not_hasSale w _ hw']
    simp [saleRowOf]

theorem order_creation_idempotent_replay_witness :
    (createHandler (sampleEnv ⟨.undefined, .undefined⟩) sampleOrder
        (createHandler (sampleEnv ⟨.undefined, .undefined⟩) sampleOrder
          (sampleShop 5)).store).res =
        some { statusCode := 200, body := .order "O1" "Order already exists" none } ∧
      (createHandler (sampleEnv ⟨.undefined, .undefined⟩) sampleOrder
        (createHandler (sampleEnv ⟨.undefined, .undefined⟩) sampleOrder
          (sampleShop 5)).store).store.stockOf "p1" = some (some 3) :=
  ⟨(order_creation_idempotent_replay (sampleEnv ⟨.undefined, .undefined⟩)
      (sampleEnv ⟨.undefined, .undefined⟩) sampleOrder (sampleShop 5) _ rfl rfl (by decide)
      ⟨rfl, rfl, rfl, rfl, rfl, fun _ => rfl, fun _ => rfl⟩
      ⟨rfl, rfl, rfl, rfl, rfl, fun _ => rfl, fun _ => rfl⟩).2.1.trans (by decide),
    (congrArg (fun s : Store => s.stockOf "p1")
      (order_creation_idempotent_replay (sampleEnv ⟨.undefined, .undefined⟩)
        (sampleEnv ⟨.undefined, .undefined⟩) sampleOrder (sampleShop 5) _ rfl rfl (by decide)
        ⟨rfl, rfl, rfl, rfl, rfl, fun _ => rfl, fun _ => rfl⟩
        ⟨rfl, rfl, rfl, rfl, rfl, fun _ => rfl, fun _ => rfl⟩).2.2.1).trans (by decide)⟩

/-! ### Transaction date -/

theorem jsToLowerCase_eq (s : String) : jsToLowerCase s = String.mk (s.data.map Char.toLower) := by
  rw [jsToLowerCase, String.map_eq]


theorem digitChar_of_digit (c : Char) (h : isAsciiDigit c = true) :
    Nat.digitChar (c.toNat - 48) = c := by
  have hc : Char.ofNat c.toNat = c := Char.ofNat_toNat c
  simp only [isAsciiDigit, Bool.and_eq_true, decide_eq_true_eq] at h
  obtain ⟨n, hn⟩ : ∃ n, c.toNat = n := ⟨_, rfl⟩
  rw [hn] at h hc
  rw [hn, ← hc]
  obtain ⟨h1, h2⟩ := h
  interval_cases n <;> rfl

theorem digit_value_lt (c : Char) (h : isAsciiDigit c = true) : c.toNat - 48 < 10 := by
  simp only [isAsciiDigit, Bool.and_eq_true, decide_eq_true_eq] at h
  omega

theorem pad2_of_digits (a b : Char) (ha : isAsciiDigit a = true) (hb : isAsciiDigit b = true)
    (n : Nat) (hn : n = 10 * (a.toNat - 48) + (b.toNat - 48)) : pad2 n = [a, b] := by
  have h1 := digit_value_lt a ha
  have h2 := digit_value_lt b hb
  have e1 : n / 10 = a.toNat - 48 := by omega
  have e2 : n % 10 = b.toNat - 48 := by omega
  rw [pad2, e1, e2, digitChar_of_digit a ha, digitChar_of_digit b hb]

theorem digitsToNat_two (a b : Char) :
    digitsToNat [a, b] = 10 * (a.toNat - 48) + (b.toNat - 48) := by
  simp [digitsToNat]

theorem digitsToNat_four (a b c d : Char) :
    digitsToNat [a, b, c, d] =
      10 * (10 * (10 * (a.toNat - 48) + (b.toNat - 48)) + (c.toNat - 48)) + (d.toNat - 48) := by
  simp [digitsToNat]

theorem pad2_digitsToNat (a b : Char) (ha : isAsciiDigit a = true) (hb : isAsciiDigit b = true) :
    pad2 (digitsToNat [a, b]) = [a, b] :=
  pad2_of_digits a b ha hb _ (digitsToNat_two a b)

theorem pad4_digitsToNat (a b c d : Char) (ha : isAsciiDigit a = true)
    (hb : isAsciiDigit b = true) (hc : isAsciiDigit c = true) (hd : isAsciiDigit d = true) :
    digitsToNat [a, b, c, d] ≤ 9999 ∧ pad4 (digitsToNat [a, b, c, d]) = [a, b, c, d] := by
  have h1 := digit_value_lt a ha
  have h2 := digit_value_lt b hb
  have h3 := digit_value_lt c hc
  have h4 := digit_value_lt d hd
  rw [digitsToNat_four]
  refine ⟨by omega, ?_⟩
  rw [pad4, pad2_of_digits a b ha hb _ (by omega), pad2_of_digits c d hc hd _ (by omega)]
  rfl

/-- A list of fourteen characters, spelled out. -/
theorem fourteen_chars (s : List Char) (hlen : s.length = 14) :
    ∃ y1 y2 y3 y4 m1 m2 d1 d2 h1 h2 n1 n2 s1 s2 : Char, s = [y1, y2, y3, y4, m1, m2, d1, d2, h1, h2, n1, n2, s1, s2] := by
  rcases s with _ | ⟨y1, _ | ⟨y2, _ | ⟨y3, _ | ⟨y4, _ | ⟨m1, _ | ⟨m2, _ | ⟨d1, _ | ⟨d2, _ | ⟨h1, _ | ⟨h2, _ | ⟨n1, _ | ⟨n2, _ | ⟨s1, _ | ⟨s2, _ | ⟨x, t⟩⟩⟩⟩⟩⟩⟩⟩⟩⟩⟩⟩⟩⟩⟩ <;> simp at hlen
  exact ⟨_, _, _, _, _, _, _, _, _, _, _, _, _, _, rfl⟩

theorem daysInMonth_le (y m : Nat) : daysInMonth y m ≤ 31 := by
  unfold daysInMonth
  split_ifs <;> omega

theorem inRange_of_isRealDate (f : DateFields) (h : f.isRealDate = true) : f.inRange = true := by
  have hd := daysInMonth_le f.year f.month
  simp only [DateFields.isRealDate, Bool.and_eq_true, decide_eq_true_eq] at h
  simp only [DateFields.inRange, Bool.and_eq_true, Bool.or_eq_true, decide_eq_true_eq]
  exact ⟨⟨⟨⟨h.1.1.1.1.1.1, h.1.1.1.1.1.2⟩, h.1.1.1.1.2⟩, by omega⟩, Or.inl ⟨⟨h.1.1.2, h.1.2⟩, h.2⟩⟩

theorem normalize_of_isRealDate (f : DateFields) (h : f.isRealDate = true) : f.normalize = f := by
  simp only [DateFields.isRealDate, Bool.and_eq_true, decide_eq_true_eq] at h
  have h24 : (f.hour == 24) = false := by
    simp only [beq_eq_false_iff_ne, ne_eq]
    omega
  simp only [DateFields.normalize, h24, Bool.false_eq_true, if_false, h.1.1.1.2, if_true]

/-- The string the callback hands to `new Date` for a fourteen-digit
`TransactionDate`. -/
theorem parseTransactionDate_of_stamp (env : Env) (raw : JsVal) (htruthy : raw.truthy = true)
    (hlen : raw.toStr.data.length = 14) (hd : raw.toStr.data.all isAsciiDigit = true) :
    parseTransactionDate env raw =
      match env.dateToISOString
          (String.mk (raw.toStr.data.take 4 ++ ['-'] ++ (raw.toStr.data.drop 4).take 2 ++ ['-'] ++
            (raw.toStr.data.drop 6).take 2 ++ ['T'] ++ (raw.toStr.data.drop 8).take 2 ++ [':'] ++
            (raw.toStr.data.drop 10).take 2 ++ [':'] ++ (raw.toStr.data.drop 12).take 2 ++
            ['Z'])) with
      | some t => .ok (some t)
      | none => .error () := by
  simp [parseTransactionDate, htruthy, hlen, hd]

/-- The runtime's conversion of the string built from fourteen digits: it
looks only at the ranges of the fields. -/
theorem newDateToISOString_of_stamp (s : List Char) (hlen : s.length = 14)
    (hd : s.all isAsciiDigit = true) :
    newDateToISOString
        (String.mk (s.take 4 ++ ['-'] ++ (s.drop 4).take 2 ++ ['-'] ++ (s.drop 6).take 2 ++
          ['T'] ++ (s.drop 8).take 2 ++ [':'] ++ (s.drop 10).take 2 ++ [':'] ++
          (s.drop 12).take 2 ++ ['Z'])) =
      if (stampFields s).inRange then some (toISOString (stampFields s).normalize) else none := by
  obtain ⟨y1, y2, y3, y4, m1, m2, d1, d2, h1, h2, n1, n2, s1, s2, rfl⟩ := fourteen_chars s hlen
  simp only [List.all_cons, List.all_nil, Bool.and_true, Bool.and_eq_true] at hd
  simp [newDateToISOString, isoDateFields, stampFields, hd]

/-- Printing the fields of fourteen digits gives the digits back. -/
theorem toISOString_stampFields (s : List Char) (hlen : s.length = 14)
    (hd : s.all isAsciiDigit = true) : toISOString (stampFields s) = stampAsUtc s := by
  obtain ⟨y1, y2, y3, y4, m1, m2, d1, d2, h1, h2, n1, n2, s1, s2, rfl⟩ := fourteen_chars s hlen
  simp only [List.all_cons, List.all_nil, Bool.and_true, Bool.and_eq_true] at hd
  obtain ⟨hy1, hy2, hy3, hy4, hm1, hm2, hd1, hd2, hh1, hh2, hn1, hn2, hs1, hs2⟩ := hd
  have hy := pad4_digitsToNat y1 y2 y3 y4 hy1 hy2 hy3 hy4
  simp [toISOString, stampFields, stampAsUtc, hy.1, hy.2, pad2_digitsToNat, hm1, hm2, hd1, hd2,
    hh1, hh2, hn1, hn2, hs1, hs2]

/-- A value whose text is fourteen digits is truthy. -/
theorem truthy_of_stamp (raw : JsVal) (hlen : raw.toStr.data.length = 14) : raw.truthy = true := by
  cases raw with
  | undefined => simp [JsVal.toStr] at hlen
  | null => simp [JsVal.toStr] at hlen
  | bool b => cases b <;> simp [JsVal.toStr] at hlen
  | num n =>
    by_cases h0 : n = 0
    · subst h0
      revert hlen
      decide
    · simp [JsVal.truthy, h0]
  | str s =>
    simp only [JsVal.truthy, bne_iff_ne, ne_eq]
    rintro rfl
    simp [JsVal.toStr] at hlen

/-- A `TransactionDate` that is absent, or whose text is not fourteen digits,
gives no date and no error. -/
theorem parseTransactionDate_not_stamp (env : Env) (raw : JsVal)
    (h : ¬ (raw.toStr.data.length = 14 ∧ raw.toStr.data.all isAsciiDigit = true)) :
    parseTransactionDate env raw = .ok none := by
  have h2 : (raw.toStr.data.length == 14 && raw.toStr.data.all isAsciiDigit) = false := by
    rw [Bool.eq_false_iff]
    intro hc
    exact h (by simpa using hc)
  unfold parseTransactionDate
  by_cases h1 : raw.truthy = true
  · simp only [h1, h2, if_true, Bool.false_eq_true, if_false]
  · simp only [h1, Bool.false_eq_true, if_false]

/-- A fourteen-digit `TransactionDate` that names a real date and time gives
the timestamp written with its own digits. -/
theorem parseTransactionDate_real_date (env : Env) (raw : JsVal)
    (hbuiltin : env.dateToISOString = newDateToISOString)
    (hlen : raw.toStr.data.length = 14) (hd : raw.toStr.data.all isAsciiDigit = true)
    (hreal : (stampFields raw.toStr.data).isRealDate = true) :
    parseTransactionDate env raw = .ok (some (stampAsUtc raw.toStr.data)) := by
  rw [parseTransactionDate_of_stamp env raw (truthy_of_stamp raw hlen) hlen hd, hbuiltin,
    newDateToISOString_of_stamp _ hlen hd, if_pos (inRange_of_isRealDate _ hreal),
    normalize_of_isRealDate _ hreal, toISOString_stampFields _ hlen hd]

/-- A fourteen-digit `TransactionDate` with a field out of range makes the
conversion throw. -/
theorem parseTransactionDate_out_of_range (env : Env) (raw : JsVal)
    (hbuiltin : env.dateToISOString = newDateToISOString)
    (hlen : raw.toStr.data.length = 14) (hd : raw.toStr.data.all isAsciiDigit = true)
    (hout : (stampFields raw.toStr.data).inRange = false) :
    parseTransactionDate env raw = .error () := by
  rw [parseTransactionDate_of_stamp env raw (truthy_of_stamp raw hlen) hlen hd, hbuiltin,
    newDateToISOString_of_stamp _ hlen hd, hout]
  rfl

/-- The record carries the parsed date, and there is no record when the
conversion throws. -/
theorem transactionRecord_date (env : Env) (stk : StkCallback) :
    (∀ d, parseTransactionDate env (pickCallbackValue stk.Item "TransactionDate") = .ok d →
      ∃ rec, transactionRecord env stk = .ok rec ∧ rec.transaction_date = some d) ∧
    (parseTransactionDate env (pickCallbackValue stk.Item "TransactionDate") = .error () →
      transactionRecord env stk = .error ()) := by
  constructor
  · intro d hdate
    simp only [transactionRecord, hdate]
    exact ⟨_, rfl, rfl⟩
  · intro hdate
    simp only [transactionRecord, hdate]

/-- When the date conversion throws, the handler has acknowledged the callback
and does nothing else: no call to the store is made and no row changes. -/
theorem callbackHandler_of_date_throws (env : Env) (stk : StkCallback) (w : Store)
    (h : parseTransactionDate env (pickCallbackValue stk.Item "TransactionDate") = .error ()) :
    callbackHandler env (.envelope stk) w =
      { store := w, res := some ackResponse, calls := [] } := by
  have hrec := (transactionRecord_date env stk).2 h
  simp only [callbackHandler, processCallback, hrec]
  rfl

theorem newDateToISOString_rolls_over :
    newDateToISOString "2024-02-30T12:00:00Z" = some "2024-03-01T12:00:00.000Z" := by
  decide

/-- C21: a callback whose `TransactionDate` is fourteen digits that name no
date (month 13) is acknowledged and then dropped: no call reaches the store
and the row of its checkout id stays as it was, while the claim has the
record written with the date absent.  A `TransactionDate` of another shape is
written with the date absent, and one that names a real date is written as
its UTC timestamp. -/
theorem callback_unreal_date_writes_no_record :
    callbackHandler sampleDateEnv (.envelope (sampleDatedCallback (.num 20241301000000)))
        (sampleStore "pending") =
      { store := sampleStore "pending", res := some ackResponse, calls := [] } ∧
    ((callbackHandler sampleDateEnv (.envelope (sampleDatedCallback (.str "2024-13-01")))
        (sampleStore "pending")).store.lookupTx "ws_CO_1").map
          (fun r => (r.status, r.transaction_date)) = some (some "success", none) ∧
    ((callbackHandler sampleDateEnv (.envelope (sampleDatedCallback (.num 20240501103000)))
        (sampleStore "pending")).store.lookupTx "ws_CO_1").map
          (fun r => (r.status, r.transaction_date)) =
        some (some "success", some "2024-05-01T10:30:00.000Z") := by
  simp only [callbackHandler, processCallback, transactionRecord, pickCallbackValue,
    jsToLowerCase_eq]
  decide

/-! ### Fallback upsert of the callback -/

theorem deductLoop_no_upsert (env : Env) (items : List LineItem) :
    ∀ (i : Nat) (st : HState),
      Call.txUpsert ∈ (deductLoop env i items st).1.calls → Call.txUpsert ∈ st.calls := by
  induction items with
  | nil => intro i st h; exact h
  | cons item rest ih =>
    intro i st
    simp only [deductLoop]
    split
    · intro h; simpa [HState.call] using h
    · intro h; simpa [HState.call] using ih _ _ h
    · split
      · intro h; simpa [HState.call] using ih _ _ h
      · split
        · intro h; simpa [HState.call] using ih _ _ h
        · split
          · split
            · intro h; simpa [HState.call] using h
            · intro h; simpa [HState.call] using ih _ _ h
            · intro h; simpa [HState.call] using ih _ _ h
          · intro h; simpa [HState.call] using ih _ _ h

theorem deductInventory_no_upsert (env : Env) (items : List LineItem) (st : HState) :
    Call.txUpsert ∈ (deductInventory env items st).1.calls → Call.txUpsert ∈ st.calls := by
  unfold deductInventory
  split
  · exact id
  · split
    · exact deductLoop_no_upsert env items 0 st
    · exact id

/-- The keyed update returns normally and is not an upsert. -/
theorem update_no_upsert (env : Env) (id : JsVal) (p : TxPatch) (st : HState) :
    ∃ st', supabaseUpdateMpesaTransactionByCheckoutRequestId env id p st = .ok st' ∧
      (Call.txUpsert ∈ st'.calls → Call.txUpsert ∈ st.calls) := by
  unfold supabaseUpdateMpesaTransactionByCheckoutRequestId
  by_cases hc : env.storeConfigured = true
  · by_cases hi : id.truthy = true
    · cases hp : env.txPatch <;>
        simp only [hc, hi, Bool.not_true, Bool.false_eq_true, if_false] <;>
        exact ⟨_, rfl, fun h => by simpa [HState.call] using h⟩
    · exact ⟨st, by simp [hc, hi], fun h => h⟩
  · exact ⟨st, by simp [hc], fun h => h⟩


/-- After the keyed update has returned the state `s1`, the rest of the
processing makes no upsert. -/
theorem processCallback_after_update_no_upsert (env : Env) (stk : StkCallback)
    (st s1 st' : HState) (rec : TxPatch) (hrec : transactionRecord env stk = .ok rec)
    (hs1 : supabaseUpdateMpesaTransactionByCheckoutRequestId env
      (stk.CheckoutRequestID.or .null) rec st = .ok s1)
    (h : processCallback env stk st = .ok st' ∨ processCallback env stk st = .error st') :
    Call.txUpsert ∈ st'.calls → Call.txUpsert ∈ s1.calls := by
  unfold processCallback at h
  simp only [hrec, hs1] at h
  split_ifs at h
  · cases hm : env.metadataGet <;> simp only [hm] at h
    · cases hl : (s1.call (.metadataGet (stk.CheckoutRequestID.or .null).toStr)).store.lookupTx
          (stk.CheckoutRequestID.or .null).toStr with
      | none =>
        simp only [hl] at h
        rcases h with h | h <;> cases h
        intro hu; simpa [HState.call] using hu
      | some tx =>
        simp only [hl] at h
        cases hmd : tx.metadata with
        | absent =>
          simp only [hmd] at h
          rcases h with h | h <;> cases h
          intro hu; simpa [HState.call] using hu
        | malformed =>
          simp only [hmd] at h
          rcases h with h | h <;> cases h
          intro hu; simpa [HState.call] using hu
        | parsed items =>
          cases items with
          | none =>
            simp only [hmd] at h
            rcases h with h | h <;> cases h
            intro hu; simpa [HState.call] using hu
          | some items =>
            simp only [hmd] at h
            rcases h with h | h <;> cases h
            intro hu
            simpa [HState.call] using deductInventory_no_upsert env items _ hu
    · rcases h with h | h <;> cases h
      intro hu; simpa [HState.call] using hu
    · rcases h with h | h <;> cases h
      intro hu; simpa [HState.call] using hu
  · rcases h with h | h <;> cases h
    exact fun hu => hu
  · rcases h with h | h <;> cases h
    exact fun hu => hu

/-- However the processing of a callback ends, it has made no upsert: the
keyed update never raises the error that the fallback waits for. -/
theorem processCallback_no_upsert (env : Env) (stk : StkCallback) (st st' : HState)
    (h : processCallback env stk st = .ok st' ∨ processCallback env stk st = .error st') :
    Call.txUpsert ∈ st'.calls → Call.txUpsert ∈ st.calls := by
  cases hrec : transactionRecord env stk with
  | error e =>
    unfold processCallback at h
    simp only [hrec] at h
    rcases h with h | h
    · cases h
    · cases h
      exact fun hu => hu
  | ok rec =>
    obtain ⟨s1, hs1, hcalls⟩ := update_no_upsert env (stk.CheckoutRequestID.or .null) rec st
    exact fun hu =>
      hcalls (processCallback_after_update_no_upsert env stk st s1 st' rec hrec hs1 h hu)

/-- The callback handler makes no upsert, whatever the request, the
environment and the store. -/
theorem callbackHandler_no_upsert (env : Env) (req : CallbackRequest) (w : Store) :
    Call.txUpsert ∉ (callbackHandler env req w).calls := by
  cases req with
  | unparseable => simp [callbackHandler, send_calls]
  | noStkCallback => simp [callbackHandler, send_calls]
  | envelope stk =>
    intro hu
    have hstart : Call.txUpsert ∉
        (({ store := w, res := none, calls := [] } : HState).send ackResponse).calls := by
      simp [send_calls]
    unfold callbackHandler at hu
    simp only at hu
    cases hp : processCallback env stk
        (({ store := w, res := none, calls := [] } : HState).send ackResponse) with
    | ok st2 =>
      rw [hp] at hu
      exact hstart (processCallback_no_upsert env stk _ st2 (Or.inl hp) hu)
    | error st2 =>
      rw [hp] at hu
      simp only [send_calls] at hu
      exact hstart (processCallback_no_upsert env stk _ st2 (Or.inr hp) hu)

/-- A keyed update of a key that no row has changes no row. -/
theorem patchTx_of_lookupTx_none (w : Store) (cid : String) (p : TxPatch)
    (h : w.lookupTx cid = none) : w.patchTx cid p = w := by
  have hall : ∀ r ∈ w.transactions, r.hasCheckoutId cid = false := by
    intro r hr
    have := List.find?_eq_none.mp h r hr
    simpa using this
  have hmap : w.transactions.map (fun r => if r.hasCheckoutId cid then p.applyTo r else r) =
      w.transactions := by
    conv_rhs => rw [← List.map_id w.transactions]
    apply List.map_congr_left
    intro r hr
    simp [hall r hr]
  simp only [Store.patchTx, hmap]

/-- C22: for every callback whose checkout id matches no transaction row,
in every environment, the handler makes no upsert, leaves the transactions as
they were, and a lookup of that checkout id still finds no row afterwards; the
claim has a row with the classified status inserted. -/
theorem callback_unknown_checkout_id_not_inserted (env : Env) (stk : StkCallback) (w : Store)
    (hnone : w.lookupTx (stk.CheckoutRequestID.or .null).toStr = none) :
    Call.txUpsert ∉ (callbackHandler env (.envelope stk) w).calls ∧
      (callbackHandler env (.envelope stk) w).store.transactions = w.transactions ∧
      (callbackHandler env (.envelope stk) w).store.lookupTx
        (stk.CheckoutRequestID.or .null).toStr = none := by
  have htx : (callbackHandler env (.envelope stk) w).store.transactions = w.transactions := by
    obtain ⟨st', hp, hstore, _⟩ := callbackHandler_envelope env stk w
    rw [hstore]
    rcases (processCallback_frame env stk _ st' hp).2 with h | ⟨_, rec, _, h⟩
    · rw [h, send_store]
    · rw [h, send_store, patchTx_of_lookupTx_none w _ _ hnone]
  refine ⟨callbackHandler_no_upsert env _ w, htx, ?_⟩
  rw [lookupTx_congr _ w _ htx]
  exact hnone

theorem callback_unknown_checkout_id_not_inserted_witness :
    (sampleStore "pending").lookupTx "ws_CO_9" = none ∧
      Call.txUpsert ∉ (callbackHandler (sampleEnv ⟨.undefined, .undefined⟩)
        (.envelope sampleUnknownCallback) (sampleStore "pending")).calls ∧
      (callbackHandler (sampleEnv ⟨.undefined, .undefined⟩)
        (.envelope sampleUnknownCallback) (sampleStore "pending")).store.lookupTx "ws_CO_9" =
          none :=
  ⟨by decide,
    (callback_unknown_checkout_id_not_inserted (sampleEnv ⟨.undefined, .undefined⟩)
      sampleUnknownCallback (sampleStore "pending") (by decide)).1,
    (callback_unknown_checkout_id_not_inserted (sampleEnv ⟨.undefined, .undefined⟩)
      sampleUnknownCallback (sampleStore "pending") (by decide)).2.2⟩

/-! ### The two deduction loops -/

/-- When no stock call rejects and every quantity converts to a number, the
loop of `create.js` and the loop of `callback.js` end in the same state: the
same calls in the same order and the same stock written. -/
theorem deduction_loops_agree (env : Env) (items : List LineItem)
    (hget : ∀ i, env.stockGet i ≠ .throws) (hpatch : ∀ i, env.stockPatch i ≠ .throws)
    (hq : ∀ item ∈ items, jsToNumber env item.quantity ≠ none) :
    ∀ (i : Nat) (st : HState) (flag : Bool),
      (createDeductLoop env i items (st, flag)).1 = (deductLoop env i items st).1 := by
  induction items with
  | nil => intro i st flag; rfl
  | cons item rest ih =>
    have ih := ih (fun it hit => hq it (List.mem_cons_of_mem _ hit))
    have hqi := hq item (List.mem_cons_self _ _)
    intro i st flag
    simp only [deductLoop, createDeductLoop]
    cases hg : env.stockGet i with
    | throws => exact absurd hg (hget i)
    | httpError => exact ih _ _ _
    | ok =>
      simp only
      cases hf : (st.call (.stockGet item.id.toStr)).store.products.find?
          (fun p => p.id == item.id.toStr) with
      | none => exact ih _ _ _
      | some p =>
        simp only
        cases hn : jsToNumber env item.quantity with
        | none => exact absurd hn hqi
        | some q =>
          simp only
          by_cases hlt : p.stock.getD 0 - q < 0
          · have hge : ¬ p.stock.getD 0 - q ≥ 0 := by omega
            simp only [hlt, hge, if_true, if_false]
            exact ih _ _ _
          · have hge : p.stock.getD 0 - q ≥ 0 := by omega
            simp only [hlt, hge, if_true, if_false]
            cases hp : env.stockPatch i with
            | throws => exact absurd hp (hpatch i)
            | httpError => exact ih _ _ _
            | ok => exact ih _ _ _

/-- C23: for a cart line without a quantity, on a product with stock 5, the
callback path's `deductInventory` reads the stock and writes nothing, while
the loop of the order-creation handler sends a stock update whose value is
`null` and the product's stock becomes `NULL`; the same holds through the two
handlers. -/
theorem deduction_paths_differ_on_missing_quantity :
    ((deductInventory (sampleEnv ⟨.undefined, .undefined⟩) [sampleItemNoQuantity]
        { store := sampleShopNoQuantity, res := none, calls := [] }).1.store.products,
      (deductInventory (sampleEnv ⟨.undefined, .undefined⟩) [sampleItemNoQuantity]
        { store := sampleShopNoQuantity, res := none, calls := [] }).1.calls) =
      ([{ id := "p1", stock := some 5 }], [.stockGet "p1"]) ∧
    ((createDeductLoop (sampleEnv ⟨.undefined, .undefined⟩) 0 [sampleItemNoQuantity]
        ({ store := sampleShopNoQuantity, res := none, calls := [] }, true)).1.store.products,
      (createDeductLoop (sampleEnv ⟨.undefined, .undefined⟩) 0 [sampleItemNoQuantity]
        ({ store := sampleShopNoQuantity, res := none, calls := [] }, true)).1.calls) =
      ([{ id := "p1", stock := none }], [.stockGet "p1", .stockPatch "p1"]) ∧
    (callbackHandler (sampleEnv ⟨.undefined, .undefined⟩) (.envelope (sampleCallback (.num 0)))
        sampleShopNoQuantity).store.products = [{ id := "p1", stock := some 5 }] ∧
    (createHandler (sampleEnv ⟨.undefined, .undefined⟩) sampleOrderNoQuantity
        sampleShopNoQuantity).store.products = [{ id := "p1", stock := none }] := by
  decide

end EOrg
